import Mathlib

/-!
Ferry reservation system: lane-capacity ledger and fixed-record stores.

A shallow embedding of the storage and capacity-accounting core of the ferry
reservation system (`sailingASM.cpp`, `vehicleASM.cpp`, `reservationASM.cpp`,
`ferryASM.cpp`, `sailingManager.cpp`, `reservationManager.cpp`).

Modelling conventions

* A binary record file is the list of its records, in file order.  Record `i`
  of the file is element `i` of the list; `getRecordCount` is the length.
* C strings held in fixed `char` buffers are Lean `String`s and `strcmp(a, b) == 0`
  is equality.  Every `strncpy` in the modelled flows copies from a buffer that is
  no larger than its destination, so it is modelled as a plain copy.  `isalpha`,
  `isdigit` and `toupper` are those of the "C" locale.
* A `float` (lane length, vehicle dimension) is the rational number it holds; the
  comparisons are exact, and the result of `+=` and `-=` is rounded to binary32
  (round to nearest, ties to even) by `f32`.  A `float` literal such as `9.9f` is
  the binary32 value nearest to the decimal.  Infinities and NaN are outside the
  model; sums and differences of a stored lane length and a length that passes the
  dimension guard never exceed the binary32 range.
* `int` record indices produced by the scanning loops are natural numbers, so the
  guards `index < 0` of the ASM classes never fire.
* The `int` counter `onboardVehicleCount` is an integer and the result of `+=` on
  it is reduced to the 32-bit two's-complement range by `wrapInt`.
* A flow works on the files its streams are open on.  `deleteFlow`, `checkInFlow`
  and the cascade of `deleteSailingByDate` open their stream on the reservation file
  when they start; `createFlow` uses the stream `ReservationManager` has held open
  since start-up or since the last `deleteFlow`, `checkInFlow` or listing, and
  `createFlowStale` is `createFlow` run while that stream is open on a file that a
  cascade has replaced in the meantime.
* Writes succeed, except the write of a reservation record, whose outcome is a
  parameter (`WriteOutcome`).
* The interactive prompts of a flow are replaced by a record of the answers the
  user gave; the result of a flow is the new contents of the files together with
  the branch (the message printed) in which the flow ended.
* A loop without a bound in the code (`while (true)`) takes a bound on its number
  of rounds as an extra argument and yields `none` when the bound is used up; the
  theorems show which bound is enough for a result.
-/

namespace FerrySys

/-! ## Records -/

/-- The `SailingRecord` struct of `sailingASM.h`. -/
structure SailingRecord where
  date : String
  ferryName : String
  highLaneRestLength : ℚ
  lowLaneRestLength : ℚ
  onboardVehicleCount : Int
deriving DecidableEq

/-- The `Vehicle` struct of `vehicleASM.h`. -/
structure Vehicle where
  licensePlate : String
  customerPhone : String
  specialLength : ℚ
  specialHeight : ℚ
deriving DecidableEq

/-- The `ReservationRecord` struct of `reservationASM.h`. -/
structure ReservationRecord where
  sailingId : String
  licensePlate : String
  isOnboard : Bool
  laneUsed : Char
deriving DecidableEq

/-- The failure value `'\0'` of the `char`-returning capacity update. -/
def NUL : Char := Char.ofNat 0

/-! ## Machine arithmetic -/

/-- The integer nearest to `q`, the even one of the two when `q` lies half-way. -/
def roundHalfEven (q : ℚ) : Int :=
  let n := ⌊q⌋
  if q - n < 1 / 2 then n
  else if q - n > 1 / 2 then n + 1
  else if n % 2 = 0 then n else n + 1

/-- The binary32 value a `float` holds after an operation with exact result `x`: `x`
rounded to 24 significant bits, to nearest with ties to even.  `e` is the binary
exponent of `x`, not below the exponent -126 of the subnormal numbers, and
`2 ^ (e - 23)` is the spacing of the binary32 values at `x`. -/
def f32 (x : ℚ) : ℚ :=
  let e : Int := max (Int.log 2 |x|) (-126)
  let ulp : ℚ := 2 ^ (e - 23)
  roundHalfEven (x / ulp) * ulp

/-- The `float` literal `9.9f`. -/
def float9_9 : ℚ := f32 9.9

/-- The `float` literal `99.9f`. -/
def float99_9 : ℚ := f32 99.9

/-- The `float` the size prompt of `createFlow` leaves for the input 7.1. -/
def float7_1 : ℚ := f32 7.1

/-- The `float` the size prompt of `createFlow` leaves for the input 16.2. -/
def float16_2 : ℚ := f32 16.2

/-- The value an `int` holds after an operation with exact result `n`: `n` reduced to
the 32-bit two's-complement range. -/
def wrapInt (n : Int) : Int := (n + 2147483648) % 4294967296 - 2147483648

/-! ## Generic record-file operations -/

/-- The scanning loop `for (i = 0; i < count; ++i) if (getRecord(i, r) && p(r)) ...`:
the first index at or after `i` whose record satisfies `p`, with that record. -/
def scanFrom {α : Type} (p : α → Bool) : List α → Nat → Option (Nat × α)
  | [], _ => none
  | r :: rs, i => if p r then some (i, r) else scanFrom p rs (i + 1)

/-- The scan started at index 0. -/
def scanFirst {α : Type} (p : α → Bool) (xs : List α) : Option (Nat × α) :=
  scanFrom p xs 0

/-- The `truncateFile(numRecords)` of the ASM classes: the first `numRecords`
records are rewritten to a fresh file that replaces the old one. -/
def truncateFile {α : Type} (numRecords : Nat) (xs : List α) : List α :=
  xs.take numRecords

/-- The overwrite-and-truncate deletion shared by `SailingASM::deleteRecord`,
`VehicleASM::deleteRecord` and `ReservationASM::deleteReservationByIndex`:
out of range nothing happens; otherwise, unless `index` is the last record, the
last record is written over `index`, and the file is truncated by one record. -/
def swapDelete {α : Type} (xs : List α) (index : Nat) : List α :=
  let count := xs.length
  if index ≥ count then xs
  else
    let ys :=
      if index ≠ count - 1 then
        match xs[count - 1]? with
        | some last => xs.set index last
        | none => xs
      else xs
    truncateFile (count - 1) ys

namespace SailingASM

/-- Embeds `SailingASM::getRecordCount`. -/
def getRecordCount (db : List SailingRecord) : Nat := db.length

/-- Embeds `SailingASM::getRecord`: the record at `index`, when the read succeeds. -/
def getRecord (db : List SailingRecord) (index : Nat) : Option SailingRecord := db[index]?

/-- Embeds `SailingASM::updateRecord`. -/
def updateRecord (db : List SailingRecord) (index : Nat) (r : SailingRecord) :
    List SailingRecord := db.set index r

/-- Embeds `SailingASM::addRecord`. -/
def addRecord (db : List SailingRecord) (r : SailingRecord) : List SailingRecord := db ++ [r]

/-- Embeds `SailingASM::deleteRecord`. -/
def deleteRecord (db : List SailingRecord) (index : Nat) : List SailingRecord :=
  swapDelete db index

end SailingASM

namespace VehicleASM

/-- Embeds `VehicleASM::getRecordCount`. -/
def getRecordCount (db : List Vehicle) : Nat := db.length

/-- Embeds `VehicleASM::getRecord`. -/
def getRecord (db : List Vehicle) (index : Nat) : Option Vehicle := db[index]?

/-- Embeds `VehicleASM::addRecord`. -/
def addRecord (db : List Vehicle) (v : Vehicle) : List Vehicle := db ++ [v]

/-- Embeds `VehicleASM::deleteRecord`. -/
def deleteRecord (db : List Vehicle) (index : Nat) : List Vehicle :=
  swapDelete db index

end VehicleASM

/-- The outcome of the `write` and `flush` of `writeReservationRecord`.
`written`: the stream is good and the record is in the file.
`refused`: the stream is bad and the record never reaches the file.
`buffered`: the stream is bad after the `flush`, but the record stays in the buffer
of the stream and is written to the end of the file by the next `seekp`, `flush`
or `close` of the stream. -/
inductive WriteOutcome where
  | written
  | refused
  | buffered
deriving DecidableEq

namespace ReservationASM

/-- Embeds `ReservationASM::getRecordCount`. -/
def getRecordCount (db : List ReservationRecord) : Nat := db.length

/-- Embeds `ReservationASM::get`: the record at `index`; a failed read leaves the
zero-initialised record. -/
def get (db : List ReservationRecord) (index : Nat) : ReservationRecord :=
  match db[index]? with
  | some r => r
  | none => { sailingId := "", licensePlate := "", isOnboard := false, laneUsed := NUL }

/-- Embeds `ReservationASM::writeReservationRecord`: normalises the lane and appends the
record.  The flag returned is `file.good()` after the `flush`; the file returned is
the reservation file once the buffer of the stream has been written out. -/
def writeReservationRecord (db : List ReservationRecord) (licensePlate sailingID : String)
    (isOnboard : Bool) (laneUsed : Char) (io : WriteOutcome) : Bool × List ReservationRecord :=
  let lane := if laneUsed ≠ 'H' ∧ laneUsed ≠ 'L' then 'L' else laneUsed
  let record : ReservationRecord :=
    { sailingId := sailingID, licensePlate := licensePlate, isOnboard := isOnboard,
      laneUsed := lane }
  match io with
  | .written => (true, db ++ [record])
  | .refused => (false, db)
  | .buffered => (false, db ++ [record])

/-- Embeds `ReservationASM::existsReservation`. -/
def existsReservation (db : List ReservationRecord) (licensePlate sailingID : String) : Bool :=
  db.any (fun r => r.licensePlate == licensePlate && r.sailingId == sailingID)

/-- The reading loop of `findAllIndexesByLicense`, with `idx` the running index. -/
def findAllIndexesFrom (plate : String) : List ReservationRecord → Nat → List Nat
  | [], _ => []
  | r :: rs, idx =>
    if r.licensePlate = plate then idx :: findAllIndexesFrom plate rs (idx + 1)
    else findAllIndexesFrom plate rs (idx + 1)

/-- Embeds `ReservationASM::findAllIndexesByLicense`. -/
def findAllIndexesByLicense (db : List ReservationRecord) (plate : String) : List Nat :=
  findAllIndexesFrom plate db 0

/-- Embeds `ReservationASM::checkInReservationByIndex`. -/
def checkInReservationByIndex (db : List ReservationRecord) (index : Nat) :
    Bool × List ReservationRecord :=
  if index ≥ db.length then (false, db)
  else (true, db.set index { get db index with isOnboard := true })

/-- Embeds `ReservationASM::deleteReservationByIndex`. -/
def deleteReservationByIndex (db : List ReservationRecord) (target : Nat) :
    Bool × List ReservationRecord :=
  if target ≥ db.length then (false, db) else (true, swapDelete db target)

end ReservationASM

namespace SailingManager

/-- Embeds `SailingManager::sailingExists`. -/
def sailingExists (db : List SailingRecord) (date : String) : Bool :=
  (scanFirst (fun r => r.date == date) db).isSome

/-- Embeds `SailingManager::addSailing`. -/
def addSailing (db : List SailingRecord) (record : SailingRecord) : Bool × List SailingRecord :=
  if sailingExists db record.date then (false, db)
  else (true, SailingASM.addRecord db record)

/-- The `canFit` test in the loop of `getMatchingSailings`. -/
def canFit (height length : ℚ) (r : SailingRecord) : Bool :=
  if height > 2.0 then decide (r.highLaneRestLength ≥ length)
  else decide (r.lowLaneRestLength ≥ length ∨ r.highLaneRestLength ≥ length)

/-- Embeds `SailingManager::getMatchingSailings`: the first `maxCount` records, in file
order, that can take the vehicle. -/
def getMatchingSailings (db : List SailingRecord) (height length : ℚ) (maxCount : Nat) :
    List SailingRecord :=
  (db.filter (canFit height length)).take maxCount

/-- Embeds `SailingManager::updateLaneLengths` (five-argument overload): returns the lane
used (`NUL` on failure) and the new contents of the sailing file. -/
def updateLaneLengths (db : List SailingRecord) (date : String) (height length : ℚ)
    (isReversing : Bool) (laneHint : Char) : Char × List SailingRecord :=
  if height ≤ 0 ∨ height > float9_9 ∨ length ≤ 0 ∨ length > float99_9 then (NUL, db)
  else
    match scanFirst (fun r => r.date == date) db with
    | none => (NUL, db)
    | some (i, r) =>
      if isReversing then
        if laneHint ≠ 'H' ∧ laneHint ≠ 'L' then (NUL, db)
        else if laneHint = 'H' then
          (laneHint, SailingASM.updateRecord db i
            { r with highLaneRestLength := f32 (r.highLaneRestLength + length) })
        else
          (laneHint, SailingASM.updateRecord db i
            { r with lowLaneRestLength := f32 (r.lowLaneRestLength + length) })
      else if height > 2.0 then
        if r.highLaneRestLength ≥ length then
          ('H', SailingASM.updateRecord db i
            { r with highLaneRestLength := f32 (r.highLaneRestLength - length) })
        else (NUL, db)
      else if r.lowLaneRestLength ≥ length then
        ('L', SailingASM.updateRecord db i
          { r with lowLaneRestLength := f32 (r.lowLaneRestLength - length) })
      else if r.highLaneRestLength ≥ length then
        ('H', SailingASM.updateRecord db i
          { r with highLaneRestLength := f32 (r.highLaneRestLength - length) })
      else (NUL, db)

/-- Embeds `SailingManager::updateOnboardCount`: `+=` on the `int` field, then the clamp
at 0. -/
def updateOnboardCount (db : List SailingRecord) (date : String) (delta : Int) :
    List SailingRecord :=
  match scanFirst (fun r => r.date == date) db with
  | none => db
  | some (i, r) =>
    let n := wrapInt (r.onboardVehicleCount + delta)
    SailingASM.updateRecord db i { r with onboardVehicleCount := if n < 0 then 0 else n }

end SailingManager

/-! ## The reservation flows -/

/-- The three record files the reservation flows work on:
`sailings.dat`, `vehicles.dat` and `reservations.dat`. -/
structure Stores where
  sailings : List SailingRecord
  vehicles : List Vehicle
  reservations : List ReservationRecord
deriving DecidableEq

namespace ReservationManager

/-- The file-local helper `sailingStillExists` of `reservationManager.cpp`. -/
def sailingStillExists (db : List SailingRecord) (sailingID : String) : Bool :=
  (scanFirst (fun r => r.date == sailingID) db).isSome

/-- Embeds `ReservationManager::checkVehicleConsistency`: the first stored vehicle with the
same plate decides; a different phone or a different size is a conflict. -/
def checkVehicleConsistency (db : List Vehicle) (newVehicle : Vehicle) : Bool :=
  match scanFirst (fun e => e.licensePlate == newVehicle.licensePlate) db with
  | none => true
  | some (_, existing) =>
    if existing.customerPhone ≠ newVehicle.customerPhone then false
    else if existing.specialHeight ≠ newVehicle.specialHeight ∨
        existing.specialLength ≠ newVehicle.specialLength then false
    else true

/-- The answers given to the prompts of `createFlow`: the vehicle size left by the
type and size prompts, the entry picked in `showAvailableAndSelect` (`none` for
`q`), the accepted plate (upper-cased), the formatted phone number, and the final
Submit (`true`) or Cancel (`false`). -/
structure CreateAnswers where
  height : ℚ
  length : ℚ
  selection : Option Nat
  plate : String
  phone : String
  submit : Bool

/-- The branch in which `createFlow` ended. -/
inductive CreateOutcome where
  | noSailings
  | noneSelected
  | duplicate
  | cancelled
  | vehicleConflict
  | allocFailed
  | writeFailed
  | confirmed
deriving DecidableEq

/-- The value returned by `SailingManager::showAvailableAndSelect`: the date of the
picked entry of the match list, or the empty string when the user quits.  The prompt
accepts no entry outside the list. -/
def showAvailableAndSelect (matchList : List SailingRecord) (selection : Option Nat) : String :=
  match selection with
  | none => ""
  | some k =>
    match matchList[k]? with
    | some r => r.date
    | none => ""

/-- The "Save Vehicle" block of `createFlow`: the vehicle is appended unless a
stored vehicle already has its plate. -/
def saveVehicle (db : List Vehicle) (v : Vehicle) : List Vehicle :=
  let vehicleExists := db.any (fun t => t.licensePlate == v.licensePlate)
  if !vehicleExists then VehicleASM.addRecord db v else db

/-- The sailing ID `createFlow` works with: the search for sailings that fit (at
most 100 matches) followed by the selection prompt. -/
def selectedSailing (st : Stores) (a : CreateAnswers) : String :=
  showAvailableAndSelect
    (SailingManager.getMatchingSailings st.sailings a.height a.length 100) a.selection

/-- Embeds `ReservationManager::createFlow`, from the sailing search on.  `writeOk` is the
outcome of the write to the reservation file.  The reservation file of `st` is the
file the stream `reservationASM` of the manager is open on, which `createFlow` does
not reopen. -/
def createFlow (st : Stores) (a : CreateAnswers) (writeOk : WriteOutcome) :
    CreateOutcome × Stores :=
  let matchList := SailingManager.getMatchingSailings st.sailings a.height a.length 100
  if matchList.length = 0 then (.noSailings, st)
  else
    let selectedSailingId := selectedSailing st a
    if selectedSailingId.length = 0 then (.noneSelected, st)
    else if ReservationASM.existsReservation st.reservations a.plate selectedSailingId then
      (.duplicate, st)
    else if !a.submit then (.cancelled, st)
    else
      let v : Vehicle :=
        { licensePlate := a.plate, customerPhone := a.phone,
          specialLength := a.length, specialHeight := a.height }
      if !checkVehicleConsistency st.vehicles v then (.vehicleConflict, st)
      else
        let vehicles := saveVehicle st.vehicles v
        let alloc := SailingManager.updateLaneLengths st.sailings selectedSailingId
          v.specialHeight v.specialLength false NUL
        let usedLane := alloc.1
        if usedLane ≠ 'H' ∧ usedLane ≠ 'L' then
          (.allocFailed, { sailings := alloc.2, vehicles := vehicles,
                           reservations := st.reservations })
        else
          let wr := ReservationASM.writeReservationRecord st.reservations a.plate
            selectedSailingId false usedLane writeOk
          if !wr.1 then
            let back := SailingManager.updateLaneLengths alloc.2 selectedSailingId
              v.specialHeight v.specialLength true usedLane
            (.writeFailed, { sailings := back.2, vehicles := vehicles, reservations := wr.2 })
          else
            (.confirmed,
              { sailings := SailingManager.updateOnboardCount alloc.2 selectedSailingId 1,
                vehicles := vehicles, reservations := wr.2 })

/-- The indices of `indexes` whose reservation refers to a stored sailing. -/
def validOf (sailings : List SailingRecord) (res : List ReservationRecord)
    (indexes : List Nat) : List Nat :=
  indexes.filter (fun idx => sailingStillExists sailings (ReservationASM.get res idx).sailingId)

/-- The indices of `indexes` whose reservation refers to no stored sailing. -/
def orphansOf (sailings : List SailingRecord) (res : List ReservationRecord)
    (indexes : List Nat) : List Nat :=
  indexes.filter (fun idx => !sailingStillExists sailings (ReservationASM.get res idx).sailingId)

/-- The loop `for (int idx : orphanIndexes) deleteReservationByIndex(idx)`. -/
def deleteAll (res : List ReservationRecord) (idxs : List Nat) : List ReservationRecord :=
  idxs.foldl (fun db idx => (ReservationASM.deleteReservationByIndex db idx).2) res

/-- The orphan purge of `deleteFlow`: the reservations of `plate` whose sailing is
gone are deleted by index, largest index first. -/
def purgeOrphans (sailings : List SailingRecord) (res : List ReservationRecord)
    (plate : String) : List ReservationRecord :=
  let indexes := ReservationASM.findAllIndexesByLicense res plate
  let orphanIndexes := orphansOf sailings res indexes
  if orphanIndexes.isEmpty then res
  else deleteAll res (orphanIndexes.mergeSort (fun a b => decide (a ≥ b)))

/-- The answers given to the prompts of `deleteFlow`: the plate (upper-cased), the
number typed at the selection prompt (anything that is not a number counts as 0),
and the final Delete (`true`) or Cancel (`false`). -/
structure DeleteAnswers where
  plate : String
  choice : Int
  confirm : Bool

/-- The branch in which `deleteFlow` ended; `deleted` carries the record selected. -/
inductive DeleteOutcome where
  | notFound
  | noValid
  | cancelled
  | deleteFailed
  | deleted (selected : ReservationRecord)
  | deletedSailingGone (selected : ReservationRecord)
deriving DecidableEq

/-- The block of `deleteFlow` run after the record is deleted and its sailing is
found to exist: the onboard count is decremented and, when the vehicle of the plate
is known and the persisted lane is 'H' or 'L', the vehicle length is given back to
that lane. -/
def restoreCounters (sailings : List SailingRecord) (vehicles : List Vehicle)
    (selected : ReservationRecord) : List SailingRecord :=
  let sailings1 := SailingManager.updateOnboardCount sailings selected.sailingId (-1)
  match scanFirst (fun t => t.licensePlate == selected.licensePlate) vehicles with
  | some (_, v) =>
    if selected.laneUsed = 'H' ∨ selected.laneUsed = 'L' then
      (SailingManager.updateLaneLengths sailings1 selected.sailingId
        v.specialHeight v.specialLength true selected.laneUsed).2
    else sailings1
  | none => sailings1

/-- Embeds `ReservationManager::deleteFlow`. -/
def deleteFlow (st : Stores) (a : DeleteAnswers) : DeleteOutcome × Stores :=
  let indexes := ReservationASM.findAllIndexesByLicense st.reservations a.plate
  if indexes.isEmpty then (.notFound, st)
  else
    let res1 := purgeOrphans st.sailings st.reservations a.plate
    let st1 : Stores := { st with reservations := res1 }
    let validIndexes :=
      validOf st.sailings res1 (ReservationASM.findAllIndexesByLicense res1 a.plate)
    if validIndexes.isEmpty then (.noValid, st1)
    else if a.choice ≤ 0 ∨ a.choice > (validIndexes.length : Int) then (.cancelled, st1)
    else
      let targetIndex := validIndexes.getD (a.choice - 1).toNat 0
      let selected := ReservationASM.get res1 targetIndex
      if !a.confirm then (.cancelled, st1)
      else
        let del := ReservationASM.deleteReservationByIndex res1 targetIndex
        if !del.1 then (.deleteFailed, { st1 with reservations := del.2 })
        else if sailingStillExists st.sailings selected.sailingId then
          (.deleted selected,
            { sailings := restoreCounters st.sailings st.vehicles selected,
              vehicles := st.vehicles, reservations := del.2 })
        else
          (.deletedSailingGone selected, { st1 with reservations := del.2 })

/-- The answers given in one round of the loop of `checkInFlow`: the plate
(upper-cased), the number typed at the selection prompt (`none` when it is not a
number) and the final Check-in (`true`) or Cancel (`false`). -/
structure CheckInAnswers where
  plate : String
  choice : Option Int
  confirm : Bool

/-- The list of candidates `pendingIndexes` built by `checkInFlow`. -/
def pendingIndexes (st : Stores) (plate : String) : List Nat :=
  (ReservationASM.findAllIndexesByLicense st.reservations plate).filter (fun idx =>
    !(ReservationASM.get st.reservations idx).isOnboard &&
      sailingStillExists st.sailings (ReservationASM.get st.reservations idx).sailingId)

/-- One round of the loop of `checkInFlow`. -/
def checkInRound (st : Stores) (a : CheckInAnswers) : Stores :=
  let indexes := ReservationASM.findAllIndexesByLicense st.reservations a.plate
  if indexes.isEmpty then st
  else
    let pending := pendingIndexes st a.plate
    if pending.isEmpty then st
    else
      match a.choice with
      | none => st
      | some choice =>
        if choice ≤ 0 ∨ choice > (pending.length : Int) then st
        else
          let targetIndex := pending.getD (choice - 1).toNat 0
          let selected := ReservationASM.get st.reservations targetIndex
          if !sailingStillExists st.sailings selected.sailingId then st
          else if selected.isOnboard then st
          else if !a.confirm then st
          else
            { st with reservations :=
                (ReservationASM.checkInReservationByIndex st.reservations targetIndex).2 }

/-- Embeds `ReservationManager::checkInFlow`: the rounds answered before `#` is typed. -/
def checkInFlow (st : Stores) (rounds : List CheckInAnswers) : Stores :=
  rounds.foldl checkInRound st

end ReservationManager

open ReservationManager

/-! ## Predicates, measures and worked-example data used in the statements -/

/-- The dimension guard at the head of `updateLaneLengths`. -/
def validDims (height length : ℚ) : Prop :=
  0 < height ∧ height ≤ float9_9 ∧ 0 < length ∧ length ≤ float99_9

/-- Record `i` is the sailing that `date` names: the first record with that date. -/
def IsSailingAt (db : List SailingRecord) (date : String) (i : Nat) (r : SailingRecord) : Prop :=
  db[i]? = some r ∧ r.date = date ∧ ∀ j x, j < i → db[j]? = some x → x.date ≠ date

/-- The sailing used in the worked examples. -/
def sailingA : SailingRecord :=
  { date := "AAA-01-01", ferryName := "Queen", highLaneRestLength := 10,
    lowLaneRestLength := 5, onboardVehicleCount := 0 }

/-- The store `ys` is `xs` after a swap-delete at `i`: one record fewer, the former
last record now at `i`, every other surviving index unchanged. -/
def SwapDeleted {α : Type} (xs ys : List α) (i : Nat) : Prop :=
  ys.length = xs.length - 1 ∧ ys[i]? = xs[xs.length - 1]? ∧
    ∀ j, j ≠ i → j < xs.length - 1 → ys[j]? = xs[j]?

/-- Three reservations used in the worked examples. -/
def resEx : List ReservationRecord :=
  [ { sailingId := "AAA-01-01", licensePlate := "ABC123", isOnboard := false, laneUsed := 'L' },
    { sailingId := "BBB-02-02", licensePlate := "XYZ789", isOnboard := false, laneUsed := 'H' },
    { sailingId := "AAA-01-01", licensePlate := "QRS456", isOnboard := true, laneUsed := 'H' } ]

/-- Two vehicles used in the worked examples. -/
def vehEx : List Vehicle :=
  [ { licensePlate := "ABC123", customerPhone := "604-123-4567", specialLength := 7,
      specialHeight := 2 },
    { licensePlate := "XYZ789", customerPhone := "604-765-4321", specialLength := 12,
      specialHeight := 3 } ]

/-- The vehicle record `createFlow` builds from the answers. -/
def vehicleOf (a : CreateAnswers) : Vehicle :=
  { licensePlate := a.plate, customerPhone := a.phone,
    specialLength := a.length, specialHeight := a.height }

/-- A sailing with room on both lanes, used in the worked examples. -/
def sailingB : SailingRecord :=
  { date := "AAA-01-01", ferryName := "Queen", highLaneRestLength := 100,
    lowLaneRestLength := 100, onboardVehicleCount := 0 }

/-- The answers of a customer booking a regular vehicle with plate ABC123 on the
first sailing offered. -/
def answersABC : CreateAnswers :=
  { height := 2, length := 7, selection := some 0, plate := "ABC123",
    phone := "604-123-4567", submit := true }

/-- The files before the first booking of the worked example. -/
def storesEmpty : Stores := { sailings := [sailingB], vehicles := [], reservations := [] }

/-- The files after the first booking of the worked example. -/
def storesBooked : Stores :=
  { sailings := [{ date := "AAA-01-01", ferryName := "Queen", highLaneRestLength := 100,
                   lowLaneRestLength := 93, onboardVehicleCount := 1 }],
    vehicles := [{ licensePlate := "ABC123", customerPhone := "604-123-4567",
                   specialLength := 7, specialHeight := 2 }],
    reservations := [{ sailingId := "AAA-01-01", licensePlate := "ABC123",
                       isOnboard := false, laneUsed := 'L' }] }

/-- The conditions under which `createFlow` gets as far as the capacity update. -/
def Proceeds (st : Stores) (a : CreateAnswers) : Prop :=
  (SailingManager.getMatchingSailings st.sailings a.height a.length 100).length ≠ 0 ∧
  (selectedSailing st a).length ≠ 0 ∧
  ReservationASM.existsReservation st.reservations a.plate (selectedSailing st a) = false ∧
  a.submit = true ∧
  checkVehicleConsistency st.vehicles (vehicleOf a) = true

/-- The result of the capacity update made by `createFlow`. -/
def allocOf (st : Stores) (a : CreateAnswers) : Char × List SailingRecord :=
  SailingManager.updateLaneLengths st.sailings (selectedSailing st a) a.height a.length false NUL

/-- A reservation of `plate` whose sailing is not stored. -/
def isOrphanOf (sailings : List SailingRecord) (plate : String) (r : ReservationRecord) : Bool :=
  (r.licensePlate == plate) && !sailingStillExists sailings r.sailingId

/-- The files of the counterexample to the orphan purge: one reservation of plate
ABC123 on sailing AAA-01-01, and no sailing stored. -/
def storesOrphan : Stores :=
  { sailings := [], vehicles := [],
    reservations := [{ sailingId := "AAA-01-01", licensePlate := "ABC123",
                       isOnboard := false, laneUsed := 'L' }] }

/-- The fields of a reservation that a check-in leaves alone. -/
def resKey (r : ReservationRecord) : String × String × Char :=
  (r.sailingId, r.licensePlate, r.laneUsed)

/-- The sailing that `date` names is record `i` and has High remainder `h` and Low
remainder `l`. -/
def LanesAt (db : List SailingRecord) (date : String) (i : Nat) (h l : ℚ) : Prop :=
  ∃ r, IsSailingAt db date i r ∧ r.highLaneRestLength = h ∧ r.lowLaneRestLength = l

/-- The reservation record a confirmed `createFlow` appends. -/
def newReservation (st : Stores) (a : CreateAnswers) : ReservationRecord :=
  { sailingId := selectedSailing st a, licensePlate := a.plate, isOnboard := false,
    laneUsed := (allocOf st a).1 }

/-- The answers of the customer of the worked example deleting the booking. -/
def deleteABC : DeleteAnswers := { plate := "ABC123", choice := 1, confirm := true }

/-- The reservation stored by the booking of the worked example. -/
def reservationABC : ReservationRecord :=
  { sailingId := "AAA-01-01", licensePlate := "ABC123", isOnboard := false, laneUsed := 'L' }

/-- The `Ferry` struct of `ferryASM.h`. -/
structure Ferry where
  ferryName : String
  HCLL : Int
  LCLL : Int
deriving DecidableEq

/-- Embeds `SailingManager::createSailingViaUI`, from the accepted sailing ID and the ferry
selected on: the record is filled from the ferry and handed to `addSailing`.  The
code leaves `onboardVehicleCount` of the new record unset; `onboard` is the value it
happens to hold. -/
def SailingManager.createSailingViaUI (db : List SailingRecord) (date : String) (ferry : Ferry)
    (onboard : Int) : Bool × List SailingRecord :=
  SailingManager.addSailing db
    { date := date, ferryName := ferry.ferryName, highLaneRestLength := (ferry.HCLL : ℚ),
      lowLaneRestLength := (ferry.LCLL : ℚ), onboardVehicleCount := onboard }

/-- The files right after `createSailingViaUI` has been run on the sailing file `db`,
the vehicle and reservation files being `vs` and `rs`. -/
def freshStores (db : List SailingRecord) (date : String) (ferry : Ferry) (onboard : Int)
    (vs : List Vehicle) (rs : List ReservationRecord) : Stores :=
  { sailings := (SailingManager.createSailingViaUI db date ferry onboard).2, vehicles := vs,
    reservations := rs }

/-- Embeds `ReservationManager::createFlow` run while the stream `reservationASM` of the
manager is still open on `old`, a former reservation file that the `truncateFile` of
another `ReservationASM` object (the one of `deleteSailingByDate`) has since replaced
by `remove` and `rename`.  `createFlow` does not reopen the stream, so its duplicate
check reads `old` and its record is appended to `old`; the sailing and vehicle files
are updated as usual and the reservation file under its name is not touched.  The
result is the outcome, the files under their names, and the contents of `old`. -/
def createFlowStale (old : List ReservationRecord) (st : Stores) (a : CreateAnswers)
    (writeOk : WriteOutcome) : CreateOutcome × Stores × List ReservationRecord :=
  let run := createFlow { st with reservations := old } a writeOk
  (run.1, { run.2 with reservations := st.reservations }, run.2.reservations)

/-- The length of the vehicle stored for a plate (the first record with the plate,
as `deleteFlow` looks it up); 0 when none is stored. -/
def vehicleLength (vs : List Vehicle) (plate : String) : ℚ :=
  match scanFirst (fun t => t.licensePlate == plate) vs with
  | some (_, v) => v.specialLength
  | none => 0

/-- The sum of the lengths of the reservations of sailing `date` whose `laneUsed` is
`lane`. -/
def laneLoad (st : Stores) (date : String) (lane : Char) : ℚ :=
  ((st.reservations.filter (fun r => r.sailingId == date && r.laneUsed == lane)).map
    (fun r => vehicleLength st.vehicles r.licensePlate)).sum

/-- The ferry of the worked example. -/
def ferryQueen : Ferry := { ferryName := "Queen", HCLL := 100, LCLL := 100 }

/-! ## Sailing deletion, the ferry file and sailing-ID validation -/

namespace SailingManager

/-- One pass of the cascade of `deleteSailingByDate`, the loop
`for (j = rc - 1; j >= 0; --j)`: `k` indices are still to be visited (the next one is
`k - 1`), `res` is the reservation file as the deletions made so far have left it,
and `deletedOne` is the flag of the pass. -/
def cascadePass (date : String) :
    Nat → List ReservationRecord → Bool → List ReservationRecord × Bool
  | 0, res, deletedOne => (res, deletedOne)
  | k + 1, res, deletedOne =>
    if (ReservationASM.get res k).sailingId = date then
      cascadePass date k (ReservationASM.deleteReservationByIndex res k).2 true
    else cascadePass date k res deletedOne

/-- The `while (true)` loop of the cascade: a pass is run from the last record down
and the loop ends with the first pass that deletes nothing.  `fuel` bounds the number
of passes; the result is `none` when the bound is used up. -/
def cascadeLoop (date : String) : Nat → List ReservationRecord → Option (List ReservationRecord)
  | 0, _ => none
  | fuel + 1, res =>
    let pass := cascadePass date (ReservationASM.getRecordCount res) res false
    if !pass.2 then some pass.1 else cascadeLoop date fuel pass.1

/-- Embeds `SailingManager::deleteSailingByDate`: at the first sailing with the date,
the reservations of that sailing ID are deleted by the cascade and then the sailing
record itself; the result is the returned flag with the new files.  Without such a
sailing the flag is `false`. -/
def deleteSailingByDate (fuel : Nat) (st : Stores) (date : String) : Option (Bool × Stores) :=
  match scanFirst (fun r => r.date == date) st.sailings with
  | none => some (false, st)
  | some (i, _) =>
    match cascadeLoop date fuel st.reservations with
    | none => none
    | some res =>
      some (true, { sailings := SailingASM.deleteRecord st.sailings i, vehicles := st.vehicles,
                    reservations := res })

/-- The loop `for (i = count - 1; i >= 0; --i) db.deleteRecord(i)` of
`deleteAllSailings`, with `k` indices still to be visited. -/
def deleteAllLoop : Nat → List SailingRecord → List SailingRecord
  | 0, db => db
  | k + 1, db => deleteAllLoop k (SailingASM.deleteRecord db k)

/-- Embeds `SailingManager::deleteAllSailings`. -/
def deleteAllSailings (db : List SailingRecord) : List SailingRecord :=
  deleteAllLoop (SailingASM.getRecordCount db) db

/-- The character `input[i]` of a C string; `'\0'` from the end of the string on. -/
def charAt (input : String) (i : Nat) : Char := input.data.getD i NUL

/-- The value `c - '0'` of a character as the digit it writes. -/
def digitValue (c : Char) : Int := (c.toNat : Int) - ('0'.toNat : Int)

/-- Embeds `SailingManager::isValidSailingId`: `none` stands for the result `false`,
`some out` for the result `true` with the normalised ID left in the buffer `out`. -/
def isValidSailingId (input : String) : Option String :=
  if input.length ≠ 9 ∨ charAt input 3 ≠ '-' ∨ charAt input 6 ≠ '-' then none
  else if !(List.range 3).all (fun i => (charAt input i).isAlpha) then none
  else if !(charAt input 4).isDigit || !(charAt input 5).isDigit then none
  else
    let day := digitValue (charAt input 4) * 10 + digitValue (charAt input 5)
    if day < 1 ∨ day > 31 then none
    else if !(charAt input 7).isDigit || !(charAt input 8).isDigit then none
    else
      let hour := digitValue (charAt input 7) * 10 + digitValue (charAt input 8)
      if hour < 1 ∨ hour > 24 then none
      else
        some (String.mk
          [(charAt input 0).toUpper, (charAt input 1).toUpper, (charAt input 2).toUpper, '-',
            charAt input 4, charAt input 5, '-', charAt input 7, charAt input 8])

end SailingManager

namespace SailingASM

/-- Embeds `SailingASM::findSailingsWithFerry`: the IDs of the sailings the ferry is
assigned to, in file order. -/
def findSailingsWithFerry (db : List SailingRecord) (ferryName : String) : List String :=
  (db.filter (fun sailing => sailing.ferryName == ferryName)).map (fun sailing => sailing.date)

end SailingASM

namespace FerryASM

/-- Embeds `FerryASM::deleteFerry`: refused while a sailing uses the ferry; otherwise
every record of another name is copied to the new file, and the new file replaces
the old one when a record of that name was met. -/
def deleteFerry (ferries : List Ferry) (sailings : List SailingRecord) (ferryName : String) :
    Bool × List Ferry :=
  let blocking := SailingASM.findSailingsWithFerry sailings ferryName
  if !blocking.isEmpty then (false, ferries)
  else
    let newFile := ferries.filter (fun ferry => ferry.ferryName != ferryName)
    let found := ferries.any (fun ferry => ferry.ferryName == ferryName)
    if !found then (false, ferries) else (true, newFile)

end FerryASM

/-- Every stored reservation refers to a stored sailing. -/
def RefIntegrity (st : Stores) : Prop :=
  ∀ r ∈ st.reservations, ∃ s ∈ st.sailings, s.date = r.sailingId

/-- The value of the two-digit field written with the characters `a` and `b`. -/
def twoDigits (a b : Char) : Nat := (a.toNat - 48) * 10 + (b.toNat - 48)

/-- The form `TTT-DD-HH` of a sailing ID: exactly nine characters, `letter` holding of
each of the first three, '-' at positions 3 and 6, two digits for a day in 01..31
and two digits for an hour in 01..24. -/
def hasSailingIdForm (letter : Char → Bool) (s : String) : Bool :=
  match s.data with
  | [t0, t1, t2, m0, d0, d1, m1, h0, h1] =>
    letter t0 && letter t1 && letter t2 && m0 == '-' && m1 == '-' &&
      d0.isDigit && d1.isDigit && decide (1 ≤ twoDigits d0 d1 ∧ twoDigits d0 d1 ≤ 31) &&
      h0.isDigit && h1.isDigit && decide (1 ≤ twoDigits h0 h1 ∧ twoDigits h0 h1 ≤ 24)
  | _ => false

/-- A second sailing of the worked examples. -/
def sailingC : SailingRecord :=
  { date := "BBB-02-02", ferryName := "Queen", highLaneRestLength := 50,
    lowLaneRestLength := 40, onboardVehicleCount := 1 }

/-- The files of the worked example of a sailing deletion: two sailings, and two of
the three reservations on the first. -/
def storesTwo : Stores :=
  { sailings := [sailingA, sailingC], vehicles := vehEx, reservations := resEx }

/-- The sailing of the worked example after the booking, with a stored onboard count
of 0. -/
def sailingUncounted : SailingRecord :=
  { date := "AAA-01-01", ferryName := "Queen", highLaneRestLength := 100,
    lowLaneRestLength := 93, onboardVehicleCount := 0 }

/-- The files of the worked example with a booking on a sailing whose stored onboard
count is 0. -/
def storesUncounted : Stores :=
  { sailings := [sailingUncounted], vehicles := [vehicleOf answersABC],
    reservations := [reservationABC] }

/-- The answers of a customer booking a vehicle 2 high and 7.1f long with plate
ABC123 on the first sailing offered. -/
def answersLong : CreateAnswers :=
  { height := 2, length := float7_1, selection := some 0, plate := "ABC123",
    phone := "604-123-4567", submit := true }

/-- The answers of a customer booking a vehicle 2 high and 16.2f long with plate
XYZ789 on the first sailing offered. -/
def answersLonger : CreateAnswers :=
  { height := 2, length := float16_2, selection := some 0, plate := "XYZ789",
    phone := "604-765-4321", submit := true }

/-- The reservation stored by the booking of `answersLonger`. -/
def reservationXYZ : ReservationRecord :=
  { sailingId := "AAA-01-01", licensePlate := "XYZ789", isOnboard := false, laneUsed := 'L' }

/-- The files after the booking of `answersLong` on the files of `storesEmpty`. -/
def storesLong : Stores :=
  { sailings := [{ date := "AAA-01-01", ferryName := "Queen", highLaneRestLength := 100,
                   lowLaneRestLength := 12176589 / 131072, onboardVehicleCount := 1 }],
    vehicles := [vehicleOf answersLong], reservations := [reservationABC] }

/-- The files after the booking of `answersLonger` on the files of `storesLong`. -/
def storesLonger : Stores :=
  { sailings := [{ date := "AAA-01-01", ferryName := "Queen", highLaneRestLength := 100,
                   lowLaneRestLength := 5026611 / 65536, onboardVehicleCount := 2 }],
    vehicles := [vehicleOf answersLong, vehicleOf answersLonger],
    reservations := [reservationABC, reservationXYZ] }

/-- The answers of the customer of plate XYZ789 deleting the booking. -/
def deleteXYZ : DeleteAnswers := { plate := "XYZ789", choice := 1, confirm := true }

/-- The reservation of plate XYZ789 on sailing BBB-02-02. -/
def reservationOnC : ReservationRecord :=
  { sailingId := "BBB-02-02", licensePlate := "XYZ789", isOnboard := false, laneUsed := 'H' }

/-- The vehicle of plate XYZ789. -/
def vehicleXYZ : Vehicle :=
  { licensePlate := "XYZ789", customerPhone := "604-765-4321", specialLength := 12,
    specialHeight := 3 }

/-- The files of the worked example of a stream left on a replaced file: sailing
BBB-02-02 with one reservation. -/
def storesCascade : Stores :=
  { sailings := [sailingC], vehicles := [vehicleXYZ], reservations := [reservationOnC] }

/-- A sailing stored with the largest `int` as its onboard count. -/
def sailingMaxCount : SailingRecord :=
  { date := "AAA-01-01", ferryName := "Queen", highLaneRestLength := 100,
    lowLaneRestLength := 100, onboardVehicleCount := 2147483647 }

/-- The ferry file of the worked examples. -/
def ferriesEx : List Ferry :=
  [ ferryQueen, { ferryName := "Spirit", HCLL := 80, LCLL := 60 } ]

/-! ## The onboard report, the legacy capacity update and further worked-example data -/

/-- Embeds `SailingManager::getOnboardVehicleCount`: the number of stored reservations
of the sailing ID that are marked onboard. -/
def SailingManager.getOnboardVehicleCount (res : List ReservationRecord) (sailingID : String) :
    Nat :=
  res.countP (fun rec => rec.sailingId == sailingID && rec.isOnboard)

/-- Embeds the four-argument (legacy) `SailingManager::updateLaneLengths`: it delegates to
the five-argument overload with the lane hint `'\0'` and returns nothing; the result
is the new contents of the sailing file. -/
def SailingManager.updateLaneLengthsLegacy (db : List SailingRecord) (date : String)
    (height length : ℚ) (isReversing : Bool) : List SailingRecord :=
  (SailingManager.updateLaneLengths db date height length isReversing NUL).2

/-- No two stored reservations share the pair (licensePlate, sailingId). -/
def KeyUnique (res : List ReservationRecord) : Prop :=
  (res.map (fun r => (r.licensePlate, r.sailingId))).Nodup

/-- The sailings on which an allocation of a vehicle of the given size would succeed,
in file order: the contract of the sailing search, stated with the allocator. -/
def allocatableSailings (db : List SailingRecord) (height length : ℚ) : List SailingRecord :=
  db.filter (fun s =>
    (SailingManager.updateLaneLengths db s.date height length false NUL).1 != NUL)

/-- A ferry file of three records. -/
def ferriesThree : List Ferry :=
  [ ferryQueen, { ferryName := "Spirit", HCLL := 80, LCLL := 60 },
    { ferryName := "Coastal", HCLL := 120, LCLL := 90 } ]

/-- The files of the worked example of the orphan purge: the three reservations of
`resEx`, of which the one of plate XYZ789 is on sailing BBB-02-02, and the sailing
AAA-01-01 alone in the sailing file. -/
def storesPurge : Stores :=
  { sailings := [sailingA], vehicles := vehEx, reservations := resEx }

/-! ## Lemmas on the scanning loop -/

theorem scanFrom_some {α : Type} (p : α → Bool) :
    ∀ (xs : List α) (k i : Nat) (r : α), scanFrom p xs k = some (i, r) →
      k ≤ i ∧ xs[i - k]? = some r ∧ p r = true ∧
        ∀ j x, j < i - k → xs[j]? = some x → p x = false := by
  intro xs
  induction xs with
  | nil => intro k i r h; simp [scanFrom] at h
  | cons y ys ih =>
    intro k i r h
    unfold scanFrom at h
    by_cases hp : p y = true
    · simp only [hp, if_true, Option.some.injEq, Prod.mk.injEq] at h
      obtain ⟨rfl, rfl⟩ := h
      refine ⟨le_refl _, by simp, hp, ?_⟩
      intro j x hj
      simp at hj
    · simp only [hp] at h
      obtain ⟨hk, hget, hpr, hfirst⟩ := ih (k + 1) i r h
      have hik : i - k = (i - (k + 1)) + 1 := by omega
      refine ⟨by omega, ?_, hpr, ?_⟩
      · rw [hik]; simpa using hget
      · intro j x hj hx
        cases j with
        | zero =>
          simp at hx
          subst hx
          simpa using hp
        | succ j' =>
          simp at hx
          exact hfirst j' x (by omega) hx

theorem scanFrom_none {α : Type} (p : α → Bool) :
    ∀ (xs : List α) (k : Nat), scanFrom p xs k = none ↔ ∀ x ∈ xs, p x = false := by
  intro xs
  induction xs with
  | nil => intro k; simp [scanFrom]
  | cons y ys ih =>
    intro k
    unfold scanFrom
    by_cases hp : p y = true
    · simp [hp]
    · simp at hp
      simp [hp, ih (k + 1)]

theorem scanFrom_of_first {α : Type} (p : α → Bool) :
    ∀ (xs : List α) (k i : Nat) (r : α), xs[i]? = some r → p r = true →
      (∀ j x, j < i → xs[j]? = some x → p x = false) →
      scanFrom p xs k = some (k + i, r) := by
  intro xs
  induction xs with
  | nil => intro k i r h; simp at h
  | cons y ys ih =>
    intro k i r hget hp hfirst
    unfold scanFrom
    cases i with
    | zero =>
      simp at hget
      subst hget
      simp [hp]
    | succ i' =>
      have hy : p y = false := hfirst 0 y (by omega) (by simp)
      simp only [hy]
      simp at hget
      have := ih (k + 1) i' r hget hp (fun j x hj hx => hfirst (j + 1) x (by omega) (by simpa using hx))
      rw [this]
      simp only [Bool.false_eq_true, if_false]
      congr 2
      omega

theorem scanFirst_some {α : Type} (p : α → Bool) (xs : List α) (i : Nat) (r : α)
    (h : scanFirst p xs = some (i, r)) :
    xs[i]? = some r ∧ p r = true ∧ ∀ j x, j < i → xs[j]? = some x → p x = false := by
  have := scanFrom_some p xs 0 i r h
  simpa using this.2

theorem scanFirst_of_first {α : Type} (p : α → Bool) (xs : List α) (i : Nat) (r : α)
    (hget : xs[i]? = some r) (hp : p r = true)
    (hfirst : ∀ j x, j < i → xs[j]? = some x → p x = false) :
    scanFirst p xs = some (i, r) := by
  have := scanFrom_of_first p xs 0 i r hget hp hfirst
  simpa [scanFirst] using this

theorem scanFirst_none {α : Type} (p : α → Bool) (xs : List α) :
    scanFirst p xs = none ↔ ∀ x ∈ xs, p x = false :=
  scanFrom_none p xs 0

/-! ## Lemmas on the machine arithmetic -/

theorem roundHalfEven_of_near (q : ℚ) (n : Int) (h : |q - n| < 1 / 2) : roundHalfEven q = n := by
  rw [abs_lt] at h
  unfold roundHalfEven
  by_cases hq : (n : ℚ) ≤ q
  · have hf : ⌊q⌋ = n := by
      rw [Int.floor_eq_iff]
      constructor
      · exact hq
      · linarith [h.2]
    simp only [hf]
    rw [if_pos h.2]
  · push_neg at hq
    have hf : ⌊q⌋ = n - 1 := by
      rw [Int.floor_eq_iff]
      push_cast
      constructor
      · linarith [h.1]
      · linarith
    simp only [hf]
    push_cast
    have h1 : ¬ (q - (n - 1) < 1 / 2) := by linarith [h.1]
    have h2 : q - (n - 1) > 1 / 2 := by linarith [h.1]
    rw [if_neg h1, if_pos h2]
    ring

theorem roundHalfEven_of_tie_even (q : ℚ) (n : Int) (h : q = n + 1 / 2) (hn : n % 2 = 0) :
    roundHalfEven q = n := by
  have hf : ⌊q⌋ = n := by
    rw [Int.floor_eq_iff]
    constructor <;> linarith
  unfold roundHalfEven
  simp only [hf]
  have h1 : ¬ (q - n < 1 / 2) := by linarith
  have h2 : ¬ (q - n > 1 / 2) := by linarith
  rw [if_neg h1, if_neg h2, if_pos hn]

theorem roundHalfEven_nonneg (q : ℚ) (h : 0 ≤ q) : 0 ≤ roundHalfEven q := by
  have hf : 0 ≤ ⌊q⌋ := Int.floor_nonneg.mpr h
  unfold roundHalfEven
  simp only
  split_ifs <;> omega

/-- Rounding to binary32 keeps the sign of a value that is >= 0. -/
theorem f32_nonneg (x : ℚ) (h : 0 ≤ x) : 0 ≤ f32 x := by
  unfold f32
  simp only
  have hu : (0 : ℚ) < 2 ^ (max (Int.log 2 |x|) (-126) - 23) := by positivity
  have hq : 0 ≤ x / 2 ^ (max (Int.log 2 |x|) (-126) - 23) := div_nonneg h hu.le
  have h1 := roundHalfEven_nonneg _ hq
  have h2 : (0 : ℚ) ≤ (roundHalfEven (x / 2 ^ (max (Int.log 2 |x|) (-126) - 23)) : ℚ) := by
    exact_mod_cast h1
  exact mul_nonneg h2 hu.le

theorem f32_zero : f32 0 = 0 := by
  unfold f32 roundHalfEven
  simp

theorem log_of_binade (x : ℚ) (e : Int) (hlo : (2 : ℚ) ^ e ≤ x) (hhi : x < (2 : ℚ) ^ (e + 1)) :
    Int.log 2 |x| = e := by
  have hpos : 0 < x := lt_of_lt_of_le (by positivity) hlo
  rw [abs_of_pos hpos]
  apply le_antisymm
  · have h1 := (Int.lt_zpow_iff_log_lt (b := 2) (by norm_num) hpos).mp (by exact_mod_cast hhi)
    omega
  · exact (Int.zpow_le_iff_le_log (b := 2) (by norm_num) hpos).mp (by exact_mod_cast hlo)

/-- Evaluation of `f32` by a certificate: `x` lies in the binade of exponent `e` and
`n` is the multiple of the spacing nearest to it. -/
theorem f32_eq_of_near (x : ℚ) (e n : Int) (he : -126 ≤ e) (hlo : (2 : ℚ) ^ e ≤ x)
    (hhi : x < (2 : ℚ) ^ (e + 1)) (hn1 : (n : ℚ) - 1 / 2 < x / 2 ^ (e - 23))
    (hn2 : x / 2 ^ (e - 23) < (n : ℚ) + 1 / 2) :
    f32 x = n * 2 ^ (e - 23) := by
  have hlog := log_of_binade x e hlo hhi
  have hn : |x / 2 ^ (e - 23) - n| < 1 / 2 := by
    rw [abs_lt]
    constructor <;> linarith
  unfold f32
  simp only [hlog, max_eq_left he]
  rw [roundHalfEven_of_near _ n hn]

/-- Evaluation of `f32` at a value half-way between two binary32 values, the lower of
which has an even significand. -/
theorem f32_eq_of_tie_even (x : ℚ) (e n : Int) (he : -126 ≤ e) (hlo : (2 : ℚ) ^ e ≤ x)
    (hhi : x < (2 : ℚ) ^ (e + 1)) (hq : x / 2 ^ (e - 23) = (n : ℚ) + 1 / 2) (hn : n % 2 = 0) :
    f32 x = n * 2 ^ (e - 23) := by
  have hlog := log_of_binade x e hlo hhi
  unfold f32
  simp only [hlog, max_eq_left he]
  rw [roundHalfEven_of_tie_even _ n hq hn]

theorem float9_9_eq : float9_9 = 5190451 / 524288 := by
  unfold float9_9
  rw [f32_eq_of_near _ 3 10380902] <;> norm_num

theorem float99_9_eq : float99_9 = 13094093 / 131072 := by
  unfold float99_9
  rw [f32_eq_of_near _ 6 13094093] <;> norm_num

theorem float7_1_eq : float7_1 = 14889779 / 2097152 := by
  unfold float7_1
  rw [f32_eq_of_near _ 2 14889779] <;> norm_num

theorem float16_2_eq : float16_2 = 4246733 / 262144 := by
  unfold float16_2
  rw [f32_eq_of_near _ 4 8493466] <;> norm_num

theorem f32_3 : f32 3 = 3 := by
  rw [f32_eq_of_near _ 1 12582912] <;> norm_num

theorem f32_12 : f32 12 = 12 := by
  rw [f32_eq_of_near _ 3 12582912] <;> norm_num

theorem f32_93 : f32 93 = 93 := by
  rw [f32_eq_of_near _ 6 12189696] <;> norm_num

theorem f32_100 : f32 100 = 100 := by
  rw [f32_eq_of_near _ 6 13107200] <;> norm_num

/-- The difference 100 - 7.1f is no binary32 value: it is rounded up. -/
theorem f32_100_sub_7_1 : f32 (194825421 / 2097152) = 12176589 / 131072 := by
  rw [f32_eq_of_near _ 6 12176589] <;> norm_num

/-- The difference of 12176589/131072 and 16.2f lies half-way between two binary32
values and is rounded to the one with the even significand. -/
theorem f32_drift_sub : f32 (20106445 / 262144) = 5026611 / 65536 := by
  rw [f32_eq_of_tie_even _ 6 10053222] <;> norm_num

/-- The sum of 5026611/65536 and 16.2f lies half-way between two binary32 values and
is rounded to the one with the even significand, which is not 12176589/131072. -/
theorem f32_drift_add : f32 (24353177 / 262144) = 3044147 / 32768 := by
  rw [f32_eq_of_tie_even _ 6 12176588] <;> norm_num

theorem wrapInt_of_range (n : Int) (h1 : -2147483648 ≤ n) (h2 : n < 2147483648) :
    wrapInt n = n := by
  unfold wrapInt
  omega

/-! ## The capacity update `SailingManager::updateLaneLengths` -/

theorem validDims_guard {height length : ℚ} (h : validDims height length) :
    ¬ (height ≤ 0 ∨ height > float9_9 ∨ length ≤ 0 ∨ length > float99_9) := by
  obtain ⟨h1, h2, h3, h4⟩ := h
  intro hc
  rcases hc with hc | hc | hc | hc
  · exact absurd h1 (not_lt.mpr hc)
  · exact absurd hc (not_lt.mpr h2)
  · exact absurd h3 (not_lt.mpr hc)
  · exact absurd hc (not_lt.mpr h4)

theorem scanFirst_of_isSailingAt {db : List SailingRecord} {date : String} {i : Nat}
    {r : SailingRecord} (h : IsSailingAt db date i r) :
    scanFirst (fun r => r.date == date) db = some (i, r) := by
  obtain ⟨hget, hdate, hfirst⟩ := h
  apply scanFirst_of_first _ _ _ _ hget
  · simp [hdate]
  · intro j x hj hx
    simpa using hfirst j x hj hx

theorem isSailingAt_of_scanFirst {db : List SailingRecord} {date : String} {i : Nat}
    {r : SailingRecord} (h : scanFirst (fun r => r.date == date) db = some (i, r)) :
    IsSailingAt db date i r := by
  obtain ⟨hget, hp, hfirst⟩ := scanFirst_some _ _ _ _ h
  refine ⟨hget, by simpa using hp, ?_⟩
  intro j x hj hx
  simpa using hfirst j x hj hx

theorem validDims_tall_7_1 : validDims 2.5 float7_1 := by
  norm_num [validDims, float9_9_eq, float99_9_eq, float7_1_eq]

theorem validDims_regular_7_1 : validDims 2 float7_1 := by
  norm_num [validDims, float9_9_eq, float99_9_eq, float7_1_eq]

theorem isSailingAt_head (r : SailingRecord) (rs : List SailingRecord) :
    IsSailingAt (r :: rs) r.date 0 r := by
  refine ⟨by simp, rfl, ?_⟩
  intro j x hj
  omega

/-- C2 as stated fails: the `float` subtraction stores the binary32 value nearest to
the difference, which need not be the difference.  A vehicle 2.5 high and 7.1f long
(the size the prompts leave for the inputs 2.5 and 7.1) is booked on a sailing fresh
from a ferry with both capacities 100: the call returns 'H' and the High remainder
becomes 12176589/131072, which is not 100 - 7.1f = 194825421/2097152. -/
theorem updateLaneLengths_tall_counterexample :
    IsSailingAt [sailingB] "AAA-01-01" 0 sailingB ∧ validDims 2.5 float7_1 ∧
    (2.5 : ℚ) > 2.0 ∧ sailingB.highLaneRestLength ≥ float7_1 ∧
    SailingManager.updateLaneLengths [sailingB] "AAA-01-01" 2.5 float7_1 false NUL =
      ('H', [{ sailingB with highLaneRestLength := 12176589 / 131072 }]) ∧
    (12176589 / 131072 : ℚ) ≠ sailingB.highLaneRestLength - float7_1 := by
  have hscan := scanFirst_of_isSailingAt (isSailingAt_head sailingB [])
  have hg := validDims_guard validDims_tall_7_1
  have htall : (2.5 : ℚ) > 2.0 := by norm_num
  have hcap : sailingB.highLaneRestLength ≥ float7_1 := by norm_num [sailingB, float7_1_eq]
  refine ⟨isSailingAt_head sailingB [], validDims_tall_7_1, htall, hcap, ?_, ?_⟩
  · have hdate : sailingB.date = "AAA-01-01" := rfl
    rw [hdate] at hscan
    simp only [SailingManager.updateLaneLengths, if_neg hg, hscan, if_pos htall, if_pos hcap,
      SailingASM.updateRecord]
    have hv : f32 (sailingB.highLaneRestLength - float7_1) = 12176589 / 131072 := by
      have he : sailingB.highLaneRestLength - float7_1 = 194825421 / 2097152 := by
        norm_num [sailingB, float7_1_eq]
      rw [he, f32_100_sub_7_1]
    rw [hv]
    simp
  · norm_num [sailingB, float7_1_eq]

/-- C2, amended: in allocate mode, for a sailing that exists and valid dimensions
with height > 2.0, the update succeeds exactly when the High lane has room for the
length; on success it returns 'H' and the High remainder of the stored sailing
becomes the binary32 rounding of (High remainder - length), which is that difference
itself whenever the difference is a binary32 value, everything else in the file (its
Low remainder included) being unchanged; on failure the file is unchanged; 'L' is
never returned. -/
theorem updateLaneLengths_tall (db : List SailingRecord) (date : String)
    (height length : ℚ) (laneHint : Char) (i : Nat) (r : SailingRecord)
    (hs : IsSailingAt db date i r) (hv : validDims height length) (htall : height > 2.0) :
    ((SailingManager.updateLaneLengths db date height length false laneHint).1 ≠ NUL ↔
        r.highLaneRestLength ≥ length) ∧
    (r.highLaneRestLength ≥ length →
      SailingManager.updateLaneLengths db date height length false laneHint =
        ('H', db.set i { r with highLaneRestLength := f32 (r.highLaneRestLength - length) })) ∧
    (r.highLaneRestLength ≥ length →
      f32 (r.highLaneRestLength - length) = r.highLaneRestLength - length →
      SailingManager.updateLaneLengths db date height length false laneHint =
        ('H', db.set i { r with highLaneRestLength := r.highLaneRestLength - length })) ∧
    (¬ r.highLaneRestLength ≥ length →
      SailingManager.updateLaneLengths db date height length false laneHint = (NUL, db)) ∧
    (SailingManager.updateLaneLengths db date height length false laneHint).1 ≠ 'L' := by
  have hscan := scanFirst_of_isSailingAt hs
  have hg := validDims_guard hv
  by_cases hcap : r.highLaneRestLength ≥ length
  · have this : SailingManager.updateLaneLengths db date height length false laneHint =
        ('H', db.set i { r with highLaneRestLength := f32 (r.highLaneRestLength - length) }) := by
      simp only [SailingManager.updateLaneLengths, if_neg hg, hscan, if_pos htall, if_pos hcap,
        SailingASM.updateRecord]
      simp
    refine ⟨?_, fun _ => this, ?_, fun h => absurd hcap h, ?_⟩
    · rw [this]; simp [hcap, NUL]
    · intro _ hex
      rw [this, hex]
    · rw [this]; show 'H' ≠ 'L'; decide
  · have this : SailingManager.updateLaneLengths db date height length false laneHint =
        (NUL, db) := by
      simp only [SailingManager.updateLaneLengths, if_neg hg, hscan, if_pos htall, if_neg hcap]
      simp
    refine ⟨?_, fun h => absurd h hcap, fun h => absurd h hcap, fun _ => this, ?_⟩
    · rw [this]; simp [hcap]
    · rw [this]; show NUL ≠ 'L'; decide

/-- C2 (amended) at a concrete input: a vehicle 2.5 high and 7 long on a sailing
with High = 10 and Low = 5 is put on the High lane, which is left with 3. -/
theorem updateLaneLengths_tall_witness :
    SailingManager.updateLaneLengths [sailingA] "AAA-01-01" 2.5 7 false NUL =
      ('H', [{ sailingA with highLaneRestLength := 3 }]) := by
  have h := (updateLaneLengths_tall [sailingA] "AAA-01-01" 2.5 7 NUL 0 sailingA
    (isSailingAt_head sailingA []) (by norm_num [validDims, float9_9_eq, float99_9_eq])
    (by norm_num)).2.1 (by norm_num [sailingA])
  rw [h]
  norm_num [sailingA, f32_3]

/-- C3 as stated fails: the `float` subtraction stores the binary32 value nearest to
the difference.  A vehicle 2 high and 7.1f long is booked on a sailing fresh from a
ferry with both capacities 100: the call returns 'L' and the Low remainder becomes
12176589/131072, which is not 100 - 7.1f = 194825421/2097152. -/
theorem updateLaneLengths_regular_counterexample :
    IsSailingAt [sailingB] "AAA-01-01" 0 sailingB ∧ validDims 2 float7_1 ∧
    (2 : ℚ) ≤ 2.0 ∧ sailingB.lowLaneRestLength ≥ float7_1 ∧
    SailingManager.updateLaneLengths [sailingB] "AAA-01-01" 2 float7_1 false NUL =
      ('L', [{ sailingB with lowLaneRestLength := 12176589 / 131072 }]) ∧
    (12176589 / 131072 : ℚ) ≠ sailingB.lowLaneRestLength - float7_1 := by
  have hscan := scanFirst_of_isSailingAt (isSailingAt_head sailingB [])
  have hg := validDims_guard validDims_regular_7_1
  have hreg : (2 : ℚ) ≤ 2.0 := by norm_num
  have hnt : ¬ (2 : ℚ) > 2.0 := by norm_num
  have hcap : sailingB.lowLaneRestLength ≥ float7_1 := by norm_num [sailingB, float7_1_eq]
  refine ⟨isSailingAt_head sailingB [], validDims_regular_7_1, hreg, hcap, ?_, ?_⟩
  · have hdate : sailingB.date = "AAA-01-01" := rfl
    rw [hdate] at hscan
    simp only [SailingManager.updateLaneLengths, if_neg hg, hscan, if_neg hnt, if_pos hcap,
      SailingASM.updateRecord]
    have hv : f32 (sailingB.lowLaneRestLength - float7_1) = 12176589 / 131072 := by
      have he : sailingB.lowLaneRestLength - float7_1 = 194825421 / 2097152 := by
        norm_num [sailingB, float7_1_eq]
      rw [he, f32_100_sub_7_1]
    rw [hv]
    simp
  · norm_num [sailingB, float7_1_eq]

/-- C3, amended: in allocate mode, for a sailing that exists and valid dimensions
with height <= 2.0: if the Low lane has room the update returns 'L' and only the Low
remainder of that sailing changes, to the binary32 rounding of (Low remainder -
length); otherwise, if the High lane has room, it returns 'H' and only the High
remainder changes, to the binary32 rounding of (High remainder - length); otherwise
it fails and the file is unchanged.  The rounding is the difference itself whenever
the difference is a binary32 value. -/
theorem updateLaneLengths_regular (db : List SailingRecord) (date : String)
    (height length : ℚ) (laneHint : Char) (i : Nat) (r : SailingRecord)
    (hs : IsSailingAt db date i r) (hv : validDims height length) (hreg : height ≤ 2.0) :
    (r.lowLaneRestLength ≥ length →
      SailingManager.updateLaneLengths db date height length false laneHint =
        ('L', db.set i { r with lowLaneRestLength := f32 (r.lowLaneRestLength - length) })) ∧
    (¬ r.lowLaneRestLength ≥ length → r.highLaneRestLength ≥ length →
      SailingManager.updateLaneLengths db date height length false laneHint =
        ('H', db.set i { r with highLaneRestLength := f32 (r.highLaneRestLength - length) })) ∧
    (¬ r.lowLaneRestLength ≥ length → ¬ r.highLaneRestLength ≥ length →
      SailingManager.updateLaneLengths db date height length false laneHint = (NUL, db)) ∧
    (r.lowLaneRestLength ≥ length →
      f32 (r.lowLaneRestLength - length) = r.lowLaneRestLength - length →
      SailingManager.updateLaneLengths db date height length false laneHint =
        ('L', db.set i { r with lowLaneRestLength := r.lowLaneRestLength - length })) ∧
    (¬ r.lowLaneRestLength ≥ length → r.highLaneRestLength ≥ length →
      f32 (r.highLaneRestLength - length) = r.highLaneRestLength - length →
      SailingManager.updateLaneLengths db date height length false laneHint =
        ('H', db.set i { r with highLaneRestLength := r.highLaneRestLength - length })) := by
  have hscan := scanFirst_of_isSailingAt hs
  have hg := validDims_guard hv
  have hnt : ¬ height > 2.0 := not_lt.mpr hreg
  have hL : r.lowLaneRestLength ≥ length →
      SailingManager.updateLaneLengths db date height length false laneHint =
        ('L', db.set i { r with lowLaneRestLength := f32 (r.lowLaneRestLength - length) }) := by
    intro hlow
    simp only [SailingManager.updateLaneLengths, if_neg hg, hscan, if_neg hnt, if_pos hlow,
      SailingASM.updateRecord]
    simp
  have hH : ¬ r.lowLaneRestLength ≥ length → r.highLaneRestLength ≥ length →
      SailingManager.updateLaneLengths db date height length false laneHint =
        ('H', db.set i { r with highLaneRestLength := f32 (r.highLaneRestLength - length) }) := by
    intro hlow hhigh
    simp only [SailingManager.updateLaneLengths, if_neg hg, hscan, if_neg hnt, if_neg hlow,
      if_pos hhigh, SailingASM.updateRecord]
    simp
  refine ⟨hL, hH, ?_, ?_, ?_⟩
  · intro hlow hhigh
    simp only [SailingManager.updateLaneLengths, if_neg hg, hscan, if_neg hnt, if_neg hlow,
      if_neg hhigh]
    simp
  · intro hlow hex
    rw [hL hlow, hex]
  · intro hlow hhigh hex
    rw [hH hlow hhigh, hex]

/-- C3 (amended) at the input of the specification: Low = 5, High = 10, height 1.5,
length 7 falls back to the High lane, returns 'H' and leaves High = 3, Low = 5. -/
theorem updateLaneLengths_regular_witness :
    SailingManager.updateLaneLengths [sailingA] "AAA-01-01" 1.5 7 false NUL =
      ('H', [{ date := "AAA-01-01", ferryName := "Queen", highLaneRestLength := 3,
               lowLaneRestLength := 5, onboardVehicleCount := 0 }]) := by
  have h := (updateLaneLengths_regular [sailingA] "AAA-01-01" 1.5 7 NUL 0 sailingA
    (isSailingAt_head sailingA []) (by norm_num [validDims, float9_9_eq, float99_9_eq])
    (by norm_num)).2.1 (by norm_num [sailingA]) (by norm_num [sailingA])
  rw [h]
  norm_num [sailingA, f32_3]

theorem updateLaneLengths_length (db : List SailingRecord) (date : String)
    (height length : ℚ) (isReversing : Bool) (laneHint : Char) :
    (SailingManager.updateLaneLengths db date height length isReversing laneHint).2.length =
      db.length := by
  by_cases hg : height ≤ 0 ∨ height > float9_9 ∨ length ≤ 0 ∨ length > float99_9
  · simp [SailingManager.updateLaneLengths, if_pos hg]
  · cases hscan : scanFirst (fun r => r.date == date) db with
    | none => simp [SailingManager.updateLaneLengths, if_neg hg, hscan]
    | some ir =>
      obtain ⟨i, r⟩ := ir
      simp only [SailingManager.updateLaneLengths, if_neg hg, hscan, SailingASM.updateRecord]
      split_ifs <;> simp

/-- C4: allocation never drives a lane negative.  Whatever the date, height and
length, and whether the call succeeds or fails, every sailing whose two remainders
were >= 0 before `updateLaneLengths` in allocate mode is still stored at its index
afterwards with both remainders >= 0. -/
theorem updateLaneLengths_alloc_nonneg (db : List SailingRecord) (date : String)
    (height length : ℚ) (laneHint : Char) (k : Nat) (s : SailingRecord)
    (hget : db[k]? = some s) (hH : 0 ≤ s.highLaneRestLength) (hL : 0 ≤ s.lowLaneRestLength) :
    ∃ s', (SailingManager.updateLaneLengths db date height length false laneHint).2[k]? = some s' ∧
      0 ≤ s'.highLaneRestLength ∧ 0 ≤ s'.lowLaneRestLength := by
  have hk : k < db.length := by
    rcases Nat.lt_or_ge k db.length with h | h
    · exact h
    · rw [List.getElem?_eq_none h] at hget; cases hget
  have same : (db[k]? = some s ∧ 0 ≤ s.highLaneRestLength ∧ 0 ≤ s.lowLaneRestLength) :=
    ⟨hget, hH, hL⟩
  by_cases hg : height ≤ 0 ∨ height > float9_9 ∨ length ≤ 0 ∨ length > float99_9
  · simp only [SailingManager.updateLaneLengths, if_pos hg]
    exact ⟨s, same⟩
  · cases hscan : scanFirst (fun r => r.date == date) db with
    | none =>
      simp only [SailingManager.updateLaneLengths, if_neg hg, hscan]
      exact ⟨s, same⟩
    | some ir =>
      obtain ⟨i, r⟩ := ir
      have hir := (scanFirst_some _ _ _ _ hscan).1
      simp only [SailingManager.updateLaneLengths, if_neg hg, hscan, Bool.false_eq_true,
        if_false, SailingASM.updateRecord]
      split_ifs with h1 h2 h3 h4
      all_goals first
        | exact ⟨s, same⟩
        | (by_cases hik : i = k
           · subst hik
             have hrs : r = s := by rw [hget] at hir; exact (Option.some.inj hir).symm
             subst hrs
             rw [List.getElem?_set]
             simp only [if_true, if_pos hk]
             refine ⟨_, rfl, ?_, ?_⟩ <;> simp <;>
               first
                 | exact hH
                 | exact hL
                 | (apply f32_nonneg; linarith)
           · refine ⟨s, by rw [List.getElem?_set]; simp [hik, hget], hH, hL⟩)

/-- C4 at a concrete input: after allocating 7 on the High lane of a sailing with
High = 10 and Low = 5 both remainders are still >= 0. -/
theorem updateLaneLengths_alloc_nonneg_witness :
    ∃ s', (SailingManager.updateLaneLengths [sailingA] "AAA-01-01" 2.5 7 false NUL).2[0]? =
        some s' ∧ 0 ≤ s'.highLaneRestLength ∧ 0 ≤ s'.lowLaneRestLength :=
  updateLaneLengths_alloc_nonneg [sailingA] "AAA-01-01" 2.5 7 NUL 0 sailingA (by simp)
    (by norm_num [sailingA]) (by norm_num [sailingA])

/-- C5 as stated fails, in two ways.  (1) The dimension guard at the head of
`updateLaneLengths` also applies when reversing: releasing length 100 (more than
99.9f) with hint 'H' on an existing sailing returns the failure value and adds
nothing to the High lane.  (2) The `float` addition stores the binary32 value
nearest to the sum: releasing 16.2f with hint 'L' on the sailing with Low =
5026611/65536 (left by the bookings of 7.1f and 16.2f on a lane of 100) leaves Low =
3044147/32768, which is not 5026611/65536 + 16.2f = 24353177/262144. -/
theorem updateLaneLengths_release_counterexample :
    (IsSailingAt [sailingA] "AAA-01-01" 0 sailingA ∧
      SailingManager.updateLaneLengths [sailingA] "AAA-01-01" 2 100 true 'H' =
        (NUL, [sailingA]) ∧
      SailingManager.updateLaneLengths [sailingA] "AAA-01-01" 2 100 true 'H' ≠
        ('H', [{ sailingA with highLaneRestLength := sailingA.highLaneRestLength + 100 }])) ∧
    (validDims 2 float16_2 ∧
      SailingManager.updateLaneLengths storesLonger.sailings "AAA-01-01" 2 float16_2 true 'L' =
        ('L', [{ date := "AAA-01-01", ferryName := "Queen", highLaneRestLength := 100,
                 lowLaneRestLength := 3044147 / 32768, onboardVehicleCount := 2 }]) ∧
      (3044147 / 32768 : ℚ) ≠ 5026611 / 65536 + float16_2) := by
  have hev : SailingManager.updateLaneLengths [sailingA] "AAA-01-01" 2 100 true 'H' =
      (NUL, [sailingA]) := by
    have hg : (2 : ℚ) ≤ 0 ∨ (2 : ℚ) > float9_9 ∨ (100 : ℚ) ≤ 0 ∨ (100 : ℚ) > float99_9 := by
      norm_num [float9_9_eq, float99_9_eq]
    simp only [SailingManager.updateLaneLengths, if_pos hg]
  have hLH : ('L' : Char) ≠ 'H' := by decide
  refine ⟨⟨isSailingAt_head sailingA [], hev, ?_⟩, ?_, ?_, ?_⟩
  · rw [hev]
    intro h
    have h1 := congrArg Prod.fst h
    revert h1
    show NUL = 'H' → False
    decide
  · norm_num [validDims, float9_9_eq, float99_9_eq, float16_2_eq]
  · norm_num [SailingManager.updateLaneLengths, storesLonger, scanFirst, scanFrom,
      SailingASM.updateRecord, float9_9_eq, float99_9_eq, float16_2_eq, f32_drift_add, hLH]
  · norm_num [float16_2_eq]

/-- Release in the capacity update: with valid dimensions the hinted lane of the sailing
becomes the binary32 rounding of (remainder + length); any hint other than 'H' and
'L' fails and changes nothing. -/
theorem release_restores_lane (db : List SailingRecord) (date : String)
    (height length : ℚ) (laneHint : Char) (i : Nat) (r : SailingRecord)
    (hs : IsSailingAt db date i r) :
    (validDims height length →
      SailingManager.updateLaneLengths db date height length true 'H' =
        ('H', db.set i { r with highLaneRestLength := f32 (r.highLaneRestLength + length) }) ∧
      SailingManager.updateLaneLengths db date height length true 'L' =
        ('L', db.set i { r with lowLaneRestLength := f32 (r.lowLaneRestLength + length) })) ∧
    (laneHint ≠ 'H' → laneHint ≠ 'L' →
      SailingManager.updateLaneLengths db date height length true laneHint = (NUL, db)) := by
  have hscan := scanFirst_of_isSailingAt hs
  refine ⟨?_, ?_⟩
  · intro hv
    have hg := validDims_guard hv
    have hLH : ('L' : Char) ≠ 'H' := by decide
    refine ⟨?_, ?_⟩
    · simp only [SailingManager.updateLaneLengths, if_neg hg, hscan, SailingASM.updateRecord]
      simp
    · simp only [SailingManager.updateLaneLengths, if_neg hg, hscan, SailingASM.updateRecord]
      simp
  · intro hH hL
    by_cases hg : height ≤ 0 ∨ height > float9_9 ∨ length ≤ 0 ∨ length > float99_9
    · simp only [SailingManager.updateLaneLengths, if_pos hg]
    · simp only [SailingManager.updateLaneLengths, if_neg hg, hscan]
      simp [hH, hL]

/-- C5, amended: for a sailing that exists and dimensions that pass the guard
(0 < height <= 9.9f, 0 < length <= 99.9f), reversing with hint 'H' returns 'H' and
the High remainder of that sailing becomes the binary32 rounding of (High remainder
+ length), with hint 'L' it returns 'L' and the Low remainder becomes the binary32
rounding of (Low remainder + length), nothing else in the file changing; the
rounding is the sum itself whenever the sum is a binary32 value.  With any other
hint the call fails and changes nothing, whatever the dimensions. -/
theorem updateLaneLengths_release (db : List SailingRecord) (date : String)
    (height length : ℚ) (laneHint : Char) (i : Nat) (r : SailingRecord)
    (hs : IsSailingAt db date i r) :
    (validDims height length →
      SailingManager.updateLaneLengths db date height length true 'H' =
        ('H', db.set i { r with highLaneRestLength := f32 (r.highLaneRestLength + length) }) ∧
      SailingManager.updateLaneLengths db date height length true 'L' =
        ('L', db.set i { r with lowLaneRestLength := f32 (r.lowLaneRestLength + length) })) ∧
    (validDims height length →
      f32 (r.highLaneRestLength + length) = r.highLaneRestLength + length →
      SailingManager.updateLaneLengths db date height length true 'H' =
        ('H', db.set i { r with highLaneRestLength := r.highLaneRestLength + length })) ∧
    (validDims height length →
      f32 (r.lowLaneRestLength + length) = r.lowLaneRestLength + length →
      SailingManager.updateLaneLengths db date height length true 'L' =
        ('L', db.set i { r with lowLaneRestLength := r.lowLaneRestLength + length })) ∧
    (laneHint ≠ 'H' → laneHint ≠ 'L' →
      SailingManager.updateLaneLengths db date height length true laneHint = (NUL, db)) := by
  have hscan := scanFirst_of_isSailingAt hs
  have hLH : ('L' : Char) ≠ 'H' := by decide
  have hH : validDims height length →
      SailingManager.updateLaneLengths db date height length true 'H' =
        ('H', db.set i { r with highLaneRestLength := f32 (r.highLaneRestLength + length) }) := by
    intro hv
    have hg := validDims_guard hv
    simp only [SailingManager.updateLaneLengths, if_neg hg, hscan, SailingASM.updateRecord]
    simp
  have hL : validDims height length →
      SailingManager.updateLaneLengths db date height length true 'L' =
        ('L', db.set i { r with lowLaneRestLength := f32 (r.lowLaneRestLength + length) }) := by
    intro hv
    have hg := validDims_guard hv
    simp only [SailingManager.updateLaneLengths, if_neg hg, hscan, SailingASM.updateRecord]
    simp
  refine ⟨fun hv => ⟨hH hv, hL hv⟩, ?_, ?_, ?_⟩
  · intro hv hex
    rw [hH hv, hex]
  · intro hv hex
    rw [hL hv, hex]
  · intro h1 h2
    by_cases hg : height ≤ 0 ∨ height > float9_9 ∨ length ≤ 0 ∨ length > float99_9
    · simp only [SailingManager.updateLaneLengths, if_pos hg]
    · simp only [SailingManager.updateLaneLengths, if_neg hg, hscan]
      simp [h1, h2]

/-- C5 (amended) at a concrete input: releasing length 7 with hint 'L' on a
sailing with High = 10, Low = 5 leaves High = 10, Low = 12. -/
theorem updateLaneLengths_release_witness :
    SailingManager.updateLaneLengths [sailingA] "AAA-01-01" 2 7 true 'L' =
      ('L', [{ date := "AAA-01-01", ferryName := "Queen", highLaneRestLength := 10,
               lowLaneRestLength := 12, onboardVehicleCount := 0 }]) := by
  have h := ((updateLaneLengths_release [sailingA] "AAA-01-01" 2 7 'L' 0 sailingA
    (isSailingAt_head sailingA [])).1 (by norm_num [validDims, float9_9_eq, float99_9_eq])).2
  rw [h]
  norm_num [sailingA, f32_12]

/-! ## Swap-delete -/

theorem swapDelete_not_last {α : Type} (xs : List α) (i : Nat) (hi : i + 1 < xs.length) :
    ∃ last, xs[xs.length - 1]? = some last ∧
      swapDelete xs i = (xs.set i last).take (xs.length - 1) := by
  have hlast : xs.length - 1 < xs.length := by omega
  refine ⟨xs[xs.length - 1], List.getElem?_eq_getElem hlast, ?_⟩
  have h1 : ¬ i ≥ xs.length := by omega
  have h2 : i ≠ xs.length - 1 := by omega
  simp only [swapDelete, if_neg h1, truncateFile, List.getElem?_eq_getElem hlast]
  simp [h2]

theorem swapDelete_last {α : Type} (xs : List α) (i : Nat) (hi : i + 1 = xs.length) :
    swapDelete xs i = xs.take (xs.length - 1) := by
  have h1 : ¬ i ≥ xs.length := by omega
  have h2 : i = xs.length - 1 := by omega
  simp only [swapDelete, if_neg h1, truncateFile]
  simp [h2]

theorem swapDelete_out_of_range {α : Type} (xs : List α) (i : Nat) (hi : xs.length ≤ i) :
    swapDelete xs i = xs := by
  simp [swapDelete, hi]

theorem swapDelete_length {α : Type} (xs : List α) (i : Nat) (hi : i < xs.length) :
    (swapDelete xs i).length = xs.length - 1 := by
  rcases Nat.lt_or_ge (i + 1) xs.length with h | h
  · obtain ⟨last, _, heq⟩ := swapDelete_not_last xs i h
    rw [heq]; simp
  · rw [swapDelete_last xs i (by omega)]; simp

theorem swapDelete_spec {α : Type} (xs : List α) (i : Nat) (hi : i + 1 < xs.length) :
    SwapDeleted xs (swapDelete xs i) i := by
  obtain ⟨last, hlast, heq⟩ := swapDelete_not_last xs i hi
  refine ⟨swapDelete_length xs i (by omega), ?_, ?_⟩
  · rw [heq, hlast, List.getElem?_take]
    have h1 : i < xs.length - 1 := by omega
    have h2 : i < xs.length := by omega
    simp [h1, List.getElem?_set, h2]
  · intro j hj hjl
    rw [heq, List.getElem?_take]
    have hne : ¬ i = j := fun h => hj h.symm
    simp [hjl, List.getElem?_set, hne]

/-- C7: swap-delete correctness for the three record stores.  Deleting at an index
`i` that is not the last one (`i + 1 < N`) from a store of `N` records leaves `N - 1`
records, the record at `i` being the former last record and every other index below
`N - 1` holding the record it held before.  This holds for `SailingASM::deleteRecord`,
`VehicleASM::deleteRecord` and `ReservationASM::deleteReservationByIndex` (which also
reports success). -/
theorem swap_delete_correct (sdb : List SailingRecord) (vdb : List Vehicle)
    (rdb : List ReservationRecord) (i : Nat) :
    (i + 1 < sdb.length → SwapDeleted sdb (SailingASM.deleteRecord sdb i) i) ∧
    (i + 1 < vdb.length → SwapDeleted vdb (VehicleASM.deleteRecord vdb i) i) ∧
    (i + 1 < rdb.length →
      (ReservationASM.deleteReservationByIndex rdb i).1 = true ∧
      SwapDeleted rdb (ReservationASM.deleteReservationByIndex rdb i).2 i) := by
  refine ⟨fun h => swapDelete_spec sdb i h, fun h => swapDelete_spec vdb i h, fun h => ?_⟩
  have h1 : ¬ i ≥ rdb.length := by omega
  simp only [ReservationASM.deleteReservationByIndex, if_neg h1]
  exact ⟨trivial, swapDelete_spec rdb i h⟩

/-- C7 at a concrete input: deleting index 0 of a two-record sailing store, of a
two-record vehicle store and of a three-record reservation store satisfies the
swap-delete relation in each store. -/
theorem swap_delete_correct_witness :
    SwapDeleted [sailingA, sailingA] (SailingASM.deleteRecord [sailingA, sailingA] 0) 0 ∧
    SwapDeleted vehEx (VehicleASM.deleteRecord vehEx 0) 0 ∧
    (ReservationASM.deleteReservationByIndex resEx 0).1 = true ∧
    SwapDeleted resEx (ReservationASM.deleteReservationByIndex resEx 0).2 0 :=
  ⟨(swap_delete_correct [sailingA, sailingA] vehEx resEx 0).1 (by decide),
    (swap_delete_correct [sailingA, sailingA] vehEx resEx 0).2.1 (by decide),
    (swap_delete_correct [sailingA, sailingA] vehEx resEx 0).2.2 (by decide)⟩

/-! ## Updates of the record a date names -/

theorem set_same {α : Type} (xs : List α) (i : Nat) (x : α) (h : xs[i]? = some x) :
    xs.set i x = xs := by
  apply List.ext_getElem?
  intro j
  rw [List.getElem?_set]
  by_cases hij : i = j
  · subst hij
    have hi : i < xs.length := by
      rcases Nat.lt_or_ge i xs.length with h' | h'
      · exact h'
      · rw [List.getElem?_eq_none h'] at h; cases h
    simp [hi, h]
  · simp [hij]

theorem isSailingAt_lt {db : List SailingRecord} {date : String} {i : Nat} {r : SailingRecord}
    (h : IsSailingAt db date i r) : i < db.length := by
  rcases Nat.lt_or_ge i db.length with h' | h'
  · exact h'
  · have := h.1
    rw [List.getElem?_eq_none h'] at this
    cases this

theorem isSailingAt_set {db : List SailingRecord} {date : String} {i : Nat}
    {r r' : SailingRecord} (h : IsSailingAt db date i r) (hd : r'.date = date) :
    IsSailingAt (db.set i r') date i r' := by
  have hi := isSailingAt_lt h
  refine ⟨by simp [List.getElem?_set, hi], hd, ?_⟩
  intro j x hj hx
  rw [List.getElem?_set] at hx
  have hne : ¬ i = j := by omega
  simp only [hne, if_false] at hx
  exact h.2.2 j x hj hx

theorem isSailingAt_set_other {db : List SailingRecord} {date : String} {i k : Nat}
    {r x x' : SailingRecord} (h : IsSailingAt db date i r) (hk : db[k]? = some x)
    (hx : x.date ≠ date) (hx' : x'.date ≠ date) :
    IsSailingAt (db.set k x') date i r := by
  have hki : k ≠ i := by
    intro hki
    subst hki
    rw [h.1] at hk
    exact hx ((Option.some.inj hk) ▸ h.2.1)
  refine ⟨by rw [List.getElem?_set]; simp [hki, h.1], h.2.1, ?_⟩
  intro j y hj hy
  rw [List.getElem?_set] at hy
  by_cases hkj : k = j
  · subst hkj
    by_cases hkl : k < db.length
    · simp [hkl] at hy
      subst hy
      exact hx'
    · simp [hkl] at hy
  · simp only [hkj, if_false] at hy
    exact h.2.2 j y hj hy

theorem isSailingAt_unique {db : List SailingRecord} {date : String} {i j : Nat}
    {r s : SailingRecord} (h : IsSailingAt db date i r) (h' : IsSailingAt db date j s) :
    i = j ∧ r = s := by
  have h1 := scanFirst_of_isSailingAt h
  have h2 := scanFirst_of_isSailingAt h'
  rw [h1] at h2
  simpa using h2

theorem updateOnboardCount_of_isSailingAt {db : List SailingRecord} {date : String} {i : Nat}
    {r : SailingRecord} (h : IsSailingAt db date i r) (delta : Int) :
    SailingManager.updateOnboardCount db date delta =
      db.set i
        { r with onboardVehicleCount := if wrapInt (r.onboardVehicleCount + delta) < 0 then 0
                                        else wrapInt (r.onboardVehicleCount + delta) } := by
  simp only [SailingManager.updateOnboardCount, scanFirst_of_isSailingAt h,
    SailingASM.updateRecord]

theorem updateOnboardCount_none {db : List SailingRecord} {date : String}
    (h : scanFirst (fun r => r.date == date) db = none) (delta : Int) :
    SailingManager.updateOnboardCount db date delta = db := by
  simp only [SailingManager.updateOnboardCount, h]

/-- A successful allocation followed by a release with the returned lane: the lane
used holds the binary32 rounding of (rounded difference + length) and the rest of
the sailing file is as it was before the allocation. -/
theorem updateLaneLengths_rollback (db db' : List SailingRecord) (date : String)
    (height length : ℚ) (laneHint lane : Char)
    (halloc : SailingManager.updateLaneLengths db date height length false laneHint = (lane, db'))
    (hlane : lane = 'H' ∨ lane = 'L') :
    ∃ i r, IsSailingAt db date i r ∧
      ((lane = 'H' ∧ SailingManager.updateLaneLengths db' date height length true lane =
          (lane, db.set i
            { r with highLaneRestLength := f32 (f32 (r.highLaneRestLength - length) + length) })) ∨
       (lane = 'L' ∧ SailingManager.updateLaneLengths db' date height length true lane =
          (lane, db.set i
            { r with lowLaneRestLength := f32 (f32 (r.lowLaneRestLength - length) + length) }))) := by
  have hNH : NUL ≠ 'H' := by decide
  have hNL : NUL ≠ 'L' := by decide
  have hLH : ('L' : Char) ≠ 'H' := by decide
  by_cases hg : height ≤ 0 ∨ height > float9_9 ∨ length ≤ 0 ∨ length > float99_9
  · simp only [SailingManager.updateLaneLengths, if_pos hg, Prod.mk.injEq] at halloc
    rcases hlane with hl | hl <;> rw [hl] at halloc
    · exact absurd halloc.1 hNH
    · exact absurd halloc.1 hNL
  · have hv : validDims height length := by
      simp only [not_or, not_le, not_lt] at hg
      exact ⟨hg.1, hg.2.1, hg.2.2.1, hg.2.2.2⟩
    cases hscan : scanFirst (fun r => r.date == date) db with
    | none =>
      simp only [SailingManager.updateLaneLengths, if_neg hg, hscan, Prod.mk.injEq] at halloc
      rcases hlane with hl | hl <;> rw [hl] at halloc
      · exact absurd halloc.1 hNH
      · exact absurd halloc.1 hNL
    | some ir =>
      obtain ⟨i, r⟩ := ir
      have hs := isSailingAt_of_scanFirst hscan
      refine ⟨i, r, hs, ?_⟩
      simp only [SailingManager.updateLaneLengths, if_neg hg, hscan, Bool.false_eq_true,
        if_false, SailingASM.updateRecord] at halloc
      split_ifs at halloc with h1 h2 h3 h4
      all_goals simp only [Prod.mk.injEq] at halloc
      all_goals obtain ⟨hl, hdb⟩ := halloc
      all_goals subst hl
      all_goals first
        | (rcases hlane with hl | hl
           · exact absurd hl hNH
           · exact absurd hl hNL)
        | (subst hdb
           have hs' : IsSailingAt
               (db.set i { r with highLaneRestLength := f32 (r.highLaneRestLength - length) })
               date i { r with highLaneRestLength := f32 (r.highLaneRestLength - length) } :=
             isSailingAt_set hs hs.2.1
           left
           refine ⟨rfl, ?_⟩
           rw [((release_restores_lane _ date height length 'H' i _ hs').1 hv).1]
           simp only [List.set_set])
        | (subst hdb
           have hs' : IsSailingAt
               (db.set i { r with lowLaneRestLength := f32 (r.lowLaneRestLength - length) })
               date i { r with lowLaneRestLength := f32 (r.lowLaneRestLength - length) } :=
             isSailingAt_set hs hs.2.1
           right
           refine ⟨rfl, ?_⟩
           rw [((release_restores_lane _ date height length 'L' i _ hs').1 hv).2]
           simp only [List.set_set])

/-! ## `createFlow` -/

theorem string_length_eq_zero (s : String) : s.length = 0 ↔ s = "" := by
  constructor
  · intro h
    have hd : s.data = [] := List.length_eq_zero.mp h
    exact String.ext (by simpa using hd)
  · intro h; subst h; rfl

theorem existsReservation_iff (db : List ReservationRecord) (plate sid : String) :
    ReservationASM.existsReservation db plate sid = true ↔
      ∃ r ∈ db, r.licensePlate = plate ∧ r.sailingId = sid := by
  simp [ReservationASM.existsReservation]

/-- C8: duplicate rejection.  When a reservation with the same plate and sailing ID
is already stored, `createFlow` for that plate and that sailing leaves the three
files exactly as they were (no reservation written, no sailing's remaining lengths
or onboard count changed), does not confirm, and, the sailing ID being non-empty,
ends in the duplicate branch. -/
theorem createFlow_duplicate (st : Stores) (a : CreateAnswers) (writeOk : WriteOutcome)
    (hdup : ∃ r ∈ st.reservations,
      r.licensePlate = a.plate ∧ r.sailingId = selectedSailing st a) :
    (createFlow st a writeOk).2 = st ∧
    (createFlow st a writeOk).1 ≠ CreateOutcome.confirmed ∧
    (selectedSailing st a ≠ "" → (createFlow st a writeOk).1 = CreateOutcome.duplicate) := by
  have hex := (existsReservation_iff st.reservations a.plate (selectedSailing st a)).mpr hdup
  by_cases hm : (SailingManager.getMatchingSailings st.sailings a.height a.length 100).length = 0
  · have hsel : selectedSailing st a = "" := by
      have hnil := List.length_eq_zero.mp hm
      unfold selectedSailing showAvailableAndSelect
      rw [hnil]
      cases a.selection <;> simp
    simp only [createFlow, if_pos hm]
    exact ⟨trivial, by simp, fun h => absurd hsel h⟩
  · by_cases hz : (selectedSailing st a).length = 0
    · simp only [createFlow, if_neg hm, if_pos hz]
      exact ⟨trivial, by simp, fun h => absurd ((string_length_eq_zero _).mp hz) h⟩
    · simp only [createFlow, if_neg hm, if_neg hz, hex, if_true]
      exact ⟨trivial, by simp, fun _ => trivial⟩

theorem createFlow_storesEmpty :
    createFlow storesEmpty answersABC WriteOutcome.written = (CreateOutcome.confirmed, storesBooked) := by
  norm_num [createFlow, storesEmpty, answersABC, storesBooked, sailingB, selectedSailing,
    showAvailableAndSelect, SailingManager.getMatchingSailings, SailingManager.canFit,
    ReservationASM.existsReservation, checkVehicleConsistency, scanFirst, scanFrom, saveVehicle,
    VehicleASM.addRecord, SailingManager.updateLaneLengths, SailingASM.updateRecord,
    ReservationASM.writeReservationRecord, SailingManager.updateOnboardCount, NUL,
    float9_9_eq, float99_9_eq, f32_93, wrapInt]
  decide

theorem selectedSailing_storesBooked : selectedSailing storesBooked answersABC = "AAA-01-01" := by
  norm_num [storesBooked, answersABC, selectedSailing, showAvailableAndSelect,
    SailingManager.getMatchingSailings, SailingManager.canFit]

/-- C8 at the input of the specification: plate ABC123 is booked on sailing
AAA-01-01 twice; the first booking is confirmed, the second ends in the duplicate
branch and leaves the files as the first booking left them. -/
theorem createFlow_duplicate_witness :
    createFlow storesEmpty answersABC WriteOutcome.written = (CreateOutcome.confirmed, storesBooked) ∧
    (createFlow storesBooked answersABC WriteOutcome.written).2 = storesBooked ∧
    (createFlow storesBooked answersABC WriteOutcome.written).1 = CreateOutcome.duplicate := by
  have hdup : ∃ r ∈ storesBooked.reservations,
      r.licensePlate = answersABC.plate ∧ r.sailingId = selectedSailing storesBooked answersABC := by
    rw [selectedSailing_storesBooked]
    exact ⟨_, List.mem_singleton.mpr rfl, rfl, rfl⟩
  have h := createFlow_duplicate storesBooked answersABC WriteOutcome.written hdup
  refine ⟨createFlow_storesEmpty, h.1, h.2.2 ?_⟩
  rw [selectedSailing_storesBooked]
  decide

theorem createFlow_of_proceeds (st : Stores) (a : CreateAnswers) (w : WriteOutcome)
    (h : Proceeds st a) :
    createFlow st a w =
      if (allocOf st a).1 ≠ 'H' ∧ (allocOf st a).1 ≠ 'L' then
        (CreateOutcome.allocFailed,
          { sailings := (allocOf st a).2, vehicles := saveVehicle st.vehicles (vehicleOf a),
            reservations := st.reservations })
      else if w = WriteOutcome.written then
        (CreateOutcome.confirmed,
          { sailings := SailingManager.updateOnboardCount (allocOf st a).2 (selectedSailing st a) 1,
            vehicles := saveVehicle st.vehicles (vehicleOf a),
            reservations := st.reservations ++
              [{ sailingId := selectedSailing st a, licensePlate := a.plate, isOnboard := false,
                 laneUsed := (allocOf st a).1 }] })
      else
        (CreateOutcome.writeFailed,
          { sailings := (SailingManager.updateLaneLengths (allocOf st a).2 (selectedSailing st a)
              a.height a.length true (allocOf st a).1).2,
            vehicles := saveVehicle st.vehicles (vehicleOf a),
            reservations :=
              if w = WriteOutcome.buffered then st.reservations ++ [newReservation st a]
              else st.reservations }) := by
  obtain ⟨h1, h2, h3, h4, h5⟩ := h
  have h5' : checkVehicleConsistency st.vehicles
      { licensePlate := a.plate, customerPhone := a.phone, specialLength := a.length,
        specialHeight := a.height } = true := h5
  simp only [createFlow, if_neg h1, if_neg h2, h3, h4, h5', Bool.false_eq_true, if_false,
    Bool.not_true, allocOf, vehicleOf, ReservationASM.writeReservationRecord, newReservation]
  by_cases hl : (SailingManager.updateLaneLengths st.sailings (selectedSailing st a) a.height
      a.length false NUL).1 ≠ 'H' ∧ (SailingManager.updateLaneLengths st.sailings
      (selectedSailing st a) a.height a.length false NUL).1 ≠ 'L'
  · simp only [if_pos hl]
  · simp only [if_neg hl]
    cases w <;> simp

theorem proceeds_of_outcome (st : Stores) (a : CreateAnswers) (w : WriteOutcome)
    (h : (createFlow st a w).1 = CreateOutcome.confirmed ∨
         (createFlow st a w).1 = CreateOutcome.writeFailed ∨
         (createFlow st a w).1 = CreateOutcome.allocFailed) : Proceeds st a := by
  unfold Proceeds
  by_cases h1 : (SailingManager.getMatchingSailings st.sailings a.height a.length 100).length = 0
  · simp [createFlow, h1] at h
  by_cases h2 : (selectedSailing st a).length = 0
  · simp [createFlow, h1, h2] at h
  by_cases h3 : ReservationASM.existsReservation st.reservations a.plate (selectedSailing st a) = true
  · simp [createFlow, h1, h2, h3] at h
  by_cases h4 : a.submit = true
  swap
  · simp [createFlow, h1, h2, h3, h4] at h
  by_cases h5 : checkVehicleConsistency st.vehicles (vehicleOf a) = true
  swap
  · have h5' : checkVehicleConsistency st.vehicles
        { licensePlate := a.plate, customerPhone := a.phone, specialLength := a.length,
          specialHeight := a.height } = false := by simpa [vehicleOf] using h5
    simp [createFlow, h1, h2, h3, h4, h5'] at h
  simp at h3
  exact ⟨h1, h2, h3, h4, h5⟩

theorem allocOf_lane_cases (st : Stores) (a : CreateAnswers)
    (h : ¬ ((allocOf st a).1 ≠ 'H' ∧ (allocOf st a).1 ≠ 'L')) :
    (allocOf st a).1 = 'H' ∨ (allocOf st a).1 = 'L' := by
  by_cases hH : (allocOf st a).1 = 'H'
  · exact Or.inl hH
  · by_cases hL : (allocOf st a).1 = 'L'
    · exact Or.inr hL
    · exact absurd ⟨hH, hL⟩ h

/-- What `createFlow` does when the write of the reservation record reports a failure
after a successful allocation: it ends in the write-failed branch, the compensating
release leaves the lane used at the binary32 rounding of (rounded difference +
length), and the reservation file is the old one, followed by the new record when
the record was left in the buffer of the stream. -/
theorem createFlow_write_failed (st : Stores) (a : CreateAnswers) (w : WriteOutcome)
    (hp : Proceeds st a) (hal : (allocOf st a).1 = 'H' ∨ (allocOf st a).1 = 'L')
    (hw : w ≠ WriteOutcome.written) :
    (createFlow st a w).1 = CreateOutcome.writeFailed ∧
    (createFlow st a w).2.reservations =
      (if w = WriteOutcome.buffered then st.reservations ++ [newReservation st a]
       else st.reservations) ∧
    ∃ i r, IsSailingAt st.sailings (selectedSailing st a) i r ∧
      (((allocOf st a).1 = 'H' ∧ (createFlow st a w).2.sailings = st.sailings.set i
          { r with highLaneRestLength := f32 (f32 (r.highLaneRestLength - a.length) + a.length) }) ∨
       ((allocOf st a).1 = 'L' ∧ (createFlow st a w).2.sailings = st.sailings.set i
          { r with lowLaneRestLength := f32 (f32 (r.lowLaneRestLength - a.length) + a.length) })) := by
  have hnot : ¬ ((allocOf st a).1 ≠ 'H' ∧ (allocOf st a).1 ≠ 'L') := by
    rintro ⟨h1, h2⟩
    rcases hal with h | h
    · exact h1 h
    · exact h2 h
  rw [createFlow_of_proceeds st a w hp]
  simp only [if_neg hnot, if_neg hw]
  refine ⟨trivial, trivial, ?_⟩
  obtain ⟨i, r, hs, hback⟩ := updateLaneLengths_rollback st.sailings (allocOf st a).2
    (selectedSailing st a) a.height a.length NUL (allocOf st a).1 rfl hal
  refine ⟨i, r, hs, ?_⟩
  rcases hback with ⟨hl, hb⟩ | ⟨hl, hb⟩
  · left
    exact ⟨hl, by rw [hb]⟩
  · right
    exact ⟨hl, by rw [hb]⟩

theorem proceeds_storesEmpty : Proceeds storesEmpty answersABC := by
  refine ⟨?_, ?_, ?_, rfl, ?_⟩
  · norm_num [storesEmpty, answersABC, sailingB, SailingManager.getMatchingSailings,
      SailingManager.canFit]
  · norm_num [storesEmpty, answersABC, sailingB, selectedSailing, showAvailableAndSelect,
      SailingManager.getMatchingSailings, SailingManager.canFit]
    decide
  · simp [storesEmpty, ReservationASM.existsReservation]
  · simp [storesEmpty, checkVehicleConsistency, scanFirst, scanFrom]

theorem allocOf_storesEmpty :
    allocOf storesEmpty answersABC =
      ('L', [{ date := "AAA-01-01", ferryName := "Queen", highLaneRestLength := 100,
               lowLaneRestLength := 93, onboardVehicleCount := 0 }]) := by
  norm_num [allocOf, storesEmpty, answersABC, sailingB, selectedSailing, showAvailableAndSelect,
    SailingManager.getMatchingSailings, SailingManager.canFit, SailingManager.updateLaneLengths,
    scanFirst, scanFrom, SailingASM.updateRecord, float9_9_eq, float99_9_eq, f32_93]

theorem plate_ABC_ne_XYZ : ("ABC123" : String) ≠ "XYZ789" := by decide

theorem plate_XYZ_ne_ABC : ("XYZ789" : String) ≠ "ABC123" := by decide

theorem lane_L_ne_H : ('L' : Char) ≠ 'H' := by decide

theorem date_AAA_length : ("AAA-01-01" : String).length ≠ 0 := by decide

theorem proceeds_storesLong : Proceeds storesLong answersLonger := by
  refine ⟨?_, ?_, ?_, rfl, ?_⟩
  · norm_num [storesLong, answersLonger, SailingManager.getMatchingSailings,
      SailingManager.canFit, float16_2_eq]
  · norm_num [storesLong, answersLonger, selectedSailing, showAvailableAndSelect,
      SailingManager.getMatchingSailings, SailingManager.canFit, float16_2_eq]
    decide
  · simp [storesLong, answersLonger, reservationABC, ReservationASM.existsReservation]
  · simp [storesLong, answersLonger, answersLong, vehicleOf, checkVehicleConsistency, scanFirst,
      scanFrom]

theorem selectedSailing_storesLong : selectedSailing storesLong answersLonger = "AAA-01-01" := by
  norm_num [storesLong, answersLonger, selectedSailing, showAvailableAndSelect,
    SailingManager.getMatchingSailings, SailingManager.canFit, float16_2_eq]

theorem allocOf_storesLong :
    allocOf storesLong answersLonger =
      ('L', [{ date := "AAA-01-01", ferryName := "Queen", highLaneRestLength := 100,
               lowLaneRestLength := 5026611 / 65536, onboardVehicleCount := 1 }]) := by
  norm_num [allocOf, storesLong, answersLonger, selectedSailing, showAvailableAndSelect,
    SailingManager.getMatchingSailings, SailingManager.canFit, SailingManager.updateLaneLengths,
    scanFirst, scanFrom, SailingASM.updateRecord, float9_9_eq, float99_9_eq, float16_2_eq,
    f32_drift_sub]

theorem createFlow_storesEmpty_long :
    createFlow storesEmpty answersLong WriteOutcome.written =
      (CreateOutcome.confirmed, storesLong) := by
  norm_num [createFlow, storesEmpty, answersLong, storesLong, sailingB, selectedSailing,
    showAvailableAndSelect, SailingManager.getMatchingSailings, SailingManager.canFit,
    ReservationASM.existsReservation, checkVehicleConsistency, scanFirst, scanFrom, saveVehicle,
    VehicleASM.addRecord, SailingManager.updateLaneLengths, SailingASM.updateRecord,
    ReservationASM.writeReservationRecord, SailingManager.updateOnboardCount, NUL,
    float9_9_eq, float99_9_eq, float7_1_eq, f32_100_sub_7_1, wrapInt, vehicleOf, reservationABC]
  decide

theorem createFlow_storesLong :
    createFlow storesLong answersLonger WriteOutcome.written =
      (CreateOutcome.confirmed, storesLonger) := by
  norm_num [createFlow, answersLonger, storesLong, storesLonger, answersLong, selectedSailing,
    showAvailableAndSelect, SailingManager.getMatchingSailings, SailingManager.canFit,
    ReservationASM.existsReservation, checkVehicleConsistency, scanFirst, scanFrom, saveVehicle,
    VehicleASM.addRecord, SailingManager.updateLaneLengths, SailingASM.updateRecord,
    ReservationASM.writeReservationRecord, SailingManager.updateOnboardCount, NUL,
    float9_9_eq, float99_9_eq, float7_1_eq, float16_2_eq, f32_drift_sub, wrapInt, vehicleOf,
    reservationABC, reservationXYZ, plate_ABC_ne_XYZ, date_AAA_length]

/-- C6 fails in the code, in two ways.  (1) The booking of the worked example with a
write that reports a failure while the record stays in the buffer of the stream:
`createFlow` ends in the write-failed branch and gives the capacity back, but the
record is written to the reservation file by the next flush of the stream, so a
reservation has been added.  (2) The booking of a vehicle 16.2f long on a sailing
whose Low remainder is 12176589/131072 (left by a booking of 7.1f on a lane of 100)
with a write that is refused: the two `float` operations of allocation and release
leave the Low remainder at 3044147/32768 = 12176588/131072, not at its former
value. -/
theorem createFlow_rollback_fails :
    (Proceeds storesEmpty answersABC ∧ (allocOf storesEmpty answersABC).1 = 'L' ∧
      createFlow storesEmpty answersABC WriteOutcome.buffered =
        (CreateOutcome.writeFailed,
          { sailings := [sailingB], vehicles := [vehicleOf answersABC],
            reservations := [reservationABC] })) ∧
    (createFlow storesEmpty answersLong WriteOutcome.written =
        (CreateOutcome.confirmed, storesLong) ∧
      Proceeds storesLong answersLonger ∧ (allocOf storesLong answersLonger).1 = 'L' ∧
      createFlow storesLong answersLonger WriteOutcome.refused =
        (CreateOutcome.writeFailed,
          { sailings := [{ date := "AAA-01-01", ferryName := "Queen", highLaneRestLength := 100,
                           lowLaneRestLength := 3044147 / 32768, onboardVehicleCount := 1 }],
            vehicles := [vehicleOf answersLong, vehicleOf answersLonger],
            reservations := [reservationABC] }) ∧
      (3044147 / 32768 : ℚ) ≠ 12176589 / 131072) := by
  refine ⟨⟨proceeds_storesEmpty, by rw [allocOf_storesEmpty], ?_⟩,
    createFlow_storesEmpty_long, proceeds_storesLong, by rw [allocOf_storesLong], ?_, ?_⟩
  · norm_num [createFlow, storesEmpty, answersABC, sailingB, selectedSailing,
      showAvailableAndSelect, SailingManager.getMatchingSailings, SailingManager.canFit,
      ReservationASM.existsReservation, checkVehicleConsistency, scanFirst, scanFrom, saveVehicle,
      VehicleASM.addRecord, SailingManager.updateLaneLengths, SailingASM.updateRecord,
      ReservationASM.writeReservationRecord, NUL, float9_9_eq, float99_9_eq, f32_93, f32_100,
      vehicleOf, reservationABC]
    decide
  · norm_num [createFlow, answersLonger, storesLong, answersLong, selectedSailing,
      showAvailableAndSelect, SailingManager.getMatchingSailings, SailingManager.canFit,
      ReservationASM.existsReservation, checkVehicleConsistency, scanFirst, scanFrom, saveVehicle,
      VehicleASM.addRecord, SailingManager.updateLaneLengths, SailingASM.updateRecord,
      ReservationASM.writeReservationRecord, NUL, float9_9_eq, float99_9_eq, float7_1_eq,
      float16_2_eq, f32_drift_sub, f32_drift_add, vehicleOf, reservationABC, plate_ABC_ne_XYZ,
      date_AAA_length, lane_L_ne_H]
  · norm_num

/-! ## Swap-delete as a permutation -/

theorem swapDelete_concat_lt {α : Type} (ys : List α) (last : α) (i : Nat)
    (hi : i < ys.length) : swapDelete (ys ++ [last]) i = ys.set i last := by
  have h := swapDelete_not_last (ys ++ [last]) i (by simp; omega)
  obtain ⟨l, hl, heq⟩ := h
  have hl' : l = last := by
    simp at hl
    exact hl.symm
  subst hl'
  rw [heq, List.set_append_left _ _ hi]
  simp

theorem swapDelete_concat_last {α : Type} (ys : List α) (last : α) :
    swapDelete (ys ++ [last]) ys.length = ys := by
  rw [swapDelete_last (ys ++ [last]) ys.length (by simp)]
  simp

theorem perm_cons_set {α : Type} (ys : List α) (i : Nat) (x last : α) (h : ys[i]? = some x) :
    (ys ++ [last]).Perm (x :: ys.set i last) := by
  obtain ⟨hi, hx⟩ := List.getElem?_eq_some.mp h
  have hys : ys = ys.take i ++ x :: ys.drop (i + 1) := by
    conv_lhs => rw [← List.take_append_drop i ys, List.drop_eq_getElem_cons hi, hx]
  have hset : ys.set i last = ys.take i ++ last :: ys.drop (i + 1) := by
    rw [List.set_eq_take_append_cons_drop, if_pos hi]
  rw [hset]
  have h1 : (ys ++ [last]).Perm (last :: ys) :=
    (List.perm_append_comm : (ys ++ [last]).Perm ([last] ++ ys))
  have h2 : (last :: ys).Perm (last :: x :: (ys.take i ++ ys.drop (i + 1))) := by
    conv_lhs => rw [hys]
    exact List.Perm.cons _ List.perm_middle
  have h3 : (last :: x :: (ys.take i ++ ys.drop (i + 1))).Perm
      (x :: last :: (ys.take i ++ ys.drop (i + 1))) := List.Perm.swap _ _ _
  have h4 : (x :: last :: (ys.take i ++ ys.drop (i + 1))).Perm
      (x :: (ys.take i ++ last :: ys.drop (i + 1))) :=
    List.Perm.cons _ List.perm_middle.symm
  exact h1.trans (h2.trans (h3.trans h4))

/-- A swap-delete removes exactly the record at the index: the old contents are a
permutation of the deleted record followed by the new contents. -/
theorem swapDelete_perm {α : Type} (xs : List α) (i : Nat) (x : α) (h : xs[i]? = some x) :
    xs.Perm (x :: swapDelete xs i) := by
  rcases List.eq_nil_or_concat xs with hnil | ⟨ys, last, hcat⟩
  · subst hnil; simp at h
  · subst hcat
    simp only [List.concat_eq_append] at h ⊢
    obtain ⟨hi, _⟩ := List.getElem?_eq_some.mp h
    simp at hi
    rcases Nat.lt_or_ge i ys.length with hlt | hge
    · rw [swapDelete_concat_lt ys last i hlt]
      rw [List.getElem?_append_left hlt] at h
      exact perm_cons_set ys i x last h
    · have hie : i = ys.length := by omega
      subst hie
      rw [swapDelete_concat_last]
      have hx : x = last := by simpa using h.symm
      subst hx
      exact (List.perm_append_comm : (ys ++ [x]).Perm ([x] ++ ys))

theorem swapDelete_subset {α : Type} (xs : List α) (i : Nat) :
    ∀ y ∈ swapDelete xs i, y ∈ xs := by
  intro y hy
  rcases Nat.lt_or_ge i xs.length with hlt | hge
  · have hx : xs[i]? = some xs[i] := List.getElem?_eq_getElem hlt
    exact (swapDelete_perm xs i _ hx).symm.subset (List.mem_cons_of_mem _ hy)
  · rwa [swapDelete_out_of_range xs i hge] at hy

theorem deleteReservationByIndex_snd (db : List ReservationRecord) (t : Nat) :
    (ReservationASM.deleteReservationByIndex db t).2 = swapDelete db t := by
  unfold ReservationASM.deleteReservationByIndex
  split_ifs with h
  · exact (swapDelete_out_of_range db t h).symm
  · rfl

theorem deleteAll_nil (res : List ReservationRecord) : deleteAll res [] = res := rfl

theorem deleteAll_cons (res : List ReservationRecord) (t : Nat) (ts : List Nat) :
    deleteAll res (t :: ts) = deleteAll (swapDelete res t) ts := by
  simp [deleteAll, deleteReservationByIndex_snd]

theorem deleteAll_subset (ts : List Nat) :
    ∀ (res : List ReservationRecord), ∀ y ∈ deleteAll res ts, y ∈ res := by
  induction ts with
  | nil => intro res y hy; exact hy
  | cons t ts ih =>
    intro res y hy
    rw [deleteAll_cons] at hy
    exact swapDelete_subset res t y (ih _ y hy)

/-! ## The orphan purge -/

theorem swapDelete_getElem? {α : Type} (xs : List α) (t j : Nat) (ht : t < xs.length)
    (hj : j < xs.length - 1) :
    (swapDelete xs t)[j]? = if j = t then xs[xs.length - 1]? else xs[j]? := by
  rcases Nat.lt_or_ge (t + 1) xs.length with h | h
  · obtain ⟨_, h2, h3⟩ := swapDelete_spec xs t h
    by_cases hjt : j = t
    · subst hjt; simp [h2]
    · simp [hjt, h3 j hjt hj]
  · have hne : j ≠ t := by omega
    rw [swapDelete_last xs t (by omega), List.getElem?_take]
    simp [hj, hne]

theorem deleteAll_removes (P : ReservationRecord → Bool) :
    ∀ (ts : List Nat) (res : List ReservationRecord), ts.Pairwise (fun a b => a > b) →
      (∀ t ∈ ts, t < res.length) →
      (∀ j x, res[j]? = some x → P x = true → j ∈ ts) →
      ∀ y ∈ deleteAll res ts, P y = false := by
  intro ts
  induction ts with
  | nil =>
    intro res _ _ hall y hy
    obtain ⟨j, hj⟩ := List.mem_iff_getElem?.mp hy
    by_contra hP
    have := hall j y hj (by simpa using hP)
    simp at this
  | cons t ts ih =>
    intro res hsorted hlt hall y hy
    rw [deleteAll_cons] at hy
    rw [List.pairwise_cons] at hsorted
    have ht : t < res.length := hlt t (List.mem_cons_self _ _)
    have hlen := swapDelete_length res t ht
    refine ih (swapDelete res t) hsorted.2 ?_ ?_ y hy
    · intro t' ht'
      have h1 := hsorted.1 t' ht'
      rw [hlen]; omega
    · intro j x hj hP
      have hjl : j < res.length - 1 := by
        rw [← hlen]
        exact (List.getElem?_eq_some.mp hj).1
      rw [swapDelete_getElem? res t j ht hjl] at hj
      by_cases hjt : j = t
      · subst hjt
        simp only [if_true] at hj
        have hmem := hall (res.length - 1) x hj hP
        rcases List.mem_cons.mp hmem with h | h
        · omega
        · have := hsorted.1 _ h
          omega
      · simp only [hjt, if_false] at hj
        rcases List.mem_cons.mp (hall j x hj hP) with h | h
        · exact absurd h hjt
        · exact h

theorem mem_findAllIndexesFrom (plate : String) :
    ∀ (xs : List ReservationRecord) (k idx : Nat),
      idx ∈ ReservationASM.findAllIndexesFrom plate xs k ↔
        k ≤ idx ∧ ∃ r, xs[idx - k]? = some r ∧ r.licensePlate = plate := by
  intro xs
  induction xs with
  | nil => intro k idx; simp [ReservationASM.findAllIndexesFrom]
  | cons y ys ih =>
    intro k idx
    unfold ReservationASM.findAllIndexesFrom
    have key : (k + 1 ≤ idx ∧ ∃ r, ys[idx - (k + 1)]? = some r ∧ r.licensePlate = plate) ↔
        (k < idx ∧ ∃ r, (y :: ys)[idx - k]? = some r ∧ r.licensePlate = plate) := by
      constructor
      · rintro ⟨h1, r, h2, h3⟩
        refine ⟨h1, r, ?_, h3⟩
        have : idx - k = (idx - (k + 1)) + 1 := by omega
        rw [this]; simpa using h2
      · rintro ⟨h1, r, h2, h3⟩
        refine ⟨h1, r, ?_, h3⟩
        have : idx - k = (idx - (k + 1)) + 1 := by omega
        rw [this] at h2; simpa using h2
    by_cases hp : y.licensePlate = plate
    · simp only [hp, if_true, List.mem_cons, ih (k + 1) idx, key]
      constructor
      · rintro (h | h)
        · subst h
          exact ⟨le_refl _, y, by simp, hp⟩
        · exact ⟨by omega, h.2⟩
      · rintro ⟨h1, h2⟩
        rcases Nat.eq_or_lt_of_le h1 with h | h
        · exact Or.inl h.symm
        · exact Or.inr ⟨h, h2⟩
    · simp only [hp, if_false, ih (k + 1) idx, key]
      constructor
      · rintro ⟨h1, h2⟩
        exact ⟨by omega, h2⟩
      · rintro ⟨h1, r, h2, h3⟩
        rcases Nat.eq_or_lt_of_le h1 with h | h
        · subst h
          simp at h2
          subst h2
          exact absurd h3 hp
        · exact ⟨h, r, h2, h3⟩

theorem mem_findAllIndexesByLicense (db : List ReservationRecord) (plate : String) (idx : Nat) :
    idx ∈ ReservationASM.findAllIndexesByLicense db plate ↔
      ∃ r, db[idx]? = some r ∧ r.licensePlate = plate := by
  simp [ReservationASM.findAllIndexesByLicense, mem_findAllIndexesFrom]

theorem pairwise_findAllIndexesFrom (plate : String) :
    ∀ (xs : List ReservationRecord) (k : Nat),
      (ReservationASM.findAllIndexesFrom plate xs k).Pairwise (fun a b => a < b) := by
  intro xs
  induction xs with
  | nil => intro k; simp [ReservationASM.findAllIndexesFrom]
  | cons y ys ih =>
    intro k
    unfold ReservationASM.findAllIndexesFrom
    split_ifs with hp
    · rw [List.pairwise_cons]
      refine ⟨?_, ih (k + 1)⟩
      intro b hb
      have := ((mem_findAllIndexesFrom plate ys (k + 1) b).mp hb).1
      omega
    · exact ih (k + 1)

theorem get_of_getElem? (db : List ReservationRecord) (idx : Nat) (r : ReservationRecord)
    (h : db[idx]? = some r) : ReservationASM.get db idx = r := by
  simp [ReservationASM.get, h]

theorem sailingStillExists_iff (db : List SailingRecord) (id : String) :
    sailingStillExists db id = true ↔ id ∈ db.map (fun r => r.date) := by
  unfold sailingStillExists
  rw [← Option.ne_none_iff_isSome, Ne, scanFirst_none]
  simp only [beq_eq_false_iff_ne, ne_eq, not_forall, Classical.not_not, List.mem_map]
  constructor
  · rintro ⟨x, hx, hd⟩; exact ⟨x, hx, hd⟩
  · rintro ⟨x, hx, hd⟩; exact ⟨x, hx, hd⟩

theorem sailingStillExists_congr (db db' : List SailingRecord)
    (h : db'.map (fun r => r.date) = db.map (fun r => r.date)) (id : String) :
    sailingStillExists db' id = sailingStillExists db id := by
  rw [Bool.eq_iff_iff, sailingStillExists_iff, sailingStillExists_iff, h]

theorem map_date_set (db : List SailingRecord) (i : Nat) (r r' : SailingRecord)
    (h : db[i]? = some r) (hd : r'.date = r.date) :
    (db.set i r').map (fun r => r.date) = db.map (fun r => r.date) := by
  rw [List.map_set]
  apply set_same
  simp [h, hd]

theorem updateOnboardCount_map_date (db : List SailingRecord) (date : String) (delta : Int) :
    (SailingManager.updateOnboardCount db date delta).map (fun r => r.date) =
      db.map (fun r => r.date) := by
  cases hscan : scanFirst (fun r => r.date == date) db with
  | none => rw [updateOnboardCount_none hscan]
  | some ir =>
    obtain ⟨i, r⟩ := ir
    have hs := isSailingAt_of_scanFirst hscan
    rw [updateOnboardCount_of_isSailingAt hs]
    exact map_date_set db i r _ hs.1 rfl

theorem updateLaneLengths_map_date (db : List SailingRecord) (date : String)
    (height length : ℚ) (isReversing : Bool) (laneHint : Char) :
    (SailingManager.updateLaneLengths db date height length isReversing laneHint).2.map
      (fun r => r.date) = db.map (fun r => r.date) := by
  by_cases hg : height ≤ 0 ∨ height > float9_9 ∨ length ≤ 0 ∨ length > float99_9
  · simp only [SailingManager.updateLaneLengths, if_pos hg]
  · cases hscan : scanFirst (fun r => r.date == date) db with
    | none => simp only [SailingManager.updateLaneLengths, if_neg hg, hscan]
    | some ir =>
      obtain ⟨i, r⟩ := ir
      have hs := isSailingAt_of_scanFirst hscan
      simp only [SailingManager.updateLaneLengths, if_neg hg, hscan, SailingASM.updateRecord]
      split_ifs <;> first | rfl | exact map_date_set db i r _ hs.1 rfl

theorem restoreCounters_map_date (db : List SailingRecord) (vs : List Vehicle)
    (sel : ReservationRecord) :
    (restoreCounters db vs sel).map (fun r => r.date) = db.map (fun r => r.date) := by
  unfold restoreCounters
  split
  · split_ifs
    · rw [updateLaneLengths_map_date, updateOnboardCount_map_date]
    · exact updateOnboardCount_map_date _ _ _
  · exact updateOnboardCount_map_date _ _ _

theorem mem_orphansOf (sailings : List SailingRecord) (res : List ReservationRecord)
    (plate : String) (j : Nat) :
    j ∈ orphansOf sailings res (ReservationASM.findAllIndexesByLicense res plate) ↔
      ∃ x, res[j]? = some x ∧ isOrphanOf sailings plate x = true := by
  simp only [orphansOf, List.mem_filter, mem_findAllIndexesByLicense, isOrphanOf,
    Bool.and_eq_true, beq_iff_eq]
  constructor
  · rintro ⟨⟨r, hr, hp⟩, ho⟩
    rw [get_of_getElem? res j r hr] at ho
    exact ⟨r, hr, hp, ho⟩
  · rintro ⟨r, hr, hp, ho⟩
    refine ⟨⟨r, hr, hp⟩, ?_⟩
    rw [get_of_getElem? res j r hr]
    exact ho

theorem purgeOrphans_eq (sailings : List SailingRecord) (res : List ReservationRecord)
    (plate : String) :
    purgeOrphans sailings res plate =
      deleteAll res ((orphansOf sailings res
        (ReservationASM.findAllIndexesByLicense res plate)).mergeSort
          (fun a b => decide (a ≥ b))) := by
  unfold purgeOrphans
  simp only
  split_ifs with h
  · have : orphansOf sailings res (ReservationASM.findAllIndexesByLicense res plate) = [] := by
      simpa using h
    rw [this]
    simp [deleteAll]
  · rfl

theorem sorted_desc_orphans (sailings : List SailingRecord) (res : List ReservationRecord)
    (plate : String) :
    ((orphansOf sailings res (ReservationASM.findAllIndexesByLicense res plate)).mergeSort
      (fun a b => decide (a ≥ b))).Pairwise (fun a b => a > b) := by
  have hasc : (orphansOf sailings res
      (ReservationASM.findAllIndexesByLicense res plate)).Pairwise (fun a b => a < b) :=
    List.Pairwise.filter _ (pairwise_findAllIndexesFrom plate res 0)
  have hne : (orphansOf sailings res
      (ReservationASM.findAllIndexesByLicense res plate)).Pairwise (fun a b => a ≠ b) :=
    hasc.imp (fun h => Nat.ne_of_lt h)
  have hne' := (@List.Perm.pairwise_iff Nat (fun a b : Nat => a ≠ b) (fun h => Ne.symm h) _ _
    (List.mergeSort_perm _ (fun a b => decide (a ≥ b)))).mpr hne
  have hge := @List.sorted_mergeSort Nat (fun a b : Nat => decide (a ≥ b))
    (fun a b c h1 h2 => by simp at h1 h2 ⊢; omega)
    (fun a b => by simp; omega)
    (orphansOf sailings res (ReservationASM.findAllIndexesByLicense res plate))
  refine (hge.and hne').imp ?_
  intro a b h
  have h1 : a ≥ b := by simpa using h.1
  have h2 : a ≠ b := h.2
  omega

/-- After the purge no stored reservation of the plate is an orphan. -/
theorem purgeOrphans_clean (sailings : List SailingRecord) (res : List ReservationRecord)
    (plate : String) :
    ∀ y ∈ purgeOrphans sailings res plate, isOrphanOf sailings plate y = false := by
  rw [purgeOrphans_eq]
  apply deleteAll_removes (isOrphanOf sailings plate) _ res (sorted_desc_orphans sailings res plate)
  · intro t ht
    rw [List.mem_mergeSort, mem_orphansOf] at ht
    obtain ⟨x, hx, _⟩ := ht
    exact (List.getElem?_eq_some.mp hx).1
  · intro j x hj hP
    rw [List.mem_mergeSort, mem_orphansOf]
    exact ⟨x, hj, hP⟩

theorem purgeOrphans_subset (sailings : List SailingRecord) (res : List ReservationRecord)
    (plate : String) : ∀ y ∈ purgeOrphans sailings res plate, y ∈ res := by
  rw [purgeOrphans_eq]
  exact deleteAll_subset _ res

/-! ## `deleteFlow` and `checkInFlow` -/

theorem deleteFlow_shape (st : Stores) (a : DeleteAnswers) :
    (deleteFlow st a).2.vehicles = st.vehicles ∧
    (deleteFlow st a).2.sailings.map (fun r => r.date) = st.sailings.map (fun r => r.date) ∧
    ((deleteFlow st a = (DeleteOutcome.notFound, st) ∧
        ReservationASM.findAllIndexesByLicense st.reservations a.plate = []) ∨
      ∀ y ∈ (deleteFlow st a).2.reservations,
        y ∈ purgeOrphans st.sailings st.reservations a.plate) := by
  unfold deleteFlow
  simp only
  split_ifs with h1 h2 h3 h4 h5 h6
  · exact ⟨rfl, rfl, Or.inl ⟨rfl, by simpa using h1⟩⟩
  · exact ⟨rfl, rfl, Or.inr (fun y hy => hy)⟩
  · exact ⟨rfl, rfl, Or.inr (fun y hy => hy)⟩
  · exact ⟨rfl, rfl, Or.inr (fun y hy => hy)⟩
  · refine ⟨rfl, rfl, Or.inr (fun y hy => ?_)⟩
    rw [deleteReservationByIndex_snd] at hy
    exact swapDelete_subset _ _ y hy
  · refine ⟨rfl, restoreCounters_map_date _ _ _, Or.inr (fun y hy => ?_)⟩
    rw [deleteReservationByIndex_snd] at hy
    exact swapDelete_subset _ _ y hy
  · refine ⟨rfl, rfl, Or.inr (fun y hy => ?_)⟩
    rw [deleteReservationByIndex_snd] at hy
    exact swapDelete_subset _ _ y hy

/-- The orphan purge of `deleteFlow`: after a run of `deleteFlow` for a plate, every
index returned by `findAllIndexesByLicense` for that plate holds a reservation
whose sailing ID is the date of a stored sailing. -/
theorem deleteFlow_no_orphans (st : Stores) (a : DeleteAnswers) (idx : Nat)
    (hidx : idx ∈ ReservationASM.findAllIndexesByLicense (deleteFlow st a).2.reservations a.plate) :
    sailingStillExists (deleteFlow st a).2.sailings
      (ReservationASM.get (deleteFlow st a).2.reservations idx).sailingId = true := by
  obtain ⟨_, hdates, hcases⟩ := deleteFlow_shape st a
  rw [sailingStillExists_congr _ _ hdates]
  obtain ⟨r, hr, hp⟩ := (mem_findAllIndexesByLicense _ _ _).mp hidx
  rw [get_of_getElem? _ _ r hr]
  rcases hcases with ⟨heq, hnone⟩ | hsub
  · rw [heq] at hidx
    rw [hnone] at hidx
    cases hidx
  · have hclean := purgeOrphans_clean st.sailings st.reservations a.plate r
      (hsub r (List.getElem?_mem hr))
    simpa [isOrphanOf, hp] using hclean

/-- C10 as stated fails for `checkInFlow`: a run of `checkInFlow` that looks up plate
ABC123 leaves the orphan reservation in the file; index 0 is still returned by
`findAllIndexesByLicense` and its sailing ID matches no stored sailing. -/
theorem checkInFlow_keeps_orphan :
    0 ∈ ReservationASM.findAllIndexesByLicense
      (checkInFlow storesOrphan
        [{ plate := "ABC123", choice := some 1, confirm := true }]).reservations "ABC123" ∧
    sailingStillExists
      (checkInFlow storesOrphan
        [{ plate := "ABC123", choice := some 1, confirm := true }]).sailings
      (ReservationASM.get
        (checkInFlow storesOrphan
          [{ plate := "ABC123", choice := some 1, confirm := true }]).reservations 0).sailingId
      = false := by
  decide

theorem checkInReservationByIndex_frame (db : List ReservationRecord) (idx : Nat) :
    (ReservationASM.checkInReservationByIndex db idx).2.map resKey = db.map resKey := by
  unfold ReservationASM.checkInReservationByIndex
  split_ifs with h
  · rfl
  · have hlt : idx < db.length := by omega
    have hget : db[idx]? = some db[idx] := List.getElem?_eq_getElem hlt
    rw [List.map_set]
    apply set_same
    rw [get_of_getElem? db idx _ hget]
    simp [hget, resKey]

theorem checkInRound_frame (st : Stores) (a : CheckInAnswers) :
    (checkInRound st a).sailings = st.sailings ∧
    (checkInRound st a).vehicles = st.vehicles ∧
    (checkInRound st a).reservations.map resKey = st.reservations.map resKey := by
  unfold checkInRound
  simp only
  by_cases h1 : (ReservationASM.findAllIndexesByLicense st.reservations a.plate).isEmpty = true
  · rw [if_pos h1]; exact ⟨rfl, rfl, rfl⟩
  rw [if_neg h1]
  by_cases h2 : (pendingIndexes st a.plate).isEmpty = true
  · rw [if_pos h2]; exact ⟨rfl, rfl, rfl⟩
  rw [if_neg h2]
  cases a.choice with
  | none => exact ⟨rfl, rfl, rfl⟩
  | some choice =>
    simp only
    split_ifs
    · exact ⟨rfl, rfl, rfl⟩
    · exact ⟨rfl, rfl, rfl⟩
    · exact ⟨rfl, rfl, rfl⟩
    · exact ⟨rfl, rfl, rfl⟩
    · exact ⟨rfl, rfl, checkInReservationByIndex_frame _ _⟩

theorem checkInFlow_frame (rounds : List CheckInAnswers) :
    ∀ st : Stores,
      (checkInFlow st rounds).sailings = st.sailings ∧
      (checkInFlow st rounds).vehicles = st.vehicles ∧
      (checkInFlow st rounds).reservations.map resKey = st.reservations.map resKey := by
  induction rounds with
  | nil => intro st; exact ⟨rfl, rfl, rfl⟩
  | cons a rest ih =>
    intro st
    obtain ⟨h1, h2, h3⟩ := ih (checkInRound st a)
    obtain ⟨g1, g2, g3⟩ := checkInRound_frame st a
    refine ⟨?_, ?_, ?_⟩
    · show (checkInFlow (checkInRound st a) rest).sailings = _
      rw [h1, g1]
    · show (checkInFlow (checkInRound st a) rest).vehicles = _
      rw [h2, g2]
    · show (checkInFlow (checkInRound st a) rest).reservations.map resKey = _
      rw [h3, g3]

/-- C10, amended: after a run of `deleteFlow` for a plate, no index returned by
`findAllIndexesByLicense` for that plate holds a reservation whose sailing ID matches
no stored sailing.  `checkInFlow` purges nothing: it leaves such reservations out of
its list of candidates, and after any run of it the sailing file is unchanged and the
reservation file holds the same records at the same indices up to the onboard flag. -/
theorem orphan_purge (st : Stores) :
    (∀ (a : DeleteAnswers) (idx : Nat),
      idx ∈ ReservationASM.findAllIndexesByLicense (deleteFlow st a).2.reservations a.plate →
      sailingStillExists (deleteFlow st a).2.sailings
        (ReservationASM.get (deleteFlow st a).2.reservations idx).sailingId = true) ∧
    (∀ (plate : String) (idx : Nat), idx ∈ pendingIndexes st plate →
      sailingStillExists st.sailings (ReservationASM.get st.reservations idx).sailingId = true) ∧
    (∀ rounds : List CheckInAnswers,
      (checkInFlow st rounds).sailings = st.sailings ∧
      (checkInFlow st rounds).reservations.map resKey = st.reservations.map resKey) := by
  refine ⟨fun a idx h => deleteFlow_no_orphans st a idx h, ?_, ?_⟩
  · intro plate idx h
    simp only [pendingIndexes, List.mem_filter, Bool.and_eq_true] at h
    exact h.2.2
  · intro rounds
    exact ⟨(checkInFlow_frame rounds st).1, (checkInFlow_frame rounds st).2.2⟩

/-! ## A create followed by the delete of the same reservation -/

theorem scanFrom_cons {α : Type} (p : α → Bool) (x : α) (xs : List α) (k : Nat) :
    scanFrom p (x :: xs) k = if p x then some (k, x) else scanFrom p xs (k + 1) := rfl

theorem scanFrom_append {α : Type} (p : α → Bool) (ys : List α) :
    ∀ (xs : List α) (k : Nat), scanFrom p (xs ++ ys) k =
      match scanFrom p xs k with
      | some res => some res
      | none => scanFrom p ys (k + xs.length) := by
  intro xs
  induction xs with
  | nil => intro k; simp [scanFrom]
  | cons x xs ih =>
    intro k
    rw [List.cons_append, scanFrom_cons, scanFrom_cons]
    by_cases hp : p x = true
    · simp [hp]
    · simp only [hp, Bool.false_eq_true, if_false]
      rw [ih (k + 1)]
      have : k + 1 + xs.length = k + (x :: xs).length := by simp; omega
      rw [this]

theorem scanFirst_append_some {α : Type} (p : α → Bool) (xs ys : List α) (res : Nat × α)
    (h : scanFirst p xs = some res) : scanFirst p (xs ++ ys) = some res := by
  unfold scanFirst at h ⊢
  rw [scanFrom_append, h]

theorem scanFirst_append_none {α : Type} (p : α → Bool) (xs : List α) (y : α)
    (h : scanFirst p xs = none) (hy : p y = true) :
    scanFirst p (xs ++ [y]) = some (xs.length, y) := by
  unfold scanFirst at h ⊢
  rw [scanFrom_append, h]
  simp [scanFrom, hy]

theorem any_eq_false_iff_scanFirst {α : Type} (p : α → Bool) (xs : List α) :
    xs.any p = false ↔ scanFirst p xs = none := by
  rw [scanFirst_none]
  simp

/-- After the "Save Vehicle" block of a create that passed the consistency check, the
first stored vehicle with the plate has the height and length of the create. -/
theorem saveVehicle_lookup (vs : List Vehicle) (v0 : Vehicle)
    (hc : checkVehicleConsistency vs v0 = true) :
    ∃ j v, scanFirst (fun t => t.licensePlate == v0.licensePlate) (saveVehicle vs v0) = some (j, v) ∧
      v.specialHeight = v0.specialHeight ∧ v.specialLength = v0.specialLength := by
  cases hscan : scanFirst (fun t => t.licensePlate == v0.licensePlate) vs with
  | none =>
    have hany := (any_eq_false_iff_scanFirst _ vs).mpr hscan
    refine ⟨vs.length, v0, ?_, rfl, rfl⟩
    simp only [saveVehicle, hany, Bool.not_false, if_true, VehicleASM.addRecord]
    exact scanFirst_append_none _ vs v0 hscan (by simp)
  | some jv =>
    obtain ⟨j, v⟩ := jv
    have hany : vs.any (fun t => t.licensePlate == v0.licensePlate) = true := by
      by_contra h
      have h' := (any_eq_false_iff_scanFirst (fun t : Vehicle =>
        t.licensePlate == v0.licensePlate) vs).mp (Bool.not_eq_true _ ▸ h)
      rw [hscan] at h'
      cases h'
    refine ⟨j, v, ?_, ?_⟩
    · simp only [saveVehicle, hany, Bool.not_true, Bool.false_eq_true, if_false]
      exact hscan
    · simp only [checkVehicleConsistency, hscan] at hc
      split_ifs at hc with h1 h2
      simp only [not_or, Classical.not_not] at h2
      exact h2

theorem saveVehicle_lookup_stable (vs : List Vehicle) (v0 : Vehicle) (plate : String)
    (res : Nat × Vehicle)
    (h : scanFirst (fun t => t.licensePlate == plate) vs = some res) :
    scanFirst (fun t => t.licensePlate == plate) (saveVehicle vs v0) = some res := by
  unfold saveVehicle
  simp only
  split_ifs
  · exact scanFirst_append_some _ vs [v0] res h
  · exact h

/-- What a successful allocation did to the sailing it found. -/
theorem alloc_success_inv (db db' : List SailingRecord) (date : String) (height length : ℚ)
    (laneHint lane : Char) (i : Nat) (r : SailingRecord) (hs : IsSailingAt db date i r)
    (halloc : SailingManager.updateLaneLengths db date height length false laneHint = (lane, db'))
    (hlane : lane = 'H' ∨ lane = 'L') :
    validDims height length ∧
    ((lane = 'H' ∧ length ≤ r.highLaneRestLength ∧
        db' = db.set i { r with highLaneRestLength := f32 (r.highLaneRestLength - length) }) ∨
     (lane = 'L' ∧ length ≤ r.lowLaneRestLength ∧
        db' = db.set i { r with lowLaneRestLength := f32 (r.lowLaneRestLength - length) })) := by
  have hNH : NUL ≠ 'H' := by decide
  have hNL : NUL ≠ 'L' := by decide
  have hnul : lane ≠ NUL := by
    rcases hlane with h | h <;> rw [h] <;> decide
  by_cases hg : height ≤ 0 ∨ height > float9_9 ∨ length ≤ 0 ∨ length > float99_9
  · simp only [SailingManager.updateLaneLengths, if_pos hg, Prod.mk.injEq] at halloc
    exact absurd halloc.1.symm hnul
  · have hv : validDims height length := by
      simp only [not_or, not_le, not_lt] at hg
      exact ⟨hg.1, hg.2.1, hg.2.2.1, hg.2.2.2⟩
    refine ⟨hv, ?_⟩
    simp only [SailingManager.updateLaneLengths, if_neg hg, scanFirst_of_isSailingAt hs,
      Bool.false_eq_true, if_false, SailingASM.updateRecord] at halloc
    split_ifs at halloc with h1 h2 h3 h4
    all_goals simp only [Prod.mk.injEq] at halloc
    all_goals obtain ⟨hl, hdb⟩ := halloc
    · exact Or.inl ⟨hl.symm, h2, hdb.symm⟩
    · exact absurd hl.symm hnul
    · exact Or.inr ⟨hl.symm, h3, hdb.symm⟩
    · exact Or.inl ⟨hl.symm, h4, hdb.symm⟩
    · exact absurd hl.symm hnul

theorem getD_mem_of_choice (l : List Nat) (choice : Int)
    (h : ¬ (choice ≤ 0 ∨ choice > (l.length : Int))) :
    l.getD (choice - 1).toNat 0 ∈ l := by
  have hk : (choice - 1).toNat < l.length := by omega
  rw [List.getD_eq_getElem?_getD, List.getElem?_eq_getElem hk]
  exact List.getElem_mem _

/-- What `deleteFlow` did when it ended in the branch that deletes a reservation
whose sailing exists: the record selected was stored at some index `t` of the purged
reservation file under the plate asked for, it was swap-deleted, and the counters of
its sailing were restored. -/
theorem deleteFlow_deleted_inv (st : Stores) (d : DeleteAnswers) (sel : ReservationRecord)
    (h : (deleteFlow st d).1 = DeleteOutcome.deleted sel) :
    ∃ t, (purgeOrphans st.sailings st.reservations d.plate)[t]? = some sel ∧
      sel.licensePlate = d.plate ∧
      sailingStillExists st.sailings sel.sailingId = true ∧
      (deleteFlow st d).2 =
        { sailings := restoreCounters st.sailings st.vehicles sel, vehicles := st.vehicles,
          reservations := swapDelete (purgeOrphans st.sailings st.reservations d.plate) t } := by
  unfold deleteFlow at h ⊢
  simp only at h ⊢
  split_ifs at h ⊢ with h1 h2 h3 h4 h5 h6
  have hmem := getD_mem_of_choice _ _ h3
  generalize hT : (validOf st.sailings (purgeOrphans st.sailings st.reservations d.plate)
      (ReservationASM.findAllIndexesByLicense
        (purgeOrphans st.sailings st.reservations d.plate) d.plate)).getD
          (d.choice - 1).toNat 0 = T at h h6 hmem ⊢
  have hsel : ReservationASM.get (purgeOrphans st.sailings st.reservations d.plate) T = sel := by
    simpa using h
  unfold validOf at hmem
  rw [List.mem_filter, mem_findAllIndexesByLicense] at hmem
  obtain ⟨⟨r, hr, hp⟩, _⟩ := hmem
  have hget := get_of_getElem? _ _ r hr
  rw [hsel] at hget
  subst hget
  rw [hsel] at h6
  refine ⟨T, hr, hp, h6, ?_⟩
  rw [hsel, deleteReservationByIndex_snd]

/-! ## The two remainders of the sailing a date names -/

theorem lanesAt_onboard {db : List SailingRecord} {date : String} {i : Nat} {h l : ℚ}
    (hl : LanesAt db date i h l) (date' : String) (delta : Int) :
    LanesAt (SailingManager.updateOnboardCount db date' delta) date i h l := by
  obtain ⟨r, hs, hh, hlow⟩ := hl
  cases hscan : scanFirst (fun r => r.date == date') db with
  | none =>
    rw [updateOnboardCount_none hscan]
    exact ⟨r, hs, hh, hlow⟩
  | some kx =>
    obtain ⟨k, x⟩ := kx
    have hs' := isSailingAt_of_scanFirst hscan
    rw [updateOnboardCount_of_isSailingAt hs']
    by_cases hd : date' = date
    · subst hd
      obtain ⟨hik, hrx⟩ := isSailingAt_unique hs hs'
      subst hik
      subst hrx
      exact ⟨_, isSailingAt_set hs hs.2.1, hh, hlow⟩
    · have hx : x.date ≠ date := by rw [hs'.2.1]; exact hd
      exact ⟨r, isSailingAt_set_other hs hs'.1 hx hx, hh, hlow⟩

theorem lanesAt_lane_other {db : List SailingRecord} {date : String} {i : Nat} {h l : ℚ}
    (hl : LanesAt db date i h l) (date' : String) (hd : date' ≠ date) (height length : ℚ)
    (isReversing : Bool) (laneHint : Char) :
    LanesAt (SailingManager.updateLaneLengths db date' height length isReversing laneHint).2
      date i h l := by
  obtain ⟨r, hs, hh, hlow⟩ := hl
  by_cases hg : height ≤ 0 ∨ height > float9_9 ∨ length ≤ 0 ∨ length > float99_9
  · simp only [SailingManager.updateLaneLengths, if_pos hg]
    exact ⟨r, hs, hh, hlow⟩
  · cases hscan : scanFirst (fun r => r.date == date') db with
    | none =>
      simp only [SailingManager.updateLaneLengths, if_neg hg, hscan]
      exact ⟨r, hs, hh, hlow⟩
    | some kx =>
      obtain ⟨k, x⟩ := kx
      have hs' := isSailingAt_of_scanFirst hscan
      have hx : x.date ≠ date := by rw [hs'.2.1]; exact hd
      simp only [SailingManager.updateLaneLengths, if_neg hg, hscan, SailingASM.updateRecord]
      split_ifs
      all_goals first
        | exact ⟨r, hs, hh, hlow⟩
        | exact ⟨r, isSailingAt_set_other hs hs'.1 hx hx, hh, hlow⟩

theorem lanesAt_alloc {db db' : List SailingRecord} {date : String} {i : Nat} {h l : ℚ}
    (hl : LanesAt db date i h l) (height length : ℚ) (laneHint lane : Char)
    (halloc : SailingManager.updateLaneLengths db date height length false laneHint = (lane, db'))
    (hlane : lane = 'H' ∨ lane = 'L') :
    validDims height length ∧
    ((lane = 'H' ∧ length ≤ h ∧ LanesAt db' date i (f32 (h - length)) l) ∨
     (lane = 'L' ∧ length ≤ l ∧ LanesAt db' date i h (f32 (l - length)))) := by
  obtain ⟨r, hs, hh, hlow⟩ := hl
  obtain ⟨hv, hcase⟩ := alloc_success_inv db db' date height length laneHint lane i r hs halloc hlane
  refine ⟨hv, ?_⟩
  rcases hcase with ⟨h1, h2, h3⟩ | ⟨h1, h2, h3⟩
  · left
    refine ⟨h1, hh ▸ h2, ?_⟩
    rw [h3]
    exact ⟨_, isSailingAt_set hs hs.2.1, by simp [hh], hlow⟩
  · right
    refine ⟨h1, hlow ▸ h2, ?_⟩
    rw [h3]
    exact ⟨_, isSailingAt_set hs hs.2.1, hh, by simp [hlow]⟩

theorem lanesAt_release {db : List SailingRecord} {date : String} {i : Nat} {h l : ℚ}
    (hl : LanesAt db date i h l) (height length : ℚ) (hv : validDims height length) :
    LanesAt (SailingManager.updateLaneLengths db date height length true 'H').2 date i
      (f32 (h + length)) l ∧
    LanesAt (SailingManager.updateLaneLengths db date height length true 'L').2 date i
      h (f32 (l + length)) := by
  obtain ⟨r, hs, hh, hlow⟩ := hl
  obtain ⟨h1, h2⟩ := (release_restores_lane db date height length 'H' i r hs).1 hv
  rw [h1, h2]
  exact ⟨⟨_, isSailingAt_set hs hs.2.1, by simp [hh], hlow⟩,
    ⟨_, isSailingAt_set hs hs.2.1, hh, by simp [hlow]⟩⟩

theorem updateLaneLengths_alloc_fail (db : List SailingRecord) (date : String)
    (height length : ℚ) (laneHint : Char)
    (h : ¬ ((SailingManager.updateLaneLengths db date height length false laneHint).1 = 'H' ∨
      (SailingManager.updateLaneLengths db date height length false laneHint).1 = 'L')) :
    (SailingManager.updateLaneLengths db date height length false laneHint).2 = db := by
  by_cases hg : height ≤ 0 ∨ height > float9_9 ∨ length ≤ 0 ∨ length > float99_9
  · simp only [SailingManager.updateLaneLengths, if_pos hg]
  · cases hscan : scanFirst (fun r => r.date == date) db with
    | none => simp only [SailingManager.updateLaneLengths, if_neg hg, hscan]
    | some kx =>
      obtain ⟨k, x⟩ := kx
      simp only [SailingManager.updateLaneLengths, if_neg hg, hscan, Bool.false_eq_true,
        if_false] at h ⊢
      split_ifs at h ⊢ <;> first | rfl | (exfalso; exact h (by simp))

theorem restoreCounters_lanes_same {db : List SailingRecord} {vs : List Vehicle}
    {sel : ReservationRecord} {i j : Nat} {h l : ℚ} {v : Vehicle}
    (hl : LanesAt db sel.sailingId i h l)
    (hv : scanFirst (fun t => t.licensePlate == sel.licensePlate) vs = some (j, v))
    (hd : validDims v.specialHeight v.specialLength) :
    (sel.laneUsed = 'H' → LanesAt (restoreCounters db vs sel) sel.sailingId i
      (f32 (h + v.specialLength)) l) ∧
    (sel.laneUsed = 'L' → LanesAt (restoreCounters db vs sel) sel.sailingId i
      h (f32 (l + v.specialLength))) := by
  have h1 := lanesAt_onboard hl sel.sailingId (-1)
  have h2 := lanesAt_release h1 v.specialHeight v.specialLength hd
  constructor
  · intro hH
    simp only [restoreCounters, hv, hH, true_or, if_true]
    exact h2.1
  · intro hL
    simp only [restoreCounters, hv, hL, or_true, if_true]
    exact h2.2

theorem restoreCounters_lanes_other {db : List SailingRecord} {date : String} {i : Nat}
    {h l : ℚ} (hl : LanesAt db date i h l) (vs : List Vehicle) (sel : ReservationRecord)
    (hd : sel.sailingId ≠ date) :
    LanesAt (restoreCounters db vs sel) date i h l := by
  have h1 := lanesAt_onboard hl sel.sailingId (-1)
  unfold restoreCounters
  simp only
  split
  · split_ifs
    · exact lanesAt_lane_other h1 sel.sailingId hd _ _ _ _
    · exact h1
  · exact h1

theorem createFlow_confirmed_inv (st : Stores) (a : CreateAnswers) (w : WriteOutcome)
    (h : (createFlow st a w).1 = CreateOutcome.confirmed) :
    Proceeds st a ∧ ((allocOf st a).1 = 'H' ∨ (allocOf st a).1 = 'L') ∧
    (createFlow st a w).2 =
      { sailings := SailingManager.updateOnboardCount (allocOf st a).2 (selectedSailing st a) 1,
        vehicles := saveVehicle st.vehicles (vehicleOf a),
        reservations := st.reservations ++ [newReservation st a] } := by
  have hp := proceeds_of_outcome st a w (Or.inl h)
  rw [createFlow_of_proceeds st a w hp] at h ⊢
  split_ifs at h ⊢ with h1 h2
  exact ⟨hp, allocOf_lane_cases st a h1, rfl⟩

/-- C1, amended: when `createFlow` is confirmed on sailing S (record `i` of the
sailing file, with remainders `r`) and `deleteFlow`, run next, deletes the
reservation just created (same plate, same sailing ID) in the branch where S still
exists, then S is still record `i`, the lane the booking used holds the binary32
rounding of (rounding of (old remainder - length) + length) and the other lane
holds its old remainder; so `highLaneRestLength + lowLaneRestLength` of S is what it
was before the pair whenever that double rounding gives back the old remainder. -/
theorem create_delete_conserves (st : Stores) (a : CreateAnswers) (d : DeleteAnswers)
    (sel : ReservationRecord) (i : Nat) (r : SailingRecord)
    (hS : IsSailingAt st.sailings (selectedSailing st a) i r)
    (hc : (createFlow st a WriteOutcome.written).1 = CreateOutcome.confirmed)
    (hd : (deleteFlow (createFlow st a WriteOutcome.written).2 d).1 = DeleteOutcome.deleted sel)
    (hkey : sel.licensePlate = a.plate ∧ sel.sailingId = selectedSailing st a) :
    ∃ r', IsSailingAt (deleteFlow (createFlow st a WriteOutcome.written).2 d).2.sailings
        (selectedSailing st a) i r' ∧
      ((sel.laneUsed = 'H' ∧
          r'.highLaneRestLength = f32 (f32 (r.highLaneRestLength - a.length) + a.length) ∧
          r'.lowLaneRestLength = r.lowLaneRestLength) ∨
       (sel.laneUsed = 'L' ∧
          r'.lowLaneRestLength = f32 (f32 (r.lowLaneRestLength - a.length) + a.length) ∧
          r'.highLaneRestLength = r.highLaneRestLength)) ∧
      (f32 (f32 (r.highLaneRestLength - a.length) + a.length) = r.highLaneRestLength →
        f32 (f32 (r.lowLaneRestLength - a.length) + a.length) = r.lowLaneRestLength →
        r'.highLaneRestLength + r'.lowLaneRestLength =
          r.highLaneRestLength + r.lowLaneRestLength) := by
  obtain ⟨hp, hlane, hst1⟩ := createFlow_confirmed_inv st a WriteOutcome.written hc
  obtain ⟨t, ht, _, _, hfinal⟩ := deleteFlow_deleted_inv _ d sel hd
  rw [hfinal]
  rw [hst1] at ht ⊢
  simp only at ht ⊢
  -- the record selected is the one the create appended
  have hmem := purgeOrphans_subset _ _ _ sel (List.getElem?_mem ht)
  have hsel : sel = newReservation st a := by
    rcases List.mem_append.mp hmem with h | h
    · have hex := hp.2.2.1
      have : ReservationASM.existsReservation st.reservations a.plate (selectedSailing st a)
          = true := (existsReservation_iff _ _ _).mpr ⟨sel, h, hkey.1, hkey.2⟩
      rw [hex] at this
      cases this
    · simpa using h
  -- the remainders through the allocation, the counter updates and the release
  have h0 : LanesAt st.sailings (selectedSailing st a) i r.highLaneRestLength
      r.lowLaneRestLength := ⟨r, hS, rfl, rfl⟩
  have halloc : SailingManager.updateLaneLengths st.sailings (selectedSailing st a) a.height
      a.length false NUL = ((allocOf st a).1, (allocOf st a).2) := rfl
  obtain ⟨hv, hcase⟩ := lanesAt_alloc h0 a.height a.length NUL (allocOf st a).1 halloc hlane
  obtain ⟨j, v, hscan, hvh, hvl⟩ := saveVehicle_lookup st.vehicles (vehicleOf a) hp.2.2.2.2
  have hvd : validDims v.specialHeight v.specialLength := by
    rw [hvh, hvl]; exact hv
  have hvl' : v.specialLength = a.length := hvl
  have hscan' : scanFirst (fun t => t.licensePlate == sel.licensePlate)
      (saveVehicle st.vehicles (vehicleOf a)) = some (j, v) := by
    rw [hsel]; exact hscan
  have hsid : sel.sailingId = selectedSailing st a := hkey.2
  rcases hcase with ⟨hH, _, hl1⟩ | ⟨hL, _, hl1⟩
  · have hl2 := lanesAt_onboard hl1 (selectedSailing st a) 1
    rw [← hsid] at hl2
    have hlaneH : sel.laneUsed = 'H' := by rw [hsel]; exact hH
    obtain ⟨r', hr', hh', hlow'⟩ := (restoreCounters_lanes_same hl2 hscan' hvd).1 hlaneH
    rw [hsid] at hr'
    rw [hvl'] at hh'
    refine ⟨r', hr', Or.inl ⟨hlaneH, hh', hlow'⟩, ?_⟩
    intro e1 _
    rw [hh', hlow', e1]
  · have hl2 := lanesAt_onboard hl1 (selectedSailing st a) 1
    rw [← hsid] at hl2
    have hlaneL : sel.laneUsed = 'L' := by rw [hsel]; exact hL
    obtain ⟨r', hr', hh', hlow'⟩ := (restoreCounters_lanes_same hl2 hscan' hvd).2 hlaneL
    rw [hsid] at hr'
    rw [hvl'] at hlow'
    refine ⟨r', hr', Or.inr ⟨hlaneL, hlow', hh'⟩, ?_⟩
    intro _ e2
    rw [hh', hlow', e2]

theorem selectedSailing_storesEmpty : selectedSailing storesEmpty answersABC = "AAA-01-01" := by
  norm_num [storesEmpty, answersABC, sailingB, selectedSailing, showAvailableAndSelect,
    SailingManager.getMatchingSailings, SailingManager.canFit]

theorem deleteFlow_storesBooked :
    (deleteFlow storesBooked deleteABC).1 = DeleteOutcome.deleted reservationABC := by
  decide

/-- C1 (amended) at a concrete input: plate ABC123 (height 2, length 7) is booked on
sailing AAA-01-01 with High = 100 and Low = 100 and the booking is deleted again;
the Low lane was used, 100 - 7 and 93 + 7 are binary32 values, and the sailing is
back at High + Low = 200. -/
theorem create_delete_conserves_witness :
    ∃ r', IsSailingAt (deleteFlow (createFlow storesEmpty answersABC
        WriteOutcome.written).2 deleteABC).2.sailings (selectedSailing storesEmpty answersABC) 0 r' ∧
      ((reservationABC.laneUsed = 'H' ∧
          r'.highLaneRestLength =
            f32 (f32 (sailingB.highLaneRestLength - answersABC.length) + answersABC.length) ∧
          r'.lowLaneRestLength = sailingB.lowLaneRestLength) ∨
       (reservationABC.laneUsed = 'L' ∧
          r'.lowLaneRestLength =
            f32 (f32 (sailingB.lowLaneRestLength - answersABC.length) + answersABC.length) ∧
          r'.highLaneRestLength = sailingB.highLaneRestLength)) ∧
      r'.highLaneRestLength + r'.lowLaneRestLength =
        sailingB.highLaneRestLength + sailingB.lowLaneRestLength := by
  obtain ⟨r', h1, h2, h3⟩ :=
    create_delete_conserves storesEmpty answersABC deleteABC reservationABC 0 sailingB
      (by rw [selectedSailing_storesEmpty]; exact isSailingAt_head sailingB [])
      (by rw [createFlow_storesEmpty])
      (by rw [createFlow_storesEmpty]; exact deleteFlow_storesBooked)
      (by rw [selectedSailing_storesEmpty]; exact ⟨rfl, rfl⟩)
  refine ⟨r', h1, h2, h3 ?_ ?_⟩
  · norm_num [sailingB, answersABC, f32_93, f32_100]
  · norm_num [sailingB, answersABC, f32_93, f32_100]

theorem deleteFlow_storesLonger :
    deleteFlow storesLonger deleteXYZ =
      (DeleteOutcome.deleted reservationXYZ,
        { sailings := [{ date := "AAA-01-01", ferryName := "Queen", highLaneRestLength := 100,
                         lowLaneRestLength := 3044147 / 32768, onboardVehicleCount := 1 }],
          vehicles := [vehicleOf answersLong, vehicleOf answersLonger],
          reservations := [reservationABC] }) := by
  norm_num [deleteFlow, storesLonger, deleteXYZ, reservationABC, reservationXYZ, answersLong,
    answersLonger, vehicleOf, purgeOrphans, orphansOf, validOf, sailingStillExists,
    ReservationASM.findAllIndexesByLicense, ReservationASM.findAllIndexesFrom,
    ReservationASM.get, ReservationASM.deleteReservationByIndex, swapDelete, truncateFile,
    restoreCounters, SailingManager.updateOnboardCount, SailingManager.updateLaneLengths,
    SailingASM.updateRecord, scanFirst, scanFrom, wrapInt, float9_9_eq, float99_9_eq,
    float7_1_eq, float16_2_eq, f32_drift_add, plate_ABC_ne_XYZ, plate_XYZ_ne_ABC, lane_L_ne_H]

/-- C1 as stated fails: the two `float` operations of a booking and of its deletion
need not cancel.  On a sailing fresh from a ferry with both capacities 100 a vehicle
7.1f long is booked (Low becomes 12176589/131072); then a vehicle 16.2f long is
booked, which is confirmed, and that booking is deleted while the sailing exists.
The pair leaves Low at 3044147/32768 = 12176588/131072, so High + Low after the pair
is not its value before the pair. -/
theorem create_delete_counterexample :
    createFlow storesEmpty answersLong WriteOutcome.written =
      (CreateOutcome.confirmed, storesLong) ∧
    IsSailingAt storesLong.sailings (selectedSailing storesLong answersLonger) 0
      { date := "AAA-01-01", ferryName := "Queen", highLaneRestLength := 100,
        lowLaneRestLength := 12176589 / 131072, onboardVehicleCount := 1 } ∧
    (createFlow storesLong answersLonger WriteOutcome.written).1 = CreateOutcome.confirmed ∧
    (deleteFlow (createFlow storesLong answersLonger WriteOutcome.written).2 deleteXYZ).1 =
      DeleteOutcome.deleted reservationXYZ ∧
    reservationXYZ.licensePlate = answersLonger.plate ∧
    reservationXYZ.sailingId = selectedSailing storesLong answersLonger ∧
    (deleteFlow (createFlow storesLong answersLonger WriteOutcome.written).2 deleteXYZ).2.sailings =
      [{ date := "AAA-01-01", ferryName := "Queen", highLaneRestLength := 100,
         lowLaneRestLength := 3044147 / 32768, onboardVehicleCount := 1 }] ∧
    (100 + 3044147 / 32768 : ℚ) ≠ 100 + 12176589 / 131072 := by
  rw [createFlow_storesLong, deleteFlow_storesLonger, selectedSailing_storesLong]
  refine ⟨createFlow_storesEmpty_long, ?_, rfl, rfl, rfl, rfl, rfl, by norm_num⟩
  exact isSailingAt_head _ []

/-! ## The branches of the flows and the ledger of a sailing -/

theorem deleteFlow_cases (st : Stores) (d : DeleteAnswers) :
    (deleteFlow st d).2 = st ∨
    (deleteFlow st d).2 =
      { st with reservations := purgeOrphans st.sailings st.reservations d.plate } ∨
    (∃ sel t, (purgeOrphans st.sailings st.reservations d.plate)[t]? = some sel ∧
      sailingStillExists st.sailings sel.sailingId = true ∧
      (deleteFlow st d).2 =
        { sailings := restoreCounters st.sailings st.vehicles sel, vehicles := st.vehicles,
          reservations := swapDelete (purgeOrphans st.sailings st.reservations d.plate) t }) ∨
    (∃ sel t, (purgeOrphans st.sailings st.reservations d.plate)[t]? = some sel ∧
      sailingStillExists st.sailings sel.sailingId = false ∧
      (deleteFlow st d).2 =
        { st with reservations :=
            swapDelete (purgeOrphans st.sailings st.reservations d.plate) t }) := by
  unfold deleteFlow
  simp only
  split_ifs with h1 h2 h3 h4 h5 h6
  · exact Or.inl rfl
  · exact Or.inr (Or.inl rfl)
  · exact Or.inr (Or.inl rfl)
  · exact Or.inr (Or.inl rfl)
  all_goals
    have hmem := getD_mem_of_choice _ _ h3
    generalize (validOf st.sailings (purgeOrphans st.sailings st.reservations d.plate)
      (ReservationASM.findAllIndexesByLicense
        (purgeOrphans st.sailings st.reservations d.plate) d.plate)).getD
          (d.choice - 1).toNat 0 = T at *
    unfold validOf at hmem
    rw [List.mem_filter, mem_findAllIndexesByLicense] at hmem
    obtain ⟨⟨r, hr, hp⟩, _⟩ := hmem
    have hget := get_of_getElem? _ _ r hr
  · exfalso
    have hT : T < (purgeOrphans st.sailings st.reservations d.plate).length :=
      (List.getElem?_eq_some.mp hr).1
    have hnot : ¬ T ≥ (purgeOrphans st.sailings st.reservations d.plate).length := by omega
    simp [ReservationASM.deleteReservationByIndex, if_neg hnot] at h5
  · rw [hget] at h6 ⊢
    exact Or.inr (Or.inr (Or.inl ⟨r, T, hr, h6, by rw [deleteReservationByIndex_snd]⟩))
  · rw [hget] at h6
    refine Or.inr (Or.inr (Or.inr ⟨r, T, hr, by simpa using h6, ?_⟩))
    rw [deleteReservationByIndex_snd]

theorem createFlow_cases (st : Stores) (a : CreateAnswers) (w : WriteOutcome) :
    (createFlow st a w).2 = st ∨
    (Proceeds st a ∧
      (createFlow st a w).2 =
        { sailings := st.sailings, vehicles := saveVehicle st.vehicles (vehicleOf a),
          reservations := st.reservations }) ∨
    (Proceeds st a ∧ ((allocOf st a).1 = 'H' ∨ (allocOf st a).1 = 'L') ∧
      (createFlow st a w).2 =
        { sailings := SailingManager.updateOnboardCount (allocOf st a).2 (selectedSailing st a) 1,
          vehicles := saveVehicle st.vehicles (vehicleOf a),
          reservations := st.reservations ++ [newReservation st a] }) ∨
    (Proceeds st a ∧ ((allocOf st a).1 = 'H' ∨ (allocOf st a).1 = 'L') ∧
      w ≠ WriteOutcome.written ∧
      (createFlow st a w).2 =
        { sailings := (SailingManager.updateLaneLengths (allocOf st a).2 (selectedSailing st a)
            a.height a.length true (allocOf st a).1).2,
          vehicles := saveVehicle st.vehicles (vehicleOf a),
          reservations :=
            if w = WriteOutcome.buffered then st.reservations ++ [newReservation st a]
            else st.reservations }) := by
  by_cases hp : Proceeds st a
  · rw [createFlow_of_proceeds st a w hp]
    by_cases h1 : (allocOf st a).1 ≠ 'H' ∧ (allocOf st a).1 ≠ 'L'
    · rw [if_pos h1]
      right; left
      refine ⟨hp, ?_⟩
      have : (allocOf st a).2 = st.sailings := by
        apply updateLaneLengths_alloc_fail
        rintro (h | h)
        · exact h1.1 h
        · exact h1.2 h
      simp only [this]
    · rw [if_neg h1]
      by_cases h2 : w = WriteOutcome.written
      · rw [if_pos h2]
        right; right; left
        exact ⟨hp, allocOf_lane_cases st a h1, rfl⟩
      · rw [if_neg h2]
        right; right; right
        exact ⟨hp, allocOf_lane_cases st a h1, h2, rfl⟩
  · left
    unfold Proceeds at hp
    unfold createFlow
    simp only
    split_ifs with h1 h2 h3 h4 h5 h6 h7
    all_goals first
      | rfl
      | (exfalso
         apply hp
         refine ⟨h1, h2, by simpa using h3, by simpa using h4, ?_⟩
         simpa [vehicleOf] using h5)

theorem vehicleLength_of_scan {vs : List Vehicle} {plate : String} {j : Nat} {v : Vehicle}
    (h : scanFirst (fun t => t.licensePlate == plate) vs = some (j, v)) :
    vehicleLength vs plate = v.specialLength := by
  simp only [vehicleLength, h]

theorem date_BBB_ne_AAA : ("BBB-02-02" : String) ≠ "AAA-01-01" := by decide

theorem storesCascade_delete :
    SailingManager.deleteSailingByDate 2 storesCascade "BBB-02-02" =
      some (true, { sailings := [], vehicles := [vehicleXYZ], reservations := [] }) := by
  decide

theorem createSailingViaUI_fresh :
    SailingManager.createSailingViaUI [] "AAA-01-01" ferryQueen 0 = (true, [sailingB]) := by
  norm_num [SailingManager.createSailingViaUI, SailingManager.addSailing,
    SailingManager.sailingExists, scanFirst, scanFrom, SailingASM.addRecord, ferryQueen, sailingB]

theorem createFlowStale_fresh :
    createFlowStale [reservationOnC]
        { sailings := [sailingB], vehicles := [vehicleXYZ], reservations := [] } answersABC
        WriteOutcome.written =
      (CreateOutcome.confirmed,
        { sailings := [{ date := "AAA-01-01", ferryName := "Queen", highLaneRestLength := 100,
                         lowLaneRestLength := 93, onboardVehicleCount := 1 }],
          vehicles := [vehicleXYZ, vehicleOf answersABC], reservations := [] },
        [reservationOnC, reservationABC]) := by
  norm_num [createFlowStale, createFlow, answersABC, sailingB, selectedSailing,
    showAvailableAndSelect, SailingManager.getMatchingSailings, SailingManager.canFit,
    ReservationASM.existsReservation, checkVehicleConsistency, scanFirst, scanFrom, saveVehicle,
    VehicleASM.addRecord, SailingManager.updateLaneLengths, SailingASM.updateRecord,
    ReservationASM.writeReservationRecord, SailingManager.updateOnboardCount, NUL,
    float9_9_eq, float99_9_eq, f32_93, wrapInt, vehicleOf, vehicleXYZ, reservationOnC,
    reservationABC, plate_ABC_ne_XYZ, plate_XYZ_ne_ABC, date_AAA_length, date_BBB_ne_AAA, lane_L_ne_H]

/-- C9 fails in the code.  (1) `createFlow` works through a stream that it never
reopens, while `deleteFlow` and `checkInFlow` reopen theirs.  The only sailing,
BBB-02-02, carries one reservation and is deleted: the cascade of
`deleteSailingByDate` replaces the reservation file by a new, empty one, and the
stream of the manager stays on the old file.  Sailing AAA-01-01 is then created
from the ferry Queen (HCLL = LCLL = 100) and plate ABC123 (length 7) is booked on
it: the booking is confirmed, Low drops to 93, but the record goes to the old file,
so the sailing has no reservation in the reservation file and 93 + 0 is not LCLL.
(2) Without any stale stream, on the sailing fresh from the same ferry, the booking
of 7.1f, the booking of 16.2f and the deletion of the latter leave Low at
3044147/32768, and Low plus the length 7.1f of the one reservation left on the Low
lane is not LCLL: the `float` operations do not cancel. -/
theorem ledger_invariant_fails :
    (SailingManager.deleteSailingByDate 2 storesCascade "BBB-02-02" =
        some (true, { sailings := [], vehicles := [vehicleXYZ], reservations := [] }) ∧
      freshStores [] "AAA-01-01" ferryQueen 0 [vehicleXYZ] [] =
        { sailings := [sailingB], vehicles := [vehicleXYZ], reservations := [] } ∧
      createFlowStale storesCascade.reservations
          (freshStores [] "AAA-01-01" ferryQueen 0 [vehicleXYZ] []) answersABC
          WriteOutcome.written =
        (CreateOutcome.confirmed,
          { sailings := [{ date := "AAA-01-01", ferryName := "Queen", highLaneRestLength := 100,
                           lowLaneRestLength := 93, onboardVehicleCount := 1 }],
            vehicles := [vehicleXYZ, vehicleOf answersABC], reservations := [] },
          [reservationOnC, reservationABC]) ∧
      laneLoad { sailings := [{ date := "AAA-01-01", ferryName := "Queen",
                                highLaneRestLength := 100, lowLaneRestLength := 93,
                                onboardVehicleCount := 1 }],
                 vehicles := [vehicleXYZ, vehicleOf answersABC], reservations := [] }
        "AAA-01-01" 'L' = 0 ∧
      (93 : ℚ) + 0 ≠ (ferryQueen.LCLL : ℚ)) ∧
    (freshStores [] "AAA-01-01" ferryQueen 0 [] [] = storesEmpty ∧
      createFlow storesEmpty answersLong WriteOutcome.written =
        (CreateOutcome.confirmed, storesLong) ∧
      createFlow storesLong answersLonger WriteOutcome.written =
        (CreateOutcome.confirmed, storesLonger) ∧
      deleteFlow storesLonger deleteXYZ =
        (DeleteOutcome.deleted reservationXYZ,
          { sailings := [{ date := "AAA-01-01", ferryName := "Queen", highLaneRestLength := 100,
                           lowLaneRestLength := 3044147 / 32768, onboardVehicleCount := 1 }],
            vehicles := [vehicleOf answersLong, vehicleOf answersLonger],
            reservations := [reservationABC] }) ∧
      laneLoad { sailings := [{ date := "AAA-01-01", ferryName := "Queen",
                                highLaneRestLength := 100,
                                lowLaneRestLength := 3044147 / 32768,
                                onboardVehicleCount := 1 }],
                 vehicles := [vehicleOf answersLong, vehicleOf answersLonger],
                 reservations := [reservationABC] }
        "AAA-01-01" 'L' = float7_1 ∧
      (3044147 / 32768 : ℚ) + float7_1 ≠ (ferryQueen.LCLL : ℚ)) := by
  have hfresh : freshStores [] "AAA-01-01" ferryQueen 0 [vehicleXYZ] [] =
      { sailings := [sailingB], vehicles := [vehicleXYZ], reservations := [] } := by
    simp only [freshStores, createSailingViaUI_fresh]
  refine ⟨⟨storesCascade_delete, hfresh, ?_, ?_, ?_⟩, ?_, createFlow_storesEmpty_long,
    createFlow_storesLong, deleteFlow_storesLonger, ?_, ?_⟩
  · rw [hfresh]
    exact createFlowStale_fresh
  · simp [laneLoad]
  · norm_num [ferryQueen]
  · simp only [freshStores, createSailingViaUI_fresh, storesEmpty]
  · norm_num [laneLoad, reservationABC, vehicleLength, scanFirst, scanFrom, vehicleOf,
      answersLong, answersLonger]
  · norm_num [ferryQueen, float7_1_eq]

/-! ## Rejected calls of the capacity update -/

theorem f32_13107 : f32 (13107 / 131072) = 13107 / 131072 := by
  rw [f32_eq_of_near _ (-4) 13421568] <;> norm_num

/-- C15 as stated fails: the guard compares with the `float` literals 9.9f and 99.9f,
and 99.9f = 13094093/131072 is greater than 99.9.  The length 99.9f, which is what
the size prompt of `createFlow` leaves for the input 99.9, is greater than 99.9, yet
the allocation of a vehicle of that length on a sailing with Low = 100 is accepted:
it returns 'L' and leaves Low = 13107/131072. -/
theorem updateLaneLengths_invalid_dims_counterexample :
    float99_9 > 99.9 ∧
    SailingManager.updateLaneLengths [sailingB] "AAA-01-01" 2 float99_9 false NUL =
      ('L', [{ sailingB with lowLaneRestLength := 13107 / 131072 }]) ∧
    SailingManager.updateLaneLengths [sailingB] "AAA-01-01" 2 float99_9 false NUL ≠
      (NUL, [sailingB]) := by
  have h1 : SailingManager.updateLaneLengths [sailingB] "AAA-01-01" 2 float99_9 false NUL =
      ('L', [{ sailingB with lowLaneRestLength := 13107 / 131072 }]) := by
    norm_num [SailingManager.updateLaneLengths, sailingB, scanFirst, scanFrom,
      SailingASM.updateRecord, float9_9_eq, float99_9_eq, f32_13107]
  refine ⟨by norm_num [float99_9_eq], h1, ?_⟩
  rw [h1]
  intro h
  have h2 := congrArg Prod.fst h
  revert h2
  show 'L' = NUL → False
  decide

/-- C15, amended: a call of `updateLaneLengths` with height <= 0, height > 9.9f,
length <= 0 or length > 99.9f, where 9.9f = 5190451/524288 and
99.9f = 13094093/131072 are the binary32 values nearest to 9.9 and 99.9, returns the
failure value and leaves the sailing file as it was, for every file, date, mode and
lane hint. -/
theorem updateLaneLengths_invalid_dims (db : List SailingRecord) (date : String)
    (height length : ℚ) (isReversing : Bool) (laneHint : Char)
    (h : height ≤ 0 ∨ height > float9_9 ∨ length ≤ 0 ∨ length > float99_9) :
    SailingManager.updateLaneLengths db date height length isReversing laneHint = (NUL, db) := by
  unfold SailingManager.updateLaneLengths
  rw [if_pos h]

/-- C15 (amended) at concrete inputs: a height of 10 in allocate mode and a length of
100 in release mode are both rejected on the sailing with High = 10 and Low = 5. -/
theorem updateLaneLengths_invalid_dims_witness :
    SailingManager.updateLaneLengths [sailingA] "AAA-01-01" 10 7 false NUL = (NUL, [sailingA]) ∧
    SailingManager.updateLaneLengths [sailingA] "AAA-01-01" 2 100 true 'H' = (NUL, [sailingA]) :=
  ⟨updateLaneLengths_invalid_dims [sailingA] "AAA-01-01" 10 7 false NUL
      (Or.inr (Or.inl (by norm_num [float9_9_eq]))),
    updateLaneLengths_invalid_dims [sailingA] "AAA-01-01" 2 100 true 'H'
      (Or.inr (Or.inr (Or.inr (by norm_num [float99_9_eq]))))⟩

/-- C16: when no record of the sailing file has the given date, `updateLaneLengths`
returns the failure value and leaves the file as it was, for every height, length,
mode and lane hint. -/
theorem updateLaneLengths_not_found (db : List SailingRecord) (date : String)
    (height length : ℚ) (isReversing : Bool) (laneHint : Char)
    (h : ∀ r ∈ db, r.date ≠ date) :
    SailingManager.updateLaneLengths db date height length isReversing laneHint = (NUL, db) := by
  have hscan : scanFirst (fun r : SailingRecord => r.date == date) db = none := by
    rw [scanFirst_none]
    intro x hx
    simpa using h x hx
  by_cases hg : height ≤ 0 ∨ height > float9_9 ∨ length ≤ 0 ∨ length > float99_9
  · simp only [SailingManager.updateLaneLengths, if_pos hg]
  · simp only [SailingManager.updateLaneLengths, if_neg hg, hscan]

/-- C16 at a concrete input: the file holds sailing AAA-01-01 only and the call names
BBB-02-02. -/
theorem updateLaneLengths_not_found_witness :
    SailingManager.updateLaneLengths [sailingA] "BBB-02-02" 2 7 false NUL = (NUL, [sailingA]) :=
  updateLaneLengths_not_found [sailingA] "BBB-02-02" 2 7 false NUL (by
    intro r hr
    rw [List.mem_singleton] at hr
    subst hr
    decide)

theorem findSailingsWithFerry_isEmpty (sailings : List SailingRecord) (n : String) :
    (SailingASM.findSailingsWithFerry sailings n).isEmpty = true ↔
      ∀ s ∈ sailings, s.ferryName ≠ n := by
  simp [SailingASM.findSailingsWithFerry, List.isEmpty_iff, List.filter_eq_nil_iff]

/-- C12: `deleteFerry` of a ferry name that a stored sailing carries returns false and
leaves the ferry file as it was; when no stored sailing carries the name and a ferry
of that name is stored, it returns true, no ferry of that name is stored afterwards
and the file is the old one without the records of that name, so every other ferry
remains, in the order it had. -/
theorem deleteFerry_guard (ferries : List Ferry) (sailings : List SailingRecord) (n : String) :
    ((∃ s ∈ sailings, s.ferryName = n) →
      FerryASM.deleteFerry ferries sailings n = (false, ferries)) ∧
    ((∀ s ∈ sailings, s.ferryName ≠ n) → (∃ f ∈ ferries, f.ferryName = n) →
      (FerryASM.deleteFerry ferries sailings n).1 = true ∧
      (∀ f ∈ (FerryASM.deleteFerry ferries sailings n).2, f.ferryName ≠ n) ∧
      (∀ f ∈ ferries, f.ferryName ≠ n → f ∈ (FerryASM.deleteFerry ferries sailings n).2) ∧
      (FerryASM.deleteFerry ferries sailings n).2 =
        ferries.filter (fun f => decide (f.ferryName ≠ n))) := by
  constructor
  · intro hused
    have hne : (SailingASM.findSailingsWithFerry sailings n).isEmpty = false := by
      rw [Bool.eq_false_iff]
      intro h
      obtain ⟨s, hs, hn⟩ := hused
      exact (findSailingsWithFerry_isEmpty sailings n).mp h s hs hn
    simp [FerryASM.deleteFerry, hne]
  · intro hfree hstored
    have he : (SailingASM.findSailingsWithFerry sailings n).isEmpty = true :=
      (findSailingsWithFerry_isEmpty sailings n).mpr hfree
    have hfound : ferries.any (fun ferry => ferry.ferryName == n) = true := by
      obtain ⟨f, hf, hn⟩ := hstored
      rw [List.any_eq_true]
      exact ⟨f, hf, by simpa using hn⟩
    have hres : FerryASM.deleteFerry ferries sailings n =
        (true, ferries.filter (fun ferry => ferry.ferryName != n)) := by
      simp only [FerryASM.deleteFerry, he, hfound]
      rfl
    rw [hres]
    refine ⟨rfl, ?_, ?_, ?_⟩
    · intro f hf
      simpa using (List.mem_filter.mp hf).2
    · intro f hf hn
      exact List.mem_filter.mpr ⟨hf, by simpa using hn⟩
    · show ferries.filter (fun ferry => ferry.ferryName != n) = _
      congr 1
      funext f
      by_cases h : f.ferryName = n <;> simp [h]

/-- C12 at concrete inputs: with sailing AAA-01-01 assigned to ferry Queen the deletion
of Queen is refused, and the deletion of Spirit, which no sailing uses, leaves Queen
alone in the file. -/
theorem deleteFerry_guard_witness :
    FerryASM.deleteFerry ferriesEx [sailingA] "Queen" = (false, ferriesEx) ∧
    (FerryASM.deleteFerry ferriesEx [sailingA] "Spirit").1 = true ∧
    (∀ f ∈ (FerryASM.deleteFerry ferriesEx [sailingA] "Spirit").2, f.ferryName ≠ "Spirit") ∧
    (∀ f ∈ ferriesEx, f.ferryName ≠ "Spirit" →
      f ∈ (FerryASM.deleteFerry ferriesEx [sailingA] "Spirit").2) ∧
    (FerryASM.deleteFerry ferriesEx [sailingA] "Spirit").2 =
      ferriesEx.filter (fun f => decide (f.ferryName ≠ "Spirit")) :=
  ⟨(deleteFerry_guard ferriesEx [sailingA] "Queen").1 ⟨sailingA, by simp, by decide⟩,
    (deleteFerry_guard ferriesEx [sailingA] "Spirit").2
      (by intro s hs; rw [List.mem_singleton] at hs; subst hs; decide)
      ⟨{ ferryName := "Spirit", HCLL := 80, LCLL := 60 }, by simp [ferriesEx], rfl⟩⟩

/-! ## Validation of a sailing ID -/

theorem isDigit_bounds (c : Char) (h : c.isDigit = true) : 48 ≤ c.toNat ∧ c.toNat ≤ 57 := by
  simp only [Char.isDigit, Bool.and_eq_true, decide_eq_true_eq] at h
  obtain ⟨h1, h2⟩ := h
  rw [ge_iff_le, UInt32.le_def] at h1
  rw [UInt32.le_def] at h2
  exact ⟨h1, h2⟩

theorem isUpper_bounds (c : Char) (h : c.isUpper = true) : 65 ≤ c.toNat ∧ c.toNat ≤ 90 := by
  simp only [Char.isUpper, Bool.and_eq_true, decide_eq_true_eq] at h
  obtain ⟨h1, h2⟩ := h
  rw [ge_iff_le, UInt32.le_def] at h1
  rw [UInt32.le_def] at h2
  exact ⟨h1, h2⟩

theorem isLower_bounds (c : Char) (h : c.isLower = true) : 97 ≤ c.toNat ∧ c.toNat ≤ 122 := by
  simp only [Char.isLower, Bool.and_eq_true, decide_eq_true_eq] at h
  obtain ⟨h1, h2⟩ := h
  rw [ge_iff_le, UInt32.le_def] at h1
  rw [UInt32.le_def] at h2
  exact ⟨h1, h2⟩

theorem toUpper_of_isUpper (c : Char) (h : c.isUpper = true) : c.toUpper = c := by
  have hb := isUpper_bounds c h
  have : ¬ (c.toNat ≥ 97 ∧ c.toNat ≤ 122) := by omega
  simp only [Char.toUpper, if_neg this]

theorem isUpper_toUpper (c : Char) (h : c.isAlpha = true) : c.toUpper.isUpper = true := by
  simp only [Char.isAlpha, Bool.or_eq_true] at h
  rcases h with h | h
  · rw [toUpper_of_isUpper c h]
    exact h
  · have hb := isLower_bounds c h
    have hc : c.toNat ≥ 97 ∧ c.toNat ≤ 122 := hb
    simp only [Char.toUpper, if_pos hc]
    obtain ⟨h1, h2⟩ := hb
    generalize c.toNat = n at *
    interval_cases n <;> decide

theorem digitValue_of_isDigit (c : Char) (h : c.isDigit = true) :
    SailingManager.digitValue c = ((c.toNat - 48 : Nat) : Int) := by
  have hb := isDigit_bounds c h
  have h0 : '0'.toNat = 48 := by decide
  simp only [SailingManager.digitValue, h0]
  omega

theorem day_guard (a b : Char) (ha : a.isDigit = true) (hb : b.isDigit = true) (hi : Nat) :
    ¬ (SailingManager.digitValue a * 10 + SailingManager.digitValue b < 1 ∨
        SailingManager.digitValue a * 10 + SailingManager.digitValue b > (hi : Int)) ↔
      (1 ≤ twoDigits a b ∧ twoDigits a b ≤ hi) := by
  rw [digitValue_of_isDigit a ha, digitValue_of_isDigit b hb]
  simp only [twoDigits]
  omega


theorem isValidSailingId_nine (t0 t1 t2 m0 d0 d1 m1 h0 h1 : Char) :
    SailingManager.isValidSailingId (String.mk [t0, t1, t2, m0, d0, d1, m1, h0, h1]) =
      if hasSailingIdForm Char.isAlpha (String.mk [t0, t1, t2, m0, d0, d1, m1, h0, h1]) = true then
        some (String.mk [t0.toUpper, t1.toUpper, t2.toUpper, '-', d0, d1, '-', h0, h1])
      else none := by
  have hlen : (String.mk [t0, t1, t2, m0, d0, d1, m1, h0, h1]).length = 9 := rfl
  have c0 : SailingManager.charAt (String.mk [t0, t1, t2, m0, d0, d1, m1, h0, h1]) 0 = t0 := rfl
  have c1 : SailingManager.charAt (String.mk [t0, t1, t2, m0, d0, d1, m1, h0, h1]) 1 = t1 := rfl
  have c2 : SailingManager.charAt (String.mk [t0, t1, t2, m0, d0, d1, m1, h0, h1]) 2 = t2 := rfl
  have c3 : SailingManager.charAt (String.mk [t0, t1, t2, m0, d0, d1, m1, h0, h1]) 3 = m0 := rfl
  have c4 : SailingManager.charAt (String.mk [t0, t1, t2, m0, d0, d1, m1, h0, h1]) 4 = d0 := rfl
  have c5 : SailingManager.charAt (String.mk [t0, t1, t2, m0, d0, d1, m1, h0, h1]) 5 = d1 := rfl
  have c6 : SailingManager.charAt (String.mk [t0, t1, t2, m0, d0, d1, m1, h0, h1]) 6 = m1 := rfl
  have c7 : SailingManager.charAt (String.mk [t0, t1, t2, m0, d0, d1, m1, h0, h1]) 7 = h0 := rfl
  have c8 : SailingManager.charAt (String.mk [t0, t1, t2, m0, d0, d1, m1, h0, h1]) 8 = h1 := rfl
  have hr : (List.range 3).all
      (fun i => (SailingManager.charAt (String.mk [t0, t1, t2, m0, d0, d1, m1, h0, h1]) i).isAlpha) =
      (t0.isAlpha && t1.isAlpha && t2.isAlpha) := by
    simp [List.range, List.range.loop, c0, c1, c2, Bool.and_assoc]
  simp only [SailingManager.isValidSailingId, hlen, c0, c1, c2, c3, c4, c5, c6, c7, c8, hr,
    hasSailingIdForm]
  by_cases hm0 : m0 = '-'
  swap
  · simp [hm0]
  by_cases hm1 : m1 = '-'
  swap
  · simp [hm1]
  by_cases ht0 : t0.isAlpha = true
  swap
  · simp [ht0]
  by_cases ht1 : t1.isAlpha = true
  swap
  · simp [ht1]
  by_cases ht2 : t2.isAlpha = true
  swap
  · simp [ht2]
  by_cases hd0 : d0.isDigit = true
  swap
  · simp [hd0]
  by_cases hd1 : d1.isDigit = true
  swap
  · simp [hd1]
  have hday := day_guard d0 d1 hd0 hd1 31
  by_cases hd : 1 ≤ twoDigits d0 d1 ∧ twoDigits d0 d1 ≤ 31
  swap
  · have hd' : SailingManager.digitValue d0 * 10 + SailingManager.digitValue d1 < 1 ∨
        SailingManager.digitValue d0 * 10 + SailingManager.digitValue d1 > ((31 : Nat) : Int) := by
      by_contra h
      exact hd (hday.mp h)
    have hd2 : ¬ (1 ≤ twoDigits d0 d1 ∧ twoDigits d0 d1 ≤ 31) := hd
    simp only [Nat.cast_ofNat] at hd'
    simp only [hm0, hm1, ht0, ht1, ht2, hd0, hd1, hd2, if_pos hd', decide_False, Bool.and_false,
      Bool.false_and, Bool.not_true, Bool.or_false, Bool.and_true, ne_eq, not_true_eq_false,
      or_self, if_false, Bool.false_eq_true]
  have hd' := hday.mpr hd
  simp only [Nat.cast_ofNat] at hd'
  by_cases hh0 : h0.isDigit = true
  swap
  · simp [hm0, hm1, hd', hh0]
  by_cases hh1 : h1.isDigit = true
  swap
  · simp [hm0, hm1, hd', hh1]
  have hhour := day_guard h0 h1 hh0 hh1 24
  by_cases hh : 1 ≤ twoDigits h0 h1 ∧ twoDigits h0 h1 ≤ 24
  swap
  · have hh' : SailingManager.digitValue h0 * 10 + SailingManager.digitValue h1 < 1 ∨
        SailingManager.digitValue h0 * 10 + SailingManager.digitValue h1 > ((24 : Nat) : Int) := by
      by_contra h
      exact hh (hhour.mp h)
    simp only [Nat.cast_ofNat] at hh'
    simp only [hm0, hm1, ht0, ht1, ht2, hd0, hd1, hh0, hh1, hh, if_neg hd', if_pos hh',
      decide_False, Bool.and_false,
      Bool.false_and, Bool.not_true, Bool.or_false, Bool.and_true, ne_eq, not_true_eq_false,
      or_self, if_false, Bool.false_eq_true]
  have hh' := hhour.mpr hh
  simp only [Nat.cast_ofNat] at hh'
  simp only [hm0, hm1, ht0, ht1, ht2, hd0, hd1, hh0, hh1, hh, hd, if_neg hd', if_neg hh',
      decide_True, beq_self_eq_true,
      Bool.not_true, Bool.or_false, Bool.and_true, ne_eq, not_true_eq_false,
      or_self, if_false, Bool.false_eq_true, if_true]
  simp

theorem isValidSailingId_short (l : List Char) (h : l.length ≠ 9) :
    SailingManager.isValidSailingId (String.mk l) = none ∧
      ∀ letter, hasSailingIdForm letter (String.mk l) = false := by
  constructor
  · have : (String.mk l).length ≠ 9 := h
    simp only [SailingManager.isValidSailingId, if_pos (Or.inl this)]
  · intro letter
    match l, h with
    | [], _ => rfl
    | [_], _ => rfl
    | [_, _], _ => rfl
    | [_, _, _], _ => rfl
    | [_, _, _, _], _ => rfl
    | [_, _, _, _, _], _ => rfl
    | [_, _, _, _, _, _], _ => rfl
    | [_, _, _, _, _, _, _], _ => rfl
    | [_, _, _, _, _, _, _, _], _ => rfl
    | [_, _, _, _, _, _, _, _, _], h => exact absurd rfl h
    | _ :: _ :: _ :: _ :: _ :: _ :: _ :: _ :: _ :: _ :: _, _ => rfl

theorem nine_chars (l : List Char) (h : l.length = 9) :
    ∃ t0 t1 t2 m0 d0 d1 m1 h0 h1, l = [t0, t1, t2, m0, d0, d1, m1, h0, h1] := by
  match l, h with
  | [t0, t1, t2, m0, d0, d1, m1, h0, h1], _ => exact ⟨t0, t1, t2, m0, d0, d1, m1, h0, h1, rfl⟩

/-- Counterexample to C18 as stated: the lower-case input abc-01-01 is accepted (the
buffer receives ABC-01-01), although it is not of the form with three uppercase
letters. -/
theorem isValidSailingId_lowercase :
    SailingManager.isValidSailingId "abc-01-01" = some "ABC-01-01" ∧
    hasSailingIdForm Char.isUpper "abc-01-01" = false := by
  decide

/-- C18, amended: `isValidSailingId` returns true exactly for the inputs of nine
characters of the form TTT-DD-HH with TTT three letters of either case, '-' at
positions 3 and 6, DD two digits for a day in 01..31 and HH two digits for an hour
in 01..24.  The ID it leaves in the buffer is the input with the three letters in
upper case, which has the form with uppercase letters; an input that has that form
already is accepted and returned as it is. -/
theorem isValidSailingId_spec (input : String) :
    ((SailingManager.isValidSailingId input).isSome = hasSailingIdForm Char.isAlpha input) ∧
    (∀ out, SailingManager.isValidSailingId input = some out →
      out = String.mk ((input.data.take 3).map Char.toUpper ++ input.data.drop 3) ∧
      hasSailingIdForm Char.isUpper out = true) ∧
    (hasSailingIdForm Char.isUpper input = true →
      SailingManager.isValidSailingId input = some input) := by
  obtain ⟨l⟩ := input
  by_cases hl : l.length = 9
  swap
  · obtain ⟨h1, h2⟩ := isValidSailingId_short l hl
    refine ⟨?_, ?_, ?_⟩
    · rw [h1, h2]
      rfl
    · intro out ho
      rw [h1] at ho
      exact absurd ho (by simp)
    · intro hf
      rw [h2] at hf
      exact absurd hf (by simp)
  obtain ⟨t0, t1, t2, m0, d0, d1, m1, h0, h1, rfl⟩ := nine_chars l hl
  have hnine := isValidSailingId_nine t0 t1 t2 m0 d0 d1 m1 h0 h1
  refine ⟨?_, ?_, ?_⟩
  · rw [hnine]
    by_cases hf : hasSailingIdForm Char.isAlpha (String.mk [t0, t1, t2, m0, d0, d1, m1, h0, h1]) = true
    · rw [if_pos hf, hf]
      rfl
    · rw [if_neg hf]
      rw [Bool.not_eq_true] at hf
      rw [hf]
      rfl
  · intro out ho
    rw [hnine] at ho
    by_cases hf : hasSailingIdForm Char.isAlpha (String.mk [t0, t1, t2, m0, d0, d1, m1, h0, h1]) = true
    · rw [if_pos hf] at ho
      have ho' := (Option.some.inj ho).symm
      subst ho'
      simp only [hasSailingIdForm, Bool.and_eq_true, decide_eq_true_eq, beq_iff_eq] at hf
      obtain ⟨⟨⟨⟨⟨⟨⟨⟨⟨⟨a0, a1⟩, a2⟩, a3⟩, a4⟩, a5⟩, a6⟩, a7⟩, a8⟩, a9⟩, a10⟩ := hf
      subst a3 a4
      refine ⟨?_, ?_⟩
      · simp
      · have u0 := isUpper_toUpper t0 a0
        have u1 := isUpper_toUpper t1 a1
        have u2 := isUpper_toUpper t2 a2
        simp only [hasSailingIdForm, Bool.and_eq_true, decide_eq_true_eq, beq_iff_eq, u0, u1, u2,
          a5, a6, a8, a9, and_self, true_and, and_true]
        exact ⟨a7, a10⟩
    · rw [if_neg hf] at ho
      exact absurd ho (by simp)
  · intro hf
    rw [hnine]
    simp only [hasSailingIdForm, Bool.and_eq_true, decide_eq_true_eq, beq_iff_eq] at hf
    obtain ⟨⟨⟨⟨⟨⟨⟨⟨⟨⟨a0, a1⟩, a2⟩, a3⟩, a4⟩, a5⟩, a6⟩, a7⟩, a8⟩, a9⟩, a10⟩ := hf
    have hal : ∀ c : Char, c.isUpper = true → c.isAlpha = true := by
      intro c hc
      simp [Char.isAlpha, hc]
    have hform : hasSailingIdForm Char.isAlpha
        (String.mk [t0, t1, t2, m0, d0, d1, m1, h0, h1]) = true := by
      simp only [hasSailingIdForm, Bool.and_eq_true, decide_eq_true_eq, beq_iff_eq]
      exact ⟨⟨⟨⟨⟨⟨⟨⟨⟨⟨hal t0 a0, hal t1 a1⟩, hal t2 a2⟩, a3⟩, a4⟩, a5⟩, a6⟩, a7⟩, a8⟩, a9⟩, a10⟩
    rw [if_pos hform, toUpper_of_isUpper t0 a0, toUpper_of_isUpper t1 a1,
      toUpper_of_isUpper t2 a2, a3, a4]

/-- C18, amended, at concrete inputs: ABC-17-08 and abc-17-08 are accepted and give
ABC-17-08; AB1-17-08, ABC-00-08, ABC-17-25 and ABC-17-8 are rejected. -/
theorem isValidSailingId_spec_witness :
    SailingManager.isValidSailingId "ABC-17-08" = some "ABC-17-08" ∧
    SailingManager.isValidSailingId "abc-17-08" = some "ABC-17-08" ∧
    SailingManager.isValidSailingId "AB1-17-08" = none ∧
    SailingManager.isValidSailingId "ABC-00-08" = none ∧
    SailingManager.isValidSailingId "ABC-17-25" = none ∧
    SailingManager.isValidSailingId "ABC-17-8" = none :=
  ⟨(isValidSailingId_spec "ABC-17-08").2.2 (by decide), by decide, by decide, by decide,
    by decide, by decide⟩

/-! ## Booking: failed allocation and vehicle conflict -/

theorem alloc_succeeds_iff {db : List SailingRecord} {date : String} {i : Nat}
    {r : SailingRecord} (hs : IsSailingAt db date i r) {height length : ℚ}
    (hv : validDims height length) (laneHint : Char) :
    (SailingManager.updateLaneLengths db date height length false laneHint).1 ≠ NUL ↔
      SailingManager.canFit height length r = true := by
  have hg := validDims_guard hv
  have hscan := scanFirst_of_isSailingAt hs
  have hH : ('H' : Char) ≠ NUL := by decide
  have hL : ('L' : Char) ≠ NUL := by decide
  simp only [SailingManager.updateLaneLengths, if_neg hg, hscan, SailingManager.canFit,
    SailingASM.updateRecord]
  by_cases ht : height > 2.0
  · by_cases hh : r.highLaneRestLength ≥ length
    · simp [ht, hh, hH]
    · simp [ht, hh]
  · by_cases hl : r.lowLaneRestLength ≥ length
    · simp [ht, hl, hL]
    · by_cases hh : r.highLaneRestLength ≥ length
      · simp [ht, hl, hh, hH]
      · simp [ht, hl, hh]

theorem isSailingAt_of_nodup {db : List SailingRecord} {s : SailingRecord}
    (hnd : (db.map (fun r => r.date)).Nodup) (hmem : s ∈ db) :
    ∃ i, IsSailingAt db s.date i s := by
  obtain ⟨i, hi⟩ := List.getElem?_of_mem hmem
  refine ⟨i, hi, rfl, ?_⟩
  intro k x hk hx hxd
  have hil : i < db.length := by
    by_contra hc
    rw [List.getElem?_eq_none (not_lt.mp hc)] at hi
    exact absurd hi (by simp)
  have h1 : (db.map (fun r => r.date))[k]? = some s.date := by
    rw [List.getElem?_map, hx]
    simp [hxd]
  have h2 : (db.map (fun r => r.date))[i]? = some s.date := by
    rw [List.getElem?_map, hi]
    rfl
  have := (List.nodup_iff_getElem?_ne_getElem?.mp hnd) k i hk (by simpa using hil)
  exact this (h1.trans h2.symm)

theorem saveVehicle_cases (vs : List Vehicle) (v : Vehicle) :
    ((∃ t ∈ vs, t.licensePlate = v.licensePlate) ∧ saveVehicle vs v = vs) ∨
    ((∀ t ∈ vs, t.licensePlate ≠ v.licensePlate) ∧ saveVehicle vs v = vs ++ [v]) := by
  by_cases hex : ∃ t ∈ vs, t.licensePlate = v.licensePlate
  · left
    refine ⟨hex, ?_⟩
    obtain ⟨t, ht, hpl⟩ := hex
    have hany : vs.any (fun t => t.licensePlate == v.licensePlate) = true := by
      rw [List.any_eq_true]
      exact ⟨t, ht, by simpa using hpl⟩
    simp [saveVehicle, hany]
  · right
    push_neg at hex
    refine ⟨hex, ?_⟩
    have hany : vs.any (fun t => t.licensePlate == v.licensePlate) = false := by
      rw [List.any_eq_false]
      intro t ht
      simpa using hex t ht
    simp [saveVehicle, hany, VehicleASM.addRecord]

theorem createFlow_alloc_failed (st : Stores) (a : CreateAnswers) (w : WriteOutcome)
    (hp : Proceeds st a) (hfail : (allocOf st a).1 = NUL) :
    createFlow st a w =
      (CreateOutcome.allocFailed,
        { sailings := st.sailings, vehicles := saveVehicle st.vehicles (vehicleOf a),
          reservations := st.reservations }) := by
  have hH : (allocOf st a).1 ≠ 'H' := by
    rw [hfail]
    decide
  have hL : (allocOf st a).1 ≠ 'L' := by
    rw [hfail]
    decide
  have hsame : (allocOf st a).2 = st.sailings :=
    updateLaneLengths_alloc_fail st.sailings (selectedSailing st a) a.height a.length NUL
      (fun h => h.elim hH hL)
  rw [createFlow_of_proceeds st a w hp, if_pos ⟨hH, hL⟩, hsame]

theorem updateLaneLengths_onboard {db : List SailingRecord} {date : String} {i : Nat}
    {r : SailingRecord} (hs : IsSailingAt db date i r) (height length : ℚ)
    (isReversing : Bool) (laneHint : Char) :
    ∃ r', IsSailingAt (SailingManager.updateLaneLengths db date height length isReversing
        laneHint).2 date i r' ∧ r'.onboardVehicleCount = r.onboardVehicleCount := by
  have hscan := scanFirst_of_isSailingAt hs
  by_cases hg : height ≤ 0 ∨ height > float9_9 ∨ length ≤ 0 ∨ length > float99_9
  · simp only [SailingManager.updateLaneLengths, if_pos hg]
    exact ⟨r, hs, rfl⟩
  · simp only [SailingManager.updateLaneLengths, if_neg hg, hscan, SailingASM.updateRecord]
    split_ifs
    all_goals first
      | exact ⟨r, hs, rfl⟩
      | exact ⟨_, isSailingAt_set hs hs.2.1, rfl⟩

theorem updateOnboardCount_at {db : List SailingRecord} {date : String} {i : Nat}
    {r : SailingRecord} (hs : IsSailingAt db date i r) (delta : Int) :
    ∃ r', IsSailingAt (SailingManager.updateOnboardCount db date delta) date i r' ∧
      r'.onboardVehicleCount = max (wrapInt (r.onboardVehicleCount + delta)) 0 := by
  rw [updateOnboardCount_of_isSailingAt hs]
  refine ⟨_, isSailingAt_set hs hs.2.1, ?_⟩
  show (if wrapInt (r.onboardVehicleCount + delta) < 0 then 0
    else wrapInt (r.onboardVehicleCount + delta)) = _
  split_ifs with h
  · rw [max_eq_right (le_of_lt h)]
  · rw [max_eq_left (not_lt.mp h)]

theorem restoreCounters_onboard {db : List SailingRecord} {i : Nat} {r : SailingRecord}
    (vs : List Vehicle) (sel : ReservationRecord) (hs : IsSailingAt db sel.sailingId i r) :
    ∃ r', IsSailingAt (restoreCounters db vs sel) sel.sailingId i r' ∧
      r'.onboardVehicleCount = max (wrapInt (r.onboardVehicleCount - 1)) 0 := by
  obtain ⟨r1, hs1, hc1⟩ := updateOnboardCount_at hs (-1)
  rw [← Int.sub_eq_add_neg] at hc1
  cases hv : scanFirst (fun t => t.licensePlate == sel.licensePlate) vs with
  | none =>
    simp only [restoreCounters, hv]
    exact ⟨r1, hs1, hc1⟩
  | some jv =>
    obtain ⟨j, v⟩ := jv
    simp only [restoreCounters, hv]
    split_ifs
    · obtain ⟨r2, hs2, hc2⟩ := updateLaneLengths_onboard hs1 v.specialHeight v.specialLength
        true sel.laneUsed
      exact ⟨r2, hs2, hc2.trans hc1⟩
    · exact ⟨r1, hs1, hc1⟩

theorem deleteFlow_storesUncounted :
    (deleteFlow storesUncounted deleteABC).1 = DeleteOutcome.deleted reservationABC := by
  decide

/-- Counterexample to C17 as stated: sailing AAA-01-01 holds the booking of ABC123 and
has a stored onboard count of 0; `deleteFlow` deletes the booking while the sailing
exists and the stored count is 0 afterwards, not one less than before. -/
theorem onboard_count_counterexample :
    IsSailingAt storesUncounted.sailings "AAA-01-01" 0 sailingUncounted ∧
    sailingUncounted.onboardVehicleCount = 0 ∧
    (deleteFlow storesUncounted deleteABC).1 = DeleteOutcome.deleted reservationABC ∧
    (∃ r', IsSailingAt (deleteFlow storesUncounted deleteABC).2.sailings "AAA-01-01" 0 r' ∧
      r'.onboardVehicleCount = 0 ∧ r'.onboardVehicleCount ≠ 0 - 1) := by
  have h0 : IsSailingAt storesUncounted.sailings reservationABC.sailingId 0 sailingUncounted :=
    isSailingAt_head sailingUncounted []
  refine ⟨h0, rfl, deleteFlow_storesUncounted, ?_⟩
  obtain ⟨r', hs', hc'⟩ := restoreCounters_onboard storesUncounted.vehicles reservationABC h0
  obtain ⟨t, -, -, -, heq⟩ := deleteFlow_deleted_inv storesUncounted deleteABC reservationABC
    deleteFlow_storesUncounted
  refine ⟨r', ?_, ?_, ?_⟩
  · rw [heq]
    exact hs'
  · rw [hc']
    decide
  · rw [hc']
    decide

/-- C17, amended: the stored onboard count is an `int` that is kept from falling
below 0.  For the sailing S of a booking, stored with count n, a confirmed
`createFlow` leaves the count at max(wrap(n + 1), 0), where wrap reduces to the
32-bit range: that is n + 1 whenever -1 <= n < 2147483647.  A `deleteFlow` that
deletes a reservation on S while S exists leaves it at max(wrap(n - 1), 0): that is
one less whenever 1 <= n <= 2147483647, and 0 whenever -2147483647 <= n <= 0.  A
`checkInFlow` leaves the sailing file, and so every stored count, unchanged. -/
theorem onboard_count_accounting (st : Stores) :
    (∀ (a : CreateAnswers) (w : WriteOutcome) (i : Nat) (r : SailingRecord),
      IsSailingAt st.sailings (selectedSailing st a) i r →
      (createFlow st a w).1 = CreateOutcome.confirmed →
      ∃ r', IsSailingAt (createFlow st a w).2.sailings (selectedSailing st a) i r' ∧
        r'.onboardVehicleCount = max (wrapInt (r.onboardVehicleCount + 1)) 0 ∧
        (-1 ≤ r.onboardVehicleCount → r.onboardVehicleCount < 2147483647 →
          r'.onboardVehicleCount = r.onboardVehicleCount + 1)) ∧
    (∀ (d : DeleteAnswers) (sel : ReservationRecord) (i : Nat) (r : SailingRecord),
      (deleteFlow st d).1 = DeleteOutcome.deleted sel →
      IsSailingAt st.sailings sel.sailingId i r →
      ∃ r', IsSailingAt (deleteFlow st d).2.sailings sel.sailingId i r' ∧
        r'.onboardVehicleCount = max (wrapInt (r.onboardVehicleCount - 1)) 0 ∧
        (1 ≤ r.onboardVehicleCount → r.onboardVehicleCount ≤ 2147483647 →
          r'.onboardVehicleCount = r.onboardVehicleCount - 1) ∧
        (-2147483647 ≤ r.onboardVehicleCount → r.onboardVehicleCount ≤ 0 →
          r'.onboardVehicleCount = 0)) ∧
    (∀ rounds : List CheckInAnswers, (checkInFlow st rounds).sailings = st.sailings) := by
  refine ⟨?_, ?_, ?_⟩
  · intro a w i r hs hc
    obtain ⟨-, hlane, heq⟩ := createFlow_confirmed_inv st a w hc
    obtain ⟨-, hcase⟩ := alloc_success_inv st.sailings (allocOf st a).2 (selectedSailing st a)
      a.height a.length NUL (allocOf st a).1 i r hs rfl hlane
    have hs1 : ∃ r1, IsSailingAt (allocOf st a).2 (selectedSailing st a) i r1 ∧
        r1.onboardVehicleCount = r.onboardVehicleCount := by
      rcases hcase with ⟨-, -, h⟩ | ⟨-, -, h⟩
      · rw [h]
        exact ⟨_, isSailingAt_set hs hs.2.1, rfl⟩
      · rw [h]
        exact ⟨_, isSailingAt_set hs hs.2.1, rfl⟩
    obtain ⟨r1, hs1, hc1⟩ := hs1
    obtain ⟨r2, hs2, hc2⟩ := updateOnboardCount_at hs1 1
    refine ⟨r2, ?_, ?_, ?_⟩
    · rw [heq]
      exact hs2
    · rw [hc2, hc1]
    · intro hn hm
      rw [hc2, hc1, wrapInt_of_range _ (by omega) (by omega)]
      exact max_eq_left (by omega)
  · intro d sel i r hd hs
    obtain ⟨t, -, -, -, heq⟩ := deleteFlow_deleted_inv st d sel hd
    obtain ⟨r', hs', hc'⟩ := restoreCounters_onboard st.vehicles sel hs
    refine ⟨r', ?_, hc', ?_, ?_⟩
    · rw [heq]
      exact hs'
    · intro hn hm
      rw [hc', wrapInt_of_range _ (by omega) (by omega)]
      exact max_eq_left (by omega)
    · intro hn hm
      rw [hc', wrapInt_of_range _ (by omega) (by omega)]
      exact max_eq_right (by omega)
  · intro rounds
    exact (checkInFlow_frame rounds st).1

/-- C17, amended, at the worked example: booking ABC123 on sailing AAA-01-01, stored
with count 0, leaves the count at 1, and deleting that booking leaves it at 0. -/
theorem onboard_count_accounting_witness :
    (∃ r', IsSailingAt (createFlow storesEmpty answersABC WriteOutcome.written).2.sailings
        (selectedSailing storesEmpty answersABC) 0 r' ∧
      r'.onboardVehicleCount = sailingB.onboardVehicleCount + 1) ∧
    (∃ r', IsSailingAt (deleteFlow storesBooked deleteABC).2.sailings
        reservationABC.sailingId 0 r' ∧ r'.onboardVehicleCount = 1 - 1) := by
  obtain ⟨r1, h1, -, h3⟩ := (onboard_count_accounting storesEmpty).1 answersABC
    WriteOutcome.written 0 sailingB
    (by rw [selectedSailing_storesEmpty]; exact isSailingAt_head sailingB [])
    (by rw [createFlow_storesEmpty])
  obtain ⟨r2, h4, -, h6, -⟩ := (onboard_count_accounting storesBooked).2.1 deleteABC
    reservationABC 0
    { date := "AAA-01-01", ferryName := "Queen", highLaneRestLength := 100,
      lowLaneRestLength := 93, onboardVehicleCount := 1 }
    deleteFlow_storesBooked (isSailingAt_head _ [])
  exact ⟨⟨r1, h1, h3 (by decide) (by decide)⟩, ⟨r2, h4, h6 (by decide) (by decide)⟩⟩

/-! ## The cascade of a sailing deletion -/

theorem cascadePass_zero (date : String) (res : List ReservationRecord) (b : Bool) :
    SailingManager.cascadePass date 0 res b = (res, b) := rfl

theorem cascadePass_succ (date : String) (k : Nat) (res : List ReservationRecord) (b : Bool) :
    SailingManager.cascadePass date (k + 1) res b =
      if (ReservationASM.get res k).sailingId = date then
        SailingManager.cascadePass date k (ReservationASM.deleteReservationByIndex res k).2 true
      else SailingManager.cascadePass date k res b := rfl

theorem filter_clean (date : String) (res : List ReservationRecord)
    (h : ∀ y ∈ res, y.sailingId ≠ date) :
    res.filter (fun r => r.sailingId != date) = res := by
  rw [List.filter_eq_self]
  intro y hy
  simpa using h y hy

theorem any_clean (date : String) (res : List ReservationRecord)
    (h : ∀ y ∈ res, y.sailingId ≠ date) :
    res.any (fun r => r.sailingId == date) = false := by
  rw [List.any_eq_false]
  intro y hy
  simpa using h y hy

theorem cascadePass_spec (date : String) :
    ∀ (k : Nat) (res : List ReservationRecord) (b : Bool), k ≤ res.length →
      (∀ j x, k ≤ j → res[j]? = some x → x.sailingId ≠ date) →
      (∀ y ∈ (SailingManager.cascadePass date k res b).1, y.sailingId ≠ date) ∧
      (SailingManager.cascadePass date k res b).1.Perm
        (res.filter (fun r => r.sailingId != date)) ∧
      (SailingManager.cascadePass date k res b).2 =
        (b || res.any (fun r => r.sailingId == date)) := by
  intro k
  induction k with
  | zero =>
    intro res b _ hclean
    have hall : ∀ y ∈ res, y.sailingId ≠ date := by
      intro y hy
      obtain ⟨j, hj⟩ := List.getElem?_of_mem hy
      exact hclean j y (Nat.zero_le j) hj
    rw [cascadePass_zero]
    refine ⟨hall, ?_, ?_⟩
    · rw [filter_clean date res hall]
    · rw [any_clean date res hall, Bool.or_false]
  | succ k ih =>
    intro res b hk hclean
    have hkl : k < res.length := hk
    obtain ⟨x, hx⟩ : ∃ x, res[k]? = some x := ⟨res[k], List.getElem?_eq_getElem hkl⟩
    have hget : ReservationASM.get res k = x := get_of_getElem? res k x hx
    rw [cascadePass_succ, hget]
    by_cases hm : x.sailingId = date
    · rw [if_pos hm, deleteReservationByIndex_snd]
      have hlen : (swapDelete res k).length = res.length - 1 := swapDelete_length res k hkl
      have hclean1 : ∀ j y, k ≤ j → (swapDelete res k)[j]? = some y → y.sailingId ≠ date := by
        intro j y hkj hy
        have hjl : j < res.length - 1 := by
          by_contra hc
          rw [List.getElem?_eq_none (by rw [hlen]; exact not_lt.mp hc)] at hy
          exact absurd hy (by simp)
        rw [swapDelete_getElem? res k j hkl hjl] at hy
        by_cases hjk : j = k
        · rw [if_pos hjk] at hy
          exact hclean (res.length - 1) y (by omega) hy
        · rw [if_neg hjk] at hy
          exact hclean j y (by omega) hy
      obtain ⟨h1, h2, h3⟩ := ih (swapDelete res k) true (by rw [hlen]; omega) hclean1
      refine ⟨h1, ?_, ?_⟩
      · refine h2.trans ?_
        have hp := (swapDelete_perm res k x hx).filter (fun r => r.sailingId != date)
        have hxf : (x :: swapDelete res k).filter (fun r => r.sailingId != date) =
            (swapDelete res k).filter (fun r => r.sailingId != date) := by
          rw [List.filter_cons_of_neg]
          simp [hm]
        rw [hxf] at hp
        exact hp.symm
      · rw [h3, Bool.true_or]
        have : res.any (fun r => r.sailingId == date) = true := by
          rw [List.any_eq_true]
          exact ⟨x, List.getElem?_mem hx, by simpa using hm⟩
        rw [this, Bool.or_true]
    · rw [if_neg hm]
      apply ih res b (Nat.le_of_lt hkl)
      intro j y hkj hy
      by_cases hjk : j = k
      · subst hjk
        rw [hx] at hy
        rw [← Option.some.inj hy]
        exact hm
      · exact hclean j y (by omega) hy

theorem cascadePass_full (date : String) (res : List ReservationRecord) :
    (∀ y ∈ (SailingManager.cascadePass date res.length res false).1, y.sailingId ≠ date) ∧
    (SailingManager.cascadePass date res.length res false).1.Perm
      (res.filter (fun r => r.sailingId != date)) ∧
    (SailingManager.cascadePass date res.length res false).2 =
      res.any (fun r => r.sailingId == date) := by
  have h := cascadePass_spec date res.length res false (le_refl _) (by
    intro j x hj hx
    rw [List.getElem?_eq_none hj] at hx
    exact absurd hx (by simp))
  rw [Bool.false_or] at h
  exact h

theorem cascadeLoop_succ (date : String) (fuel : Nat) (res : List ReservationRecord) :
    SailingManager.cascadeLoop date (fuel + 1) res =
      if (!(SailingManager.cascadePass date res.length res false).2) = true then
        some (SailingManager.cascadePass date res.length res false).1
      else SailingManager.cascadeLoop date fuel
        (SailingManager.cascadePass date res.length res false).1 := rfl

theorem cascadeLoop_clean (date : String) (fuel : Nat) (res : List ReservationRecord)
    (h : ∀ y ∈ res, y.sailingId ≠ date) :
    ∃ res', SailingManager.cascadeLoop date (fuel + 1) res = some res' ∧
      (∀ y ∈ res', y.sailingId ≠ date) ∧ res'.Perm res := by
  obtain ⟨h1, h2, h3⟩ := cascadePass_full date res
  rw [any_clean date res h] at h3
  rw [filter_clean date res h] at h2
  refine ⟨_, ?_, h1, h2⟩
  rw [cascadeLoop_succ, h3]
  rfl

theorem cascadeLoop_spec (date : String) (fuel : Nat) (res : List ReservationRecord)
    (hfuel : 2 ≤ fuel) :
    ∃ res', SailingManager.cascadeLoop date fuel res = some res' ∧
      (∀ y ∈ res', y.sailingId ≠ date) ∧
      res'.Perm (res.filter (fun r => r.sailingId != date)) := by
  obtain ⟨f, rfl⟩ : ∃ f, fuel = f + 2 := ⟨fuel - 2, by omega⟩
  obtain ⟨h1, h2, h3⟩ := cascadePass_full date res
  rw [cascadeLoop_succ]
  by_cases hb : (SailingManager.cascadePass date res.length res false).2 = true
  · have hn : ¬ ((!(SailingManager.cascadePass date res.length res false).2) = true) := by
      rw [hb]
      simp
    rw [if_neg hn]
    obtain ⟨res', hr, hc, hp⟩ := cascadeLoop_clean date f _ h1
    exact ⟨res', hr, hc, hp.trans h2⟩
  · have hn : (!(SailingManager.cascadePass date res.length res false).2) = true := by
      rw [Bool.not_eq_true] at hb
      rw [hb]
      rfl
    rw [if_pos hn]
    exact ⟨_, rfl, h1, h2⟩

theorem deleteSailingByDate_found (fuel : Nat) (st : Stores) (d : String) (hfuel : 2 ≤ fuel)
    (i : Nat) (s : SailingRecord) (hs : IsSailingAt st.sailings d i s) :
    ∃ res', SailingManager.deleteSailingByDate fuel st d =
        some (true, { sailings := swapDelete st.sailings i, vehicles := st.vehicles,
                      reservations := res' }) ∧
      (∀ y ∈ res', y.sailingId ≠ d) ∧
      res'.Perm (st.reservations.filter (fun r => r.sailingId != d)) := by
  obtain ⟨res', hr, hc, hp⟩ := cascadeLoop_spec d fuel st.reservations hfuel
  refine ⟨res', ?_, hc, hp⟩
  simp only [SailingManager.deleteSailingByDate, scanFirst_of_isSailingAt hs, hr,
    SailingASM.deleteRecord]

theorem deleteSailingByDate_none (fuel : Nat) (st : Stores) (d : String)
    (h : ∀ s ∈ st.sailings, s.date ≠ d) :
    SailingManager.deleteSailingByDate fuel st d = some (false, st) := by
  have hscan : scanFirst (fun r : SailingRecord => r.date == d) st.sailings = none := by
    rw [scanFirst_none]
    intro x hx
    simpa using h x hx
  simp only [SailingManager.deleteSailingByDate, hscan]

theorem isSailingAt_of_mem {db : List SailingRecord} {d : String}
    (h : ∃ s ∈ db, s.date = d) : ∃ i s, IsSailingAt db d i s := by
  cases hscan : scanFirst (fun r : SailingRecord => r.date == d) db with
  | none =>
    obtain ⟨s, hs, hd⟩ := h
    have := (scanFirst_none _ _).mp hscan s hs
    simp [hd] at this
  | some p =>
    obtain ⟨i, s⟩ := p
    exact ⟨i, s, isSailingAt_of_scanFirst hscan⟩

/-- C11: with fuel for two passes of the cascade, `deleteSailingByDate` of a date d
that a stored sailing carries returns true; afterwards no reservation has sailing ID
d, the reservations stored are those of the other sailing IDs (same multiset), the
sailing record of date d is gone and every other sailing record is still stored as
it was, and no sailing has date d, the stored dates being pairwise distinct as
`addSailing` keeps them.  When no sailing has date d it returns false and the files
are unchanged. -/
theorem deleteSailingByDate_cascade (fuel : Nat) (st : Stores) (d : String)
    (hfuel : 2 ≤ fuel) :
    ((∃ s ∈ st.sailings, s.date = d) →
      ∃ st' i s, SailingManager.deleteSailingByDate fuel st d = some (true, st') ∧
        IsSailingAt st.sailings d i s ∧
        (∀ r ∈ st'.reservations, r.sailingId ≠ d) ∧
        st'.reservations.Perm (st.reservations.filter (fun r => r.sailingId != d)) ∧
        st.sailings.Perm (s :: st'.sailings) ∧
        st'.vehicles = st.vehicles ∧
        ((st.sailings.map (fun r => r.date)).Nodup → ∀ x ∈ st'.sailings, x.date ≠ d)) ∧
    ((∀ s ∈ st.sailings, s.date ≠ d) →
      SailingManager.deleteSailingByDate fuel st d = some (false, st)) := by
  constructor
  · intro hex
    obtain ⟨i, s, hs⟩ := isSailingAt_of_mem hex
    obtain ⟨res', hr, hc, hp⟩ := deleteSailingByDate_found fuel st d hfuel i s hs
    have hperm : st.sailings.Perm (s :: swapDelete st.sailings i) :=
      swapDelete_perm st.sailings i s hs.1
    refine ⟨_, i, s, hr, hs, hc, hp, hperm, rfl, ?_⟩
    intro hnd x hx hxd
    have hnd' : ((s :: swapDelete st.sailings i).map (fun r => r.date)).Nodup :=
      (hperm.map (fun r => r.date)).nodup_iff.mp hnd
    rw [List.map_cons, List.nodup_cons] at hnd'
    apply hnd'.1
    rw [hs.2.1, ← hxd]
    exact List.mem_map_of_mem _ hx
  · intro hnone
    exact deleteSailingByDate_none fuel st d hnone

theorem storesTwo_nodup : (storesTwo.sailings.map (fun r => r.date)).Nodup := by
  decide

/-- C11 at the worked example: sailing AAA-01-01 is deleted from a file with
the sailings AAA-01-01 and BBB-02-02 and three reservations, two of them on
AAA-01-01; the reservation on BBB-02-02 and the sailing BBB-02-02 remain. -/
theorem deleteSailingByDate_cascade_witness :
    ∃ st' i s, SailingManager.deleteSailingByDate 2 storesTwo "AAA-01-01" = some (true, st') ∧
      IsSailingAt storesTwo.sailings "AAA-01-01" i s ∧
      (∀ r ∈ st'.reservations, r.sailingId ≠ "AAA-01-01") ∧
      st'.reservations.Perm (storesTwo.reservations.filter (fun r => r.sailingId != "AAA-01-01")) ∧
      storesTwo.sailings.Perm (s :: st'.sailings) ∧
      st'.vehicles = storesTwo.vehicles ∧
      ((storesTwo.sailings.map (fun r => r.date)).Nodup →
        ∀ x ∈ st'.sailings, x.date ≠ "AAA-01-01") :=
  (deleteSailingByDate_cascade 2 storesTwo "AAA-01-01" (le_refl 2)).1
    ⟨sailingA, by simp [storesTwo], rfl⟩

/-! ## Referential integrity of the reservation file -/

theorem refIntegrity_iff (st : Stores) :
    RefIntegrity st ↔ ∀ r ∈ st.reservations, r.sailingId ∈ st.sailings.map (fun s => s.date) := by
  simp only [RefIntegrity, List.mem_map]

theorem refIntegrity_of_subset {st st' : Stores} (h : RefIntegrity st)
    (hs : st'.sailings.map (fun s => s.date) = st.sailings.map (fun s => s.date))
    (hr : ∀ r ∈ st'.reservations, ∃ r0 ∈ st.reservations, r0.sailingId = r.sailingId) :
    RefIntegrity st' := by
  rw [refIntegrity_iff] at h ⊢
  intro r hmem
  obtain ⟨r0, h0, heq⟩ := hr r hmem
  rw [hs, ← heq]
  exact h r0 h0

theorem updateLaneLengths_scan_none (db : List SailingRecord) (date : String)
    (height length : ℚ) (isReversing : Bool) (laneHint : Char)
    (h : scanFirst (fun r : SailingRecord => r.date == date) db = none) :
    SailingManager.updateLaneLengths db date height length isReversing laneHint = (NUL, db) := by
  by_cases hg : height ≤ 0 ∨ height > float9_9 ∨ length ≤ 0 ∨ length > float99_9
  · simp only [SailingManager.updateLaneLengths, if_pos hg]
  · simp only [SailingManager.updateLaneLengths, if_neg hg, h]

theorem selected_stored (st : Stores) (a : CreateAnswers)
    (h : (allocOf st a).1 = 'H' ∨ (allocOf st a).1 = 'L') :
    selectedSailing st a ∈ st.sailings.map (fun s => s.date) := by
  rw [← sailingStillExists_iff]
  cases hscan : scanFirst (fun r : SailingRecord => r.date == selectedSailing st a) st.sailings with
  | none =>
    have hfail : allocOf st a = (NUL, st.sailings) :=
      updateLaneLengths_scan_none st.sailings (selectedSailing st a) a.height a.length false NUL
        hscan
    have h1 : (allocOf st a).1 = NUL := by rw [hfail]
    rw [h1] at h
    rcases h with h | h
    · exact absurd h (by decide)
    · exact absurd h (by decide)
  | some p => simp only [sailingStillExists, hscan, Option.isSome_some]

theorem refIntegrity_createFlow {st : Stores} (h : RefIntegrity st) (a : CreateAnswers)
    (w : WriteOutcome) : RefIntegrity (createFlow st a w).2 := by
  rcases createFlow_cases st a w with hc | ⟨-, hc⟩ | ⟨-, hlane, hc⟩ | ⟨-, hlane, -, hc⟩
  · rw [hc]
    exact h
  · rw [hc]
    exact refIntegrity_of_subset h rfl (fun r hr => ⟨r, hr, rfl⟩)
  · rw [hc]
    rw [refIntegrity_iff] at h ⊢
    have hdates : (SailingManager.updateOnboardCount (allocOf st a).2 (selectedSailing st a) 1).map
        (fun s => s.date) = st.sailings.map (fun s => s.date) := by
      rw [updateOnboardCount_map_date]
      exact updateLaneLengths_map_date st.sailings (selectedSailing st a) a.height a.length
        false NUL
    intro r hr
    show r.sailingId ∈ (SailingManager.updateOnboardCount (allocOf st a).2
      (selectedSailing st a) 1).map (fun s => s.date)
    rw [hdates]
    have hr' : r ∈ st.reservations ++ [newReservation st a] := hr
    rw [List.mem_append, List.mem_singleton] at hr'
    rcases hr' with hr' | hr'
    · exact h r hr'
    · rw [hr']
      exact selected_stored st a hlane
  · rw [hc]
    rw [refIntegrity_iff] at h ⊢
    have hdates : ((SailingManager.updateLaneLengths (allocOf st a).2 (selectedSailing st a)
        a.height a.length true (allocOf st a).1).2).map (fun s => s.date) =
        st.sailings.map (fun s => s.date) := by
      rw [updateLaneLengths_map_date]
      exact updateLaneLengths_map_date st.sailings (selectedSailing st a) a.height a.length
        false NUL
    intro r hr
    show r.sailingId ∈ ((SailingManager.updateLaneLengths (allocOf st a).2 (selectedSailing st a)
        a.height a.length true (allocOf st a).1).2).map (fun s => s.date)
    rw [hdates]
    have hr' : r ∈ (if w = WriteOutcome.buffered then st.reservations ++ [newReservation st a]
        else st.reservations) := hr
    split_ifs at hr'
    · rw [List.mem_append, List.mem_singleton] at hr'
      rcases hr' with hr' | hr'
      · exact h r hr'
      · rw [hr']
        exact selected_stored st a hlane
    · exact h r hr'

theorem refIntegrity_deleteFlow {st : Stores} (h : RefIntegrity st) (d : DeleteAnswers) :
    RefIntegrity (deleteFlow st d).2 := by
  obtain ⟨-, hdates, hres⟩ := deleteFlow_shape st d
  apply refIntegrity_of_subset h hdates
  intro r hr
  rcases hres with ⟨heq, -⟩ | hsub
  · rw [heq] at hr
    exact ⟨r, hr, rfl⟩
  · exact ⟨r, purgeOrphans_subset st.sailings st.reservations d.plate r (hsub r hr), rfl⟩

theorem refIntegrity_checkInFlow {st : Stores} (h : RefIntegrity st)
    (rounds : List CheckInAnswers) : RefIntegrity (checkInFlow st rounds) := by
  obtain ⟨hs, -, hk⟩ := checkInFlow_frame rounds st
  apply refIntegrity_of_subset h (by rw [hs])
  intro r hr
  have hmem : resKey r ∈ (checkInFlow st rounds).reservations.map resKey :=
    List.mem_map_of_mem _ hr
  rw [hk, List.mem_map] at hmem
  obtain ⟨r0, h0, hkey⟩ := hmem
  refine ⟨r0, h0, ?_⟩
  have := congrArg Prod.fst hkey
  exact this

theorem cascadeLoop_sound (date : String) :
    ∀ (fuel : Nat) (res res' : List ReservationRecord),
      SailingManager.cascadeLoop date fuel res = some res' →
      (∀ y ∈ res', y.sailingId ≠ date) ∧
      res'.Perm (res.filter (fun r => r.sailingId != date)) := by
  intro fuel
  induction fuel with
  | zero =>
    intro res res' h
    exact absurd h (by simp [SailingManager.cascadeLoop])
  | succ f ih =>
    intro res res' h
    obtain ⟨h1, h2, -⟩ := cascadePass_full date res
    rw [cascadeLoop_succ] at h
    split_ifs at h
    · rw [← Option.some.inj h]
      exact ⟨h1, h2⟩
    · obtain ⟨hc, hp⟩ := ih _ res' h
      rw [filter_clean date _ h1] at hp
      exact ⟨hc, hp.trans h2⟩

theorem refIntegrity_deleteSailingByDate {st st' : Stores} (h : RefIntegrity st) (fuel : Nat)
    (d : String) (b : Bool) (hd : SailingManager.deleteSailingByDate fuel st d = some (b, st')) :
    RefIntegrity st' := by
  cases hscan : scanFirst (fun r : SailingRecord => r.date == d) st.sailings with
  | none =>
    simp only [SailingManager.deleteSailingByDate, hscan, Option.some.injEq, Prod.mk.injEq] at hd
    rw [← hd.2]
    exact h
  | some p =>
    obtain ⟨i, s⟩ := p
    have hs := isSailingAt_of_scanFirst hscan
    cases hloop : SailingManager.cascadeLoop d fuel st.reservations with
    | none =>
      simp only [SailingManager.deleteSailingByDate, hscan, hloop] at hd
      exact absurd hd (by simp)
    | some res =>
      simp only [SailingManager.deleteSailingByDate, hscan, hloop, Option.some.injEq,
        Prod.mk.injEq, SailingASM.deleteRecord] at hd
      obtain ⟨hclean, hperm⟩ := cascadeLoop_sound d fuel st.reservations res hloop
      have hsail : st.sailings.Perm (s :: swapDelete st.sailings i) :=
        swapDelete_perm st.sailings i s hs.1
      rw [← hd.2]
      intro r hr
      have hr' : r ∈ st.reservations.filter (fun r => r.sailingId != d) := hperm.subset hr
      obtain ⟨s0, hs0, hdate⟩ := h r (List.mem_of_mem_filter hr')
      have hne : r.sailingId ≠ d := hclean r hr
      have hs0' : s0 ∈ s :: swapDelete st.sailings i := hsail.subset hs0
      rw [List.mem_cons] at hs0'
      rcases hs0' with heq | hmem
      · exact absurd (by rw [← hdate, heq, hs.2.1]) hne
      · exact ⟨s0, hmem, hdate⟩

theorem deleteAllLoop_nil :
    ∀ (k : Nat) (db : List SailingRecord), db.length = k →
      SailingManager.deleteAllLoop k db = [] := by
  intro k
  induction k with
  | zero =>
    intro db h
    rw [List.length_eq_zero] at h
    rw [h]
    rfl
  | succ k ih =>
    intro db h
    show SailingManager.deleteAllLoop k (SailingASM.deleteRecord db k) = []
    apply ih
    show (swapDelete db k).length = k
    rw [swapDelete_length db k (by omega), h]
    rfl

theorem deleteAllSailings_nil (db : List SailingRecord) :
    SailingManager.deleteAllSailings db = [] :=
  deleteAllLoop_nil db.length db rfl

/-- The reservation flows and the deletion of one sailing keep every stored
reservation on a stored sailing. -/
theorem refIntegrity_preserved (st : Stores) (h : RefIntegrity st) :
    (∀ (a : CreateAnswers) (w : WriteOutcome), RefIntegrity (createFlow st a w).2) ∧
    (∀ d : DeleteAnswers, RefIntegrity (deleteFlow st d).2) ∧
    (∀ rounds : List CheckInAnswers, RefIntegrity (checkInFlow st rounds)) ∧
    (∀ (fuel : Nat) (d : String) (b : Bool) (st' : Stores),
      SailingManager.deleteSailingByDate fuel st d = some (b, st') → RefIntegrity st') ∧
    (∀ (fuel : Nat) (d : String), 2 ≤ fuel →
      ∃ b st', SailingManager.deleteSailingByDate fuel st d = some (b, st')) := by
  refine ⟨fun a w => refIntegrity_createFlow h a w, fun d => refIntegrity_deleteFlow h d,
    fun rounds => refIntegrity_checkInFlow h rounds,
    fun fuel d b st' hd => refIntegrity_deleteSailingByDate h fuel d b hd, ?_⟩
  intro fuel d hfuel
  by_cases hex : ∃ s ∈ st.sailings, s.date = d
  · obtain ⟨i, s, hs⟩ := isSailingAt_of_mem hex
    obtain ⟨res', hr, -, -⟩ := deleteSailingByDate_found fuel st d hfuel i s hs
    exact ⟨_, _, hr⟩
  · push_neg at hex
    exact ⟨_, _, deleteSailingByDate_none fuel st d hex⟩

theorem refIntegrity_storesBooked : RefIntegrity storesBooked := by
  intro r hr
  refine ⟨_, List.mem_singleton.mpr rfl, ?_⟩
  have : r = reservationABC := by simpa [storesBooked, reservationABC] using hr
  rw [this]
  rfl

/-- C19 at the failing input: the files after the booking of the worked example hold
one reservation on the stored sailing AAA-01-01; `deleteAllSailings` empties the
sailing file and leaves the reservation file alone, so the reservation refers to no
stored sailing afterwards. -/
theorem deleteAllSailings_orphans :
    RefIntegrity storesBooked ∧
    SailingManager.deleteAllSailings storesBooked.sailings = [] ∧
    ¬ RefIntegrity { sailings := SailingManager.deleteAllSailings storesBooked.sailings,
                     vehicles := storesBooked.vehicles,
                     reservations := storesBooked.reservations } := by
  refine ⟨refIntegrity_storesBooked, deleteAllSailings_nil _, ?_⟩
  rw [deleteAllSailings_nil]
  intro h
  obtain ⟨s, hs, -⟩ := h reservationABC (List.mem_singleton.mpr rfl)
  exact absurd hs (List.not_mem_nil s)

/-! ## The ferry deletion keeps the file order -/

theorem deleteFerry_free (ferries : List Ferry) (sailings : List SailingRecord) (n : String)
    (hfree : ∀ s ∈ sailings, s.ferryName ≠ n) (hstored : ∃ f ∈ ferries, f.ferryName = n) :
    FerryASM.deleteFerry ferries sailings n =
      (true, ferries.filter (fun ferry => ferry.ferryName != n)) := by
  have he : (SailingASM.findSailingsWithFerry sailings n).isEmpty = true :=
    (findSailingsWithFerry_isEmpty sailings n).mpr hfree
  have hfound : ferries.any (fun ferry => ferry.ferryName == n) = true := by
    obtain ⟨f, hf, hn⟩ := hstored
    rw [List.any_eq_true]
    exact ⟨f, hf, by simpa using hn⟩
  simp only [FerryASM.deleteFerry, he, hfound]
  rfl

theorem filter_name_eq_eraseIdx :
    ∀ (ferries : List Ferry) (i : Nat) (f : Ferry),
      (ferries.map (fun x => x.ferryName)).Nodup → ferries[i]? = some f →
      ferries.filter (fun ferry => ferry.ferryName != f.ferryName) = ferries.eraseIdx i := by
  intro ferries
  induction ferries with
  | nil =>
    intro i f _ h
    simp at h
  | cons a t ih =>
    intro i f hnd h
    rw [List.map_cons, List.nodup_cons] at hnd
    cases i with
    | zero =>
      simp only [List.getElem?_cons_zero, Option.some.injEq] at h
      subst h
      rw [List.eraseIdx_cons_zero, List.filter_cons_of_neg (by simp)]
      rw [List.filter_eq_self]
      intro x hx
      have : x.ferryName ≠ a.ferryName := by
        intro hc
        apply hnd.1
        rw [← hc]
        exact List.mem_map_of_mem _ hx
      simpa using this
    | succ k =>
      simp only [List.getElem?_cons_succ] at h
      have hne : a.ferryName ≠ f.ferryName := by
        intro hc
        apply hnd.1
        rw [hc]
        exact List.mem_map_of_mem _ (List.getElem?_mem h)
      rw [List.eraseIdx_cons_succ, List.filter_cons_of_pos (by simpa using hne),
        ih k f hnd.2 h]

/-- Counterexample to C21 as stated: in the ferry file Queen, Spirit, Coastal, with no
sailing stored, `deleteFerry` of Queen (index 0 of 3) leaves Spirit, Coastal: index 0
holds Spirit and not Coastal, the record previously at index 2, and Spirit has moved
from index 1 to index 0. -/
theorem deleteFerry_order_counterexample :
    FerryASM.deleteFerry ferriesThree [] "Queen" = (true, ferriesThree.drop 1) ∧
    (FerryASM.deleteFerry ferriesThree [] "Queen").2[0]? = ferriesThree[1]? ∧
    (FerryASM.deleteFerry ferriesThree [] "Queen").2[0]? ≠ ferriesThree[2]? ∧
    (FerryASM.deleteFerry ferriesThree [] "Queen").2[1]? ≠ ferriesThree[1]? ∧
    (FerryASM.deleteFerry ferriesThree [] "Queen").2 ≠ swapDelete ferriesThree 0 := by
  decide

/-- C21, amended: the ferry store does not delete by swap-delete.  For a ferry at
index i that no sailing uses, `deleteFerry` on its name returns true and yields the
old file without the records of that name, in the old order.  With pairwise distinct
names that is the file without record i: it has N - 1 records, every record before
index i keeps its index and every record behind index i moves down by one. -/
theorem deleteFerry_keeps_order (ferries : List Ferry) (sailings : List SailingRecord)
    (i : Nat) (f : Ferry) (hget : ferries[i]? = some f)
    (hfree : ∀ s ∈ sailings, s.ferryName ≠ f.ferryName) :
    FerryASM.deleteFerry ferries sailings f.ferryName =
      (true, ferries.filter (fun x => decide (x.ferryName ≠ f.ferryName))) ∧
    ((ferries.map (fun x => x.ferryName)).Nodup →
      (FerryASM.deleteFerry ferries sailings f.ferryName).2 = ferries.eraseIdx i ∧
      (FerryASM.deleteFerry ferries sailings f.ferryName).2.length = ferries.length - 1 ∧
      (∀ j, j < i →
        (FerryASM.deleteFerry ferries sailings f.ferryName).2[j]? = ferries[j]?) ∧
      (∀ j, i ≤ j →
        (FerryASM.deleteFerry ferries sailings f.ferryName).2[j]? = ferries[j + 1]?)) := by
  have hres := deleteFerry_free ferries sailings f.ferryName hfree ⟨f, List.getElem?_mem hget, rfl⟩
  have hpred : (fun x : Ferry => decide (x.ferryName ≠ f.ferryName)) =
      (fun ferry : Ferry => ferry.ferryName != f.ferryName) := by
    funext x
    by_cases h : x.ferryName = f.ferryName <;> simp [h]
  refine ⟨by rw [hres, hpred], ?_⟩
  intro hnd
  have hlt : i < ferries.length := by
    by_contra hc
    rw [List.getElem?_eq_none (not_lt.mp hc)] at hget
    exact absurd hget (by simp)
  rw [hres]
  show ferries.filter (fun ferry => ferry.ferryName != f.ferryName) = ferries.eraseIdx i ∧ _
  rw [filter_name_eq_eraseIdx ferries i f hnd hget]
  refine ⟨rfl, ?_, ?_, ?_⟩
  · rw [List.length_eraseIdx, if_pos hlt]
  · intro j hj
    rw [List.getElem?_eraseIdx, if_pos hj]
  · intro j hj
    rw [List.getElem?_eraseIdx, if_neg (not_lt.mpr hj)]

/-- C21, amended, at the worked example: deleting Queen from Queen, Spirit, Coastal
leaves Spirit, Coastal. -/
theorem deleteFerry_keeps_order_witness :
    FerryASM.deleteFerry ferriesThree [] ferryQueen.ferryName =
      (true, ferriesThree.filter (fun x => decide (x.ferryName ≠ ferryQueen.ferryName))) ∧
    (FerryASM.deleteFerry ferriesThree [] ferryQueen.ferryName).2 = ferriesThree.eraseIdx 0 ∧
    (FerryASM.deleteFerry ferriesThree [] ferryQueen.ferryName).2.length =
      ferriesThree.length - 1 :=
  have h := deleteFerry_keeps_order ferriesThree [] 0 ferryQueen rfl
    (fun s hs => absurd hs (List.not_mem_nil s))
  ⟨h.1, (h.2 (by decide)).1, (h.2 (by decide)).2.1⟩

/-! ## Check-in: candidates, commit and the onboard report -/

theorem checkIn_commit_at (db : List ReservationRecord) (idx : Nat) (r : ReservationRecord)
    (hget : db[idx]? = some r) :
    ReservationASM.checkInReservationByIndex db idx =
      (true, db.set idx { r with isOnboard := true }) := by
  have hlt : idx < db.length := by
    by_contra hc
    rw [List.getElem?_eq_none (not_lt.mp hc)] at hget
    exact absurd hget (by simp)
  have hge : ¬ idx ≥ db.length := not_le.mpr hlt
  simp only [ReservationASM.checkInReservationByIndex, if_neg hge, get_of_getElem? db idx r hget]

/-- C22: the candidate list of `checkInFlow` for a plate is ascending and holds exactly
the indices of the reservations with that plate that are not onboard and whose
sailing ID is the date of a stored sailing.  `checkInReservationByIndex` on the index
of a stored record succeeds, writes that record back with isOnboard = true and the
same sailingId, licensePlate and laneUsed, and leaves the number of records and
every other record unchanged. -/
theorem checkIn_selection_commit (st : Stores) (plate : String) :
    (pendingIndexes st plate).Pairwise (fun a b => a < b) ∧
    (∀ idx, idx ∈ pendingIndexes st plate ↔
      ∃ r, st.reservations[idx]? = some r ∧ r.licensePlate = plate ∧ r.isOnboard = false ∧
        ∃ s ∈ st.sailings, s.date = r.sailingId) ∧
    (∀ idx r, st.reservations[idx]? = some r →
      (ReservationASM.checkInReservationByIndex st.reservations idx).1 = true ∧
      (ReservationASM.checkInReservationByIndex st.reservations idx).2[idx]? =
        some { sailingId := r.sailingId, licensePlate := r.licensePlate, isOnboard := true,
               laneUsed := r.laneUsed } ∧
      (ReservationASM.checkInReservationByIndex st.reservations idx).2.length =
        st.reservations.length ∧
      ∀ j, j ≠ idx →
        (ReservationASM.checkInReservationByIndex st.reservations idx).2[j]? =
          st.reservations[j]?) := by
  refine ⟨?_, ?_, ?_⟩
  · exact (pairwise_findAllIndexesFrom plate st.reservations 0).sublist (List.filter_sublist _)
  · intro idx
    simp only [pendingIndexes, List.mem_filter, mem_findAllIndexesByLicense, Bool.and_eq_true,
      Bool.not_eq_true', sailingStillExists_iff, List.mem_map]
    constructor
    · rintro ⟨⟨r, hr, hp⟩, hoff, s, hs, hd⟩
      rw [get_of_getElem? _ _ _ hr] at hoff hd
      exact ⟨r, hr, hp, hoff, s, hs, hd⟩
    · rintro ⟨r, hr, hp, hoff, s, hs, hd⟩
      refine ⟨⟨r, hr, hp⟩, ?_, s, hs, ?_⟩
      · rw [get_of_getElem? _ _ _ hr]
        exact hoff
      · rw [get_of_getElem? _ _ _ hr]
        exact hd
  · intro idx r hr
    have hlt : idx < st.reservations.length := by
      by_contra hc
      rw [List.getElem?_eq_none (not_lt.mp hc)] at hr
      exact absurd hr (by simp)
    rw [checkIn_commit_at st.reservations idx r hr]
    refine ⟨rfl, ?_, ?_, ?_⟩
    · show (st.reservations.set idx _)[idx]? = _
      rw [List.getElem?_set_self hlt]
    · show (st.reservations.set idx _).length = _
      rw [List.length_set]
    · intro j hj
      show (st.reservations.set idx _)[j]? = _
      rw [List.getElem?_set_ne (Ne.symm hj)]

/-- C22 at the worked example: of the three reservations of the example only index 0
is a candidate for plate ABC123, and the commit at index 0 marks that record onboard
and keeps the other two. -/
theorem checkIn_selection_commit_witness :
    pendingIndexes storesTwo "ABC123" = [0] ∧
    (ReservationASM.checkInReservationByIndex storesTwo.reservations 0).1 = true ∧
    (ReservationASM.checkInReservationByIndex storesTwo.reservations 0).2[0]? =
      some { sailingId := reservationABC.sailingId, licensePlate := reservationABC.licensePlate,
             isOnboard := true, laneUsed := reservationABC.laneUsed } ∧
    (ReservationASM.checkInReservationByIndex storesTwo.reservations 0).2.length =
      storesTwo.reservations.length :=
  have h := (checkIn_selection_commit storesTwo "ABC123").2.2 0 reservationABC rfl
  ⟨by decide, h.1, h.2.1, h.2.2.1⟩

theorem countP_set {α : Type} (p : α → Bool) :
    ∀ (l : List α) (i : Nat) (x y : α), l[i]? = some x →
      (l.set i y).countP p + (if p x = true then 1 else 0) =
        l.countP p + (if p y = true then 1 else 0) := by
  intro l
  induction l with
  | nil =>
    intro i x y h
    simp at h
  | cons a t ih =>
    intro i x y h
    cases i with
    | zero =>
      simp only [List.getElem?_cons_zero, Option.some.injEq] at h
      subst h
      simp only [List.set_cons_zero, List.countP_cons]
      omega
    | succ k =>
      simp only [List.getElem?_cons_succ] at h
      have := ih k x y h
      simp only [List.set_cons_succ, List.countP_cons]
      omega

/-- C23: a check-in through `checkInReservationByIndex` of a stored record that is not
onboard raises `getOnboardVehicleCount` of that record's sailing ID by exactly one
and leaves `getOnboardVehicleCount` of every other sailing ID unchanged. -/
theorem checkIn_raises_onboard_count (db : List ReservationRecord) (idx : Nat)
    (r : ReservationRecord) (hget : db[idx]? = some r) (hoff : r.isOnboard = false) :
    SailingManager.getOnboardVehicleCount
        (ReservationASM.checkInReservationByIndex db idx).2 r.sailingId =
      SailingManager.getOnboardVehicleCount db r.sailingId + 1 ∧
    (∀ S, S ≠ r.sailingId →
      SailingManager.getOnboardVehicleCount
          (ReservationASM.checkInReservationByIndex db idx).2 S =
        SailingManager.getOnboardVehicleCount db S) := by
  rw [checkIn_commit_at db idx r hget]
  constructor
  · have h := countP_set (fun rec : ReservationRecord => rec.sailingId == r.sailingId &&
      rec.isOnboard) db idx r { r with isOnboard := true } hget
    simp only [hoff, beq_self_eq_true, Bool.and_false, Bool.and_true, Bool.false_eq_true,
      if_false, if_true, add_zero] at h
    exact h
  · intro S hS
    have h := countP_set (fun rec : ReservationRecord => rec.sailingId == S &&
      rec.isOnboard) db idx r { r with isOnboard := true } hget
    have hne : (r.sailingId == S) = false := by
      rw [beq_eq_false_iff_ne]
      exact Ne.symm hS
    simp only [hne, Bool.false_and, Bool.false_eq_true, if_false, add_zero] at h
    exact h

/-- C23 at the worked example: the check-in of the reservation of ABC123 on AAA-01-01
raises the onboard report of AAA-01-01 from 1 to 2 and leaves that of BBB-02-02 at
0. -/
theorem checkIn_raises_onboard_count_witness :
    SailingManager.getOnboardVehicleCount resEx "AAA-01-01" = 1 ∧
    SailingManager.getOnboardVehicleCount
        (ReservationASM.checkInReservationByIndex resEx 0).2 reservationABC.sailingId =
      SailingManager.getOnboardVehicleCount resEx reservationABC.sailingId + 1 ∧
    (∀ S, S ≠ reservationABC.sailingId →
      SailingManager.getOnboardVehicleCount
          (ReservationASM.checkInReservationByIndex resEx 0).2 S =
        SailingManager.getOnboardVehicleCount resEx S) :=
  ⟨by decide, checkIn_raises_onboard_count resEx 0 reservationABC rfl rfl⟩

/-! ## The sailing search and the allocator -/

/-- C29: on a sailing file with pairwise distinct dates and at most `maxCount` records,
and for valid dimensions, the result of `getMatchingSailings` is the list of the
stored sailings on which `updateLaneLengths` in allocate mode would succeed, in file
order: a stored sailing is in the result exactly when the allocation on its date
returns a lane, and the result is a sublist of the file. -/
theorem search_agrees_with_allocator (db : List SailingRecord) (height length : ℚ)
    (maxCount : Nat) (hnd : (db.map (fun r => r.date)).Nodup) (hmax : db.length ≤ maxCount)
    (hv : validDims height length) :
    SailingManager.getMatchingSailings db height length maxCount =
      allocatableSailings db height length ∧
    (∀ s ∈ db, s ∈ SailingManager.getMatchingSailings db height length maxCount ↔
      (SailingManager.updateLaneLengths db s.date height length false NUL).1 ≠ NUL) ∧
    (SailingManager.getMatchingSailings db height length maxCount).Sublist db := by
  have htake : SailingManager.getMatchingSailings db height length maxCount =
      db.filter (SailingManager.canFit height length) := by
    simp only [SailingManager.getMatchingSailings]
    apply List.take_of_length_le
    exact le_trans (List.length_filter_le _ _) hmax
  have hiff : ∀ s ∈ db, (SailingManager.canFit height length s = true ↔
      (SailingManager.updateLaneLengths db s.date height length false NUL).1 ≠ NUL) := by
    intro s hs
    obtain ⟨i, hi⟩ := isSailingAt_of_nodup hnd hs
    exact (alloc_succeeds_iff hi hv NUL).symm
  refine ⟨?_, ?_, ?_⟩
  · rw [htake]
    simp only [allocatableSailings]
    apply List.filter_congr
    intro s hs
    by_cases hc : SailingManager.canFit height length s = true
    · have := (hiff s hs).mp hc
      simp [hc, this]
    · have hn : ¬ (SailingManager.updateLaneLengths db s.date height length false NUL).1 ≠ NUL :=
        fun h => hc ((hiff s hs).mpr h)
      rw [not_not] at hn
      rw [Bool.not_eq_true] at hc
      simp [hc, hn]
  · intro s hs
    rw [htake, List.mem_filter]
    constructor
    · intro h
      exact (hiff s hs).mp h.2
    · intro h
      exact ⟨hs, (hiff s hs).mpr h⟩
  · rw [htake]
    exact List.filter_sublist db

theorem validDims_regular : validDims 2 7 := by
  norm_num [validDims, float9_9_eq, float99_9_eq]

/-- C29 at the worked example: for a regular vehicle (height 2, length 7) the search
over the sailings AAA-01-01 (High 10, Low 5) and BBB-02-02 (High 50, Low 40) returns
the sailings the allocator accepts. -/
theorem search_agrees_with_allocator_witness :
    SailingManager.getMatchingSailings [sailingA, sailingC] 2 7 100 =
      allocatableSailings [sailingA, sailingC] 2 7 ∧
    (∀ s ∈ [sailingA, sailingC],
      s ∈ SailingManager.getMatchingSailings [sailingA, sailingC] 2 7 100 ↔
        (SailingManager.updateLaneLengths [sailingA, sailingC] s.date 2 7 false NUL).1 ≠ NUL) ∧
    (SailingManager.getMatchingSailings [sailingA, sailingC] 2 7 100).Sublist
      [sailingA, sailingC] :=
  search_agrees_with_allocator [sailingA, sailingC] 2 7 100 (by decide) (by decide)
    validDims_regular

/-! ## The legacy capacity update -/

theorem legacy_release_unchanged (db : List SailingRecord) (date : String)
    (height length : ℚ) :
    SailingManager.updateLaneLengthsLegacy db date height length true = db := by
  by_cases hg : height ≤ 0 ∨ height > float9_9 ∨ length ≤ 0 ∨ length > float99_9
  · simp only [SailingManager.updateLaneLengthsLegacy, SailingManager.updateLaneLengths,
      if_pos hg]
  · cases hscan : scanFirst (fun r : SailingRecord => r.date == date) db with
    | none =>
      simp only [SailingManager.updateLaneLengthsLegacy, SailingManager.updateLaneLengths,
        if_neg hg, hscan]
    | some p =>
      obtain ⟨i, r⟩ := p
      have hhint : NUL ≠ 'H' ∧ NUL ≠ 'L' := ⟨by decide, by decide⟩
      simp only [SailingManager.updateLaneLengthsLegacy, SailingManager.updateLaneLengths,
        if_neg hg, hscan, if_true, if_pos hhint]

/-- C24 at the failing input: on the sailing AAA-01-01 with High = 10 and Low = 5 the
legacy update with height 2, length 7 and isReversing = true leaves the sailing file
as it was, so the two remainders still add up to 15 and not to 22.  The same holds
for every file, date, height and length: the legacy update hands the lane hint
`'\0'` to the five-argument overload, which rejects it in release mode. -/
theorem legacy_release_frees_nothing :
    IsSailingAt [sailingA] "AAA-01-01" 0 sailingA ∧ validDims 2 7 ∧
    SailingManager.updateLaneLengthsLegacy [sailingA] "AAA-01-01" 2 7 true = [sailingA] ∧
    sailingA.highLaneRestLength + sailingA.lowLaneRestLength ≠
      sailingA.highLaneRestLength + sailingA.lowLaneRestLength + 7 ∧
    (∀ (db : List SailingRecord) (date : String) (height length : ℚ),
      SailingManager.updateLaneLengthsLegacy db date height length true = db) := by
  refine ⟨isSailingAt_head sailingA [], validDims_regular,
    legacy_release_unchanged _ _ _ _, ?_, legacy_release_unchanged⟩
  norm_num

/-! ## Unique sailing dates and the clamp of the onboard count -/

theorem sailingExists_iff (db : List SailingRecord) (date : String) :
    SailingManager.sailingExists db date = true ↔ ∃ s ∈ db, s.date = date := by
  have h := sailingStillExists_iff db date
  simp only [sailingStillExists] at h
  simp only [SailingManager.sailingExists, h, List.mem_map]

/-- C27: `addSailing` of a record whose date a stored sailing carries returns false and
leaves the sailing file unchanged; otherwise it returns true and the file is the old
one followed by the record.  So a file with pairwise distinct dates has pairwise
distinct dates afterwards. -/
theorem addSailing_keeps_dates_unique (db : List SailingRecord) (r : SailingRecord) :
    ((∃ s ∈ db, s.date = r.date) → SailingManager.addSailing db r = (false, db)) ∧
    ((∀ s ∈ db, s.date ≠ r.date) → SailingManager.addSailing db r = (true, db ++ [r])) ∧
    ((db.map (fun s => s.date)).Nodup →
      ((SailingManager.addSailing db r).2.map (fun s => s.date)).Nodup) := by
  have hyes : (∃ s ∈ db, s.date = r.date) → SailingManager.addSailing db r = (false, db) := by
    intro hex
    have h := (sailingExists_iff db r.date).mpr hex
    simp only [SailingManager.addSailing, h, if_true]
  have hno : (∀ s ∈ db, s.date ≠ r.date) →
      SailingManager.addSailing db r = (true, db ++ [r]) := by
    intro hnone
    have h : SailingManager.sailingExists db r.date = false := by
      rw [Bool.eq_false_iff]
      intro hc
      obtain ⟨s, hs, hd⟩ := (sailingExists_iff db r.date).mp hc
      exact hnone s hs hd
    simp only [SailingManager.addSailing, h, SailingASM.addRecord]
    rfl
  refine ⟨hyes, hno, ?_⟩
  intro hnd
  by_cases hex : ∃ s ∈ db, s.date = r.date
  · rw [hyes hex]
    exact hnd
  · push_neg at hex
    rw [hno hex]
    show ((db ++ [r]).map (fun s => s.date)).Nodup
    rw [List.map_append, List.map_singleton]
    apply List.Nodup.append hnd (List.nodup_singleton _)
    intro d hd hd'
    rw [List.mem_singleton] at hd'
    obtain ⟨s, hs, hsd⟩ := List.mem_map.mp hd
    exact hex s hs (hsd.trans hd')

/-- C27 at concrete inputs: sailing BBB-02-02 is added behind AAA-01-01, and a second
record of date AAA-01-01 is refused. -/
theorem addSailing_keeps_dates_unique_witness :
    SailingManager.addSailing [sailingA] sailingB = (false, [sailingA]) ∧
    SailingManager.addSailing [sailingA] sailingC = (true, [sailingA] ++ [sailingC]) ∧
    ((SailingManager.addSailing [sailingA] sailingC).2.map (fun s => s.date)).Nodup :=
  ⟨(addSailing_keeps_dates_unique [sailingA] sailingB).1 ⟨sailingA, by simp, by decide⟩,
    (addSailing_keeps_dates_unique [sailingA] sailingC).2.1 (by
      intro s hs
      rw [List.mem_singleton] at hs
      subst hs
      decide),
    (addSailing_keeps_dates_unique [sailingA] sailingC).2.2 (by decide)⟩

/-- C28 as stated fails: the counter is an `int` and `+=` on it wraps.  On a sailing
stored with the count 2147483647 a delta of 1 leaves the count 0, not
max(2147483647 + 1, 0) = 2147483648. -/
theorem updateOnboardCount_clamp_counterexample :
    IsSailingAt [sailingMaxCount] "AAA-01-01" 0 sailingMaxCount ∧
    sailingMaxCount.onboardVehicleCount = 2147483647 ∧
    SailingManager.updateOnboardCount [sailingMaxCount] "AAA-01-01" 1 =
      [{ sailingMaxCount with onboardVehicleCount := 0 }] ∧
    (0 : Int) ≠ max (sailingMaxCount.onboardVehicleCount + 1) 0 := by
  have hs : IsSailingAt [sailingMaxCount] "AAA-01-01" 0 sailingMaxCount :=
    isSailingAt_head sailingMaxCount []
  refine ⟨hs, rfl, ?_, by decide⟩
  rw [updateOnboardCount_of_isSailingAt hs]
  decide

/-- C28, amended: after `updateOnboardCount` on a date that a stored sailing carries,
the record the date names holds max(wrap(old + delta), 0) as its onboard count, where
wrap reduces the sum to the 32-bit two's-complement range of `int`; this is
max(old + delta, 0) whenever old + delta lies in that range.  The record keeps its
date, ferry name and two remainders; the file has as many records as before and every
other record is unchanged.  The count stored afterwards is never negative. -/
theorem updateOnboardCount_clamp (db : List SailingRecord) (date : String) (delta : Int)
    (i : Nat) (r : SailingRecord) (hs : IsSailingAt db date i r) :
    (SailingManager.updateOnboardCount db date delta)[i]? =
      some { r with onboardVehicleCount := max (wrapInt (r.onboardVehicleCount + delta)) 0 } ∧
    (-2147483648 ≤ r.onboardVehicleCount + delta → r.onboardVehicleCount + delta < 2147483648 →
      (SailingManager.updateOnboardCount db date delta)[i]? =
        some { r with onboardVehicleCount := max (r.onboardVehicleCount + delta) 0 }) ∧
    (SailingManager.updateOnboardCount db date delta).length = db.length ∧
    (∀ j, j ≠ i → (SailingManager.updateOnboardCount db date delta)[j]? = db[j]?) ∧
    (∀ r', (SailingManager.updateOnboardCount db date delta)[i]? = some r' →
      0 ≤ r'.onboardVehicleCount ∧ r'.date = r.date ∧ r'.ferryName = r.ferryName ∧
      r'.highLaneRestLength = r.highLaneRestLength ∧
      r'.lowLaneRestLength = r.lowLaneRestLength) := by
  have hmax : (if wrapInt (r.onboardVehicleCount + delta) < 0 then 0
      else wrapInt (r.onboardVehicleCount + delta)) =
      max (wrapInt (r.onboardVehicleCount + delta)) 0 := by
    split_ifs with h
    · rw [max_eq_right (le_of_lt h)]
    · rw [max_eq_left (not_lt.mp h)]
  have hi : i < db.length := isSailingAt_lt hs
  have hat : (SailingManager.updateOnboardCount db date delta)[i]? =
      some { r with onboardVehicleCount := max (wrapInt (r.onboardVehicleCount + delta)) 0 } := by
    rw [updateOnboardCount_of_isSailingAt hs, hmax, List.getElem?_set_self hi]
  refine ⟨hat, ?_, ?_, ?_, ?_⟩
  · intro h1 h2
    rw [hat, wrapInt_of_range _ h1 h2]
  · rw [updateOnboardCount_of_isSailingAt hs, List.length_set]
  · intro j hj
    rw [updateOnboardCount_of_isSailingAt hs, List.getElem?_set_ne (Ne.symm hj)]
  · intro r' hr'
    rw [hat] at hr'
    rw [← Option.some.inj hr']
    exact ⟨le_max_right _ _, rfl, rfl, rfl, rfl⟩

/-- C28 (amended) at concrete inputs: on the sailing stored with count 0 a delta of
-1 leaves 0 and a delta of 3 leaves 3. -/
theorem updateOnboardCount_clamp_witness :
    (SailingManager.updateOnboardCount [sailingA] "AAA-01-01" (-1))[0]? =
      some { sailingA with onboardVehicleCount := max (sailingA.onboardVehicleCount + -1) 0 } ∧
    (SailingManager.updateOnboardCount [sailingA] "AAA-01-01" 3)[0]? =
      some { sailingA with onboardVehicleCount := max (sailingA.onboardVehicleCount + 3) 0 } :=
  ⟨(updateOnboardCount_clamp [sailingA] "AAA-01-01" (-1) 0 sailingA
      (isSailingAt_head sailingA [])).2.1 (by decide) (by decide),
    (updateOnboardCount_clamp [sailingA] "AAA-01-01" 3 0 sailingA
      (isSailingAt_head sailingA [])).2.1 (by decide) (by decide)⟩

/-! ## Termination of the cascade -/

theorem cascadePass_clean (date : String) :
    ∀ (k : Nat) (res : List ReservationRecord) (b : Bool), k ≤ res.length →
      (∀ y ∈ res, y.sailingId ≠ date) →
      SailingManager.cascadePass date k res b = (res, b) := by
  intro k
  induction k with
  | zero =>
    intro res b _ _
    rfl
  | succ k ih =>
    intro res b hk hclean
    have hkl : k < res.length := hk
    have hx : res[k]? = some res[k] := List.getElem?_eq_getElem hkl
    have hget : ReservationASM.get res k = res[k] := get_of_getElem? res k _ hx
    have hne : (ReservationASM.get res k).sailingId ≠ date := by
      rw [hget]
      exact hclean _ (List.getElem_mem hkl)
    rw [cascadePass_succ, if_neg hne]
    exact ih res b (Nat.le_of_lt hkl) hclean

/-- C30: the cascade loop of `deleteSailingByDate` ends after at most two passes, for
every reservation file and date.  The first pass leaves no reservation of the date;
a second pass, run when the first deleted something, changes nothing and deletes
nothing, so the loop ends there.  Hence a bound of two passes gives a result, every
larger bound gives the same result, and `deleteSailingByDate` returns. -/
theorem cascade_terminates (date : String) (res : List ReservationRecord) :
    (∀ y ∈ (SailingManager.cascadePass date res.length res false).1, y.sailingId ≠ date) ∧
    SailingManager.cascadePass date
        (SailingManager.cascadePass date res.length res false).1.length
        (SailingManager.cascadePass date res.length res false).1 false =
      ((SailingManager.cascadePass date res.length res false).1, false) ∧
    SailingManager.cascadeLoop date 2 res =
      some (SailingManager.cascadePass date res.length res false).1 ∧
    (∀ fuel, 2 ≤ fuel →
      SailingManager.cascadeLoop date fuel res = SailingManager.cascadeLoop date 2 res) ∧
    (∀ (fuel : Nat) (st : Stores), 2 ≤ fuel → st.reservations = res →
      ∃ out, SailingManager.deleteSailingByDate fuel st date = some out) := by
  obtain ⟨h1, -, -⟩ := cascadePass_full date res
  have h2 := cascadePass_clean date _ _ false (le_refl _) h1
  have hloop : ∀ f : Nat, SailingManager.cascadeLoop date (f + 2) res =
      some (SailingManager.cascadePass date res.length res false).1 := by
    intro f
    rw [cascadeLoop_succ]
    by_cases hb : (SailingManager.cascadePass date res.length res false).2 = true
    · have hn : ¬ ((!(SailingManager.cascadePass date res.length res false).2) = true) := by
        rw [hb]
        simp
      rw [if_neg hn, cascadeLoop_succ, h2]
      rfl
    · have hn : (!(SailingManager.cascadePass date res.length res false).2) = true := by
        rw [Bool.not_eq_true] at hb
        rw [hb]
        rfl
      rw [if_pos hn]
  refine ⟨h1, h2, hloop 0, ?_, ?_⟩
  · intro fuel hfuel
    obtain ⟨f, rfl⟩ : ∃ f, fuel = f + 2 := ⟨fuel - 2, by omega⟩
    rw [hloop f, hloop 0]
  · intro fuel st hfuel hres
    obtain ⟨f, rfl⟩ : ∃ f, fuel = f + 2 := ⟨fuel - 2, by omega⟩
    cases hscan : scanFirst (fun r : SailingRecord => r.date == date) st.sailings with
    | none =>
      refine ⟨(false, st), ?_⟩
      simp only [SailingManager.deleteSailingByDate, hscan]
    | some p =>
      obtain ⟨i, s⟩ := p
      simp only [SailingManager.deleteSailingByDate, hscan, hres, hloop f]
      exact ⟨_, rfl⟩

/-- C30 at the worked example: with the three reservations of the example, two of them
on AAA-01-01, two passes end the cascade and leave the reservation on BBB-02-02. -/
theorem cascade_terminates_witness :
    SailingManager.cascadeLoop "AAA-01-01" 2 resEx =
      some [{ sailingId := "BBB-02-02", licensePlate := "XYZ789", isOnboard := false,
              laneUsed := 'H' }] ∧
    SailingManager.cascadeLoop "AAA-01-01" 5 resEx =
      SailingManager.cascadeLoop "AAA-01-01" 2 resEx :=
  ⟨by decide, (cascade_terminates "AAA-01-01" resEx).2.2.2.1 5 (by decide)⟩

/-! ## Exactness of the orphan purge -/

theorem deleteAll_perm_filter (P : ReservationRecord → Bool) :
    ∀ (ts : List Nat) (res : List ReservationRecord), ts.Pairwise (fun a b => a > b) →
      (∀ t ∈ ts, ∃ x, res[t]? = some x ∧ P x = true) →
      (∀ j x, res[j]? = some x → P x = true → j ∈ ts) →
      (deleteAll res ts).Perm (res.filter (fun r => !P r)) ∧
      (deleteAll res ts).length + ts.length = res.length := by
  intro ts
  induction ts with
  | nil =>
    intro res _ _ hall
    rw [deleteAll_nil]
    have hclean : ∀ y ∈ res, (!P y) = true := by
      intro y hy
      obtain ⟨j, hj⟩ := List.mem_iff_getElem?.mp hy
      by_contra hP
      have := hall j y hj (by simpa using hP)
      simp at this
    rw [List.filter_eq_self.mpr hclean]
    exact ⟨List.Perm.refl _, rfl⟩
  | cons t ts ih =>
    intro res hsorted hin hall
    rw [deleteAll_cons]
    rw [List.pairwise_cons] at hsorted
    obtain ⟨x, hx, hPx⟩ := hin t (List.mem_cons_self _ _)
    have ht : t < res.length := (List.getElem?_eq_some.mp hx).1
    have hlen := swapDelete_length res t ht
    have hin' : ∀ t' ∈ ts, ∃ x', (swapDelete res t)[t']? = some x' ∧ P x' = true := by
      intro t' ht'
      have h1 := hsorted.1 t' ht'
      obtain ⟨x', hx', hPx'⟩ := hin t' (List.mem_cons_of_mem _ ht')
      refine ⟨x', ?_, hPx'⟩
      rw [swapDelete_getElem? res t t' ht (by omega), if_neg (by omega)]
      exact hx'
    have hall' : ∀ j y, (swapDelete res t)[j]? = some y → P y = true → j ∈ ts := by
      intro j y hj hP
      have hjl : j < res.length - 1 := by
        rw [← hlen]
        exact (List.getElem?_eq_some.mp hj).1
      rw [swapDelete_getElem? res t j ht hjl] at hj
      by_cases hjt : j = t
      · subst hjt
        simp only [if_true] at hj
        have hmem := hall (res.length - 1) y hj hP
        rcases List.mem_cons.mp hmem with h | h
        · omega
        · have := hsorted.1 _ h
          omega
      · simp only [hjt, if_false] at hj
        rcases List.mem_cons.mp (hall j y hj hP) with h | h
        · exact absurd h hjt
        · exact h
    obtain ⟨hperm, hl⟩ := ih (swapDelete res t) hsorted.2 hin' hall'
    constructor
    · refine hperm.trans ?_
      have hp := (swapDelete_perm res t x hx).filter (fun r => !P r)
      rw [List.filter_cons_of_neg (by simp [hPx])] at hp
      exact hp.symm
    · rw [List.length_cons]
      omega

theorem purgeOrphans_perm_length (sailings : List SailingRecord)
    (res : List ReservationRecord) (plate : String) :
    (purgeOrphans sailings res plate).Perm
      (res.filter (fun r => !isOrphanOf sailings plate r)) ∧
    (purgeOrphans sailings res plate).length +
        (orphansOf sailings res (ReservationASM.findAllIndexesByLicense res plate)).length =
      res.length := by
  have h := deleteAll_perm_filter (isOrphanOf sailings plate) _ res
    (sorted_desc_orphans sailings res plate)
    (by
      intro t ht
      rw [List.mem_mergeSort, mem_orphansOf] at ht
      exact ht)
    (by
      intro j x hj hP
      rw [List.mem_mergeSort, mem_orphansOf]
      exact ⟨x, hj, hP⟩)
  rw [← purgeOrphans_eq] at h
  obtain ⟨hperm, hlen⟩ := h
  have hk : ((orphansOf sailings res
      (ReservationASM.findAllIndexesByLicense res plate)).mergeSort
        (fun a b => decide (a ≥ b))).length =
      (orphansOf sailings res (ReservationASM.findAllIndexesByLicense res plate)).length :=
    (List.mergeSort_perm _ _).length_eq
  rw [hk] at hlen
  exact ⟨hperm, hlen⟩

/-- C25: the orphan purge of `deleteFlow` removes exactly the orphans of the plate.  The
file after the purge holds the records that were no orphans of the plate, each as
often as before (same multiset), so the old file is the new one together with those
orphans; the new file has N - k records, k being the number of orphan indices the
purge deletes, which is the number of stored orphans of the plate. -/
theorem purge_is_exact (sailings : List SailingRecord) (res : List ReservationRecord)
    (plate : String) :
    (purgeOrphans sailings res plate).Perm
      (res.filter (fun r => !isOrphanOf sailings plate r)) ∧
    res.Perm (purgeOrphans sailings res plate ++ res.filter (isOrphanOf sailings plate)) ∧
    (purgeOrphans sailings res plate).length =
      res.length -
        (orphansOf sailings res (ReservationASM.findAllIndexesByLicense res plate)).length ∧
    (orphansOf sailings res (ReservationASM.findAllIndexesByLicense res plate)).length =
      (res.filter (isOrphanOf sailings plate)).length := by
  obtain ⟨hperm, hlen⟩ := purgeOrphans_perm_length sailings res plate
  have hsplit := List.length_eq_length_filter_add (l := res) (isOrphanOf sailings plate)
  have hl2 := hperm.length_eq
  refine ⟨hperm, ?_, by omega, by omega⟩
  have h2 := (List.filter_append_perm (isOrphanOf sailings plate) res).symm
  refine h2.trans ?_
  refine List.perm_append_comm.trans ?_
  exact List.Perm.append_right _ hperm.symm

/-- C25 at the worked example: with sailing AAA-01-01 alone in the sailing file, the
purge for plate XYZ789 deletes its reservation on BBB-02-02 and leaves the other
two. -/
theorem purge_is_exact_witness :
    orphansOf storesPurge.sailings storesPurge.reservations
      (ReservationASM.findAllIndexesByLicense storesPurge.reservations "XYZ789") = [1] ∧
    (purgeOrphans storesPurge.sailings storesPurge.reservations "XYZ789").length =
      storesPurge.reservations.length -
        (orphansOf storesPurge.sailings storesPurge.reservations
          (ReservationASM.findAllIndexesByLicense storesPurge.reservations "XYZ789")).length ∧
    (purgeOrphans storesPurge.sailings storesPurge.reservations "XYZ789").Perm
      (storesPurge.reservations.filter
        (fun r => !isOrphanOf storesPurge.sailings "XYZ789" r)) :=
  ⟨by decide,
    (purge_is_exact storesPurge.sailings storesPurge.reservations "XYZ789").2.2.1,
    (purge_is_exact storesPurge.sailings storesPurge.reservations "XYZ789").1⟩

/-! ## Uniqueness of the reservation keys -/

theorem keyUnique_of_perm_filter {res res' : List ReservationRecord}
    (p : ReservationRecord → Bool) (h : KeyUnique res) (hp : res'.Perm (res.filter p)) :
    KeyUnique res' := by
  have hsub : ((res.filter p).map (fun r => (r.licensePlate, r.sailingId))).Nodup :=
    h.sublist ((List.filter_sublist res).map _)
  exact (hp.map (fun r => (r.licensePlate, r.sailingId))).nodup_iff.mpr hsub

theorem keyUnique_swapDelete {res : List ReservationRecord} (h : KeyUnique res) (t : Nat) :
    KeyUnique (swapDelete res t) := by
  by_cases ht : t < res.length
  · have hx : res[t]? = some res[t] := List.getElem?_eq_getElem ht
    have hp := (swapDelete_perm res t _ hx).map (fun r => (r.licensePlate, r.sailingId))
    have hn := hp.nodup_iff.mp h
    rw [List.map_cons, List.nodup_cons] at hn
    exact hn.2
  · rw [swapDelete_out_of_range res t (not_lt.mp ht)]
    exact h

theorem keyUnique_purge {res : List ReservationRecord} (h : KeyUnique res)
    (sailings : List SailingRecord) (plate : String) :
    KeyUnique (purgeOrphans sailings res plate) :=
  keyUnique_of_perm_filter _ h (purgeOrphans_perm_length sailings res plate).1

theorem keyUnique_append_new {st : Stores} (h : KeyUnique st.reservations) (a : CreateAnswers)
    (hp : Proceeds st a) : KeyUnique (st.reservations ++ [newReservation st a]) := by
  show ((st.reservations ++ [newReservation st a]).map
    (fun r => (r.licensePlate, r.sailingId))).Nodup
  rw [List.map_append, List.map_singleton]
  apply List.Nodup.append h (List.nodup_singleton _)
  intro k hk hk'
  rw [List.mem_singleton] at hk'
  obtain ⟨r, hr, hrk⟩ := List.mem_map.mp hk
  have hex : ReservationASM.existsReservation st.reservations a.plate (selectedSailing st a) =
      true := by
    rw [existsReservation_iff]
    have h2 : (r.licensePlate, r.sailingId) = (a.plate, selectedSailing st a) :=
      hrk.trans hk'
    exact ⟨r, hr, congrArg Prod.fst h2, congrArg Prod.snd h2⟩
  rw [hp.2.2.1] at hex
  exact absurd hex (by simp)

theorem keyUnique_createFlow {st : Stores} (h : KeyUnique st.reservations) (a : CreateAnswers)
    (w : WriteOutcome) : KeyUnique (createFlow st a w).2.reservations := by
  rcases createFlow_cases st a w with hc | ⟨-, hc⟩ | ⟨hp, -, hc⟩ | ⟨hp, -, -, hc⟩
  · rw [hc]
    exact h
  · rw [hc]
    exact h
  · rw [hc]
    exact keyUnique_append_new h a hp
  · rw [hc]
    show KeyUnique (if w = WriteOutcome.buffered then st.reservations ++ [newReservation st a]
      else st.reservations)
    split_ifs
    · exact keyUnique_append_new h a hp
    · exact h

theorem keyUnique_deleteFlow {st : Stores} (h : KeyUnique st.reservations) (d : DeleteAnswers) :
    KeyUnique (deleteFlow st d).2.reservations := by
  have hpurge := keyUnique_purge h st.sailings d.plate
  rcases deleteFlow_cases st d with hc | hc | ⟨sel, t, -, -, hc⟩ | ⟨sel, t, -, -, hc⟩
  · rw [hc]
    exact h
  · rw [hc]
    exact hpurge
  · rw [hc]
    exact keyUnique_swapDelete hpurge t
  · rw [hc]
    exact keyUnique_swapDelete hpurge t

theorem keyUnique_checkInFlow {st : Stores} (h : KeyUnique st.reservations)
    (rounds : List CheckInAnswers) : KeyUnique (checkInFlow st rounds).reservations := by
  obtain ⟨-, -, hk⟩ := checkInFlow_frame rounds st
  have hmap : ∀ l : List ReservationRecord,
      l.map (fun r => (r.licensePlate, r.sailingId)) =
        (l.map resKey).map (fun k => (k.2.1, k.1)) := by
    intro l
    rw [List.map_map]
    rfl
  show ((checkInFlow st rounds).reservations.map (fun r => (r.licensePlate, r.sailingId))).Nodup
  rw [hmap, hk, ← hmap]
  exact h

theorem keyUnique_cascade {res res' : List ReservationRecord} (h : KeyUnique res)
    (date : String) (fuel : Nat) (hc : SailingManager.cascadeLoop date fuel res = some res') :
    KeyUnique res' :=
  keyUnique_of_perm_filter _ h (cascadeLoop_sound date fuel res res' hc).2

/-- C26: when no two stored reservations share the pair (licensePlate, sailingId), the
same holds after `createFlow`, after the orphan purge of `deleteFlow`, after
`deleteFlow` as a whole, after `checkInFlow` and after the cascade of
`deleteSailingByDate`, whatever the answers, the plate and the date; with room for
two passes the cascade and `deleteSailingByDate` do produce their result. -/
theorem key_uniqueness_invariant (st : Stores) (h : KeyUnique st.reservations) :
    (∀ (a : CreateAnswers) (w : WriteOutcome), KeyUnique (createFlow st a w).2.reservations) ∧
    (∀ plate : String, KeyUnique (purgeOrphans st.sailings st.reservations plate)) ∧
    (∀ d : DeleteAnswers, KeyUnique (deleteFlow st d).2.reservations) ∧
    (∀ rounds : List CheckInAnswers, KeyUnique (checkInFlow st rounds).reservations) ∧
    (∀ (date : String) (fuel : Nat) (res' : List ReservationRecord),
      SailingManager.cascadeLoop date fuel st.reservations = some res' → KeyUnique res') ∧
    (∀ (date : String) (fuel : Nat) (b : Bool) (st' : Stores),
      SailingManager.deleteSailingByDate fuel st date = some (b, st') →
      KeyUnique st'.reservations) ∧
    (∀ (date : String) (fuel : Nat), 2 ≤ fuel →
      ∃ res', SailingManager.cascadeLoop date fuel st.reservations = some res') := by
  refine ⟨fun a w => keyUnique_createFlow h a w, fun plate => keyUnique_purge h _ plate,
    fun d => keyUnique_deleteFlow h d, fun rounds => keyUnique_checkInFlow h rounds,
    fun date fuel res' hc => keyUnique_cascade h date fuel hc, ?_, ?_⟩
  · intro date fuel b st' hd
    cases hscan : scanFirst (fun r : SailingRecord => r.date == date) st.sailings with
    | none =>
      simp only [SailingManager.deleteSailingByDate, hscan, Option.some.injEq,
        Prod.mk.injEq] at hd
      rw [← hd.2]
      exact h
    | some p =>
      obtain ⟨i, s⟩ := p
      cases hloop : SailingManager.cascadeLoop date fuel st.reservations with
      | none =>
        simp only [SailingManager.deleteSailingByDate, hscan, hloop] at hd
        exact absurd hd (by simp)
      | some res =>
        simp only [SailingManager.deleteSailingByDate, hscan, hloop, Option.some.injEq,
          Prod.mk.injEq] at hd
        rw [← hd.2]
        exact keyUnique_cascade h date fuel hloop
  · intro date fuel hfuel
    obtain ⟨res', hr, -, -⟩ := cascadeLoop_spec date fuel st.reservations hfuel
    exact ⟨res', hr⟩

theorem keyUnique_resEx : KeyUnique resEx := by
  show (resEx.map (fun r => (r.licensePlate, r.sailingId))).Nodup
  decide

/-- C26 at the worked example: the three reservations of the example have pairwise
distinct keys, and so have the reservations after a booking, after a deletion and
after a check-in on them. -/
theorem key_uniqueness_invariant_witness :
    KeyUnique (createFlow storesTwo answersABC WriteOutcome.written).2.reservations ∧
    KeyUnique (deleteFlow storesTwo deleteABC).2.reservations ∧
    KeyUnique (checkInFlow storesTwo
      [{ plate := "ABC123", choice := some 1, confirm := true }]).reservations :=
  have h := key_uniqueness_invariant storesTwo keyUnique_resEx
  ⟨h.1 answersABC WriteOutcome.written, h.2.2.1 deleteABC, h.2.2.2.1 _⟩

end FerrySys
